import Mathlib

/-!
# log-metrics-simulator: the scenario manager

A shallow embedding of `backend/scenarios/scenarios.go`, `backend/storage/memory.go`
and `backend/models/models.go`.

Go objects that the program reaches through pointers or map references
(`*models.Scenario`, `*models.Schedule`, `map[string]string`,
`map[string]interface{}`) live in an explicit heap and are named by their
address, so that aliasing between the manager's indices, the store and the
workers is visible.  Every method that runs under `sm.mutex` is one atomic
transition of the manager.
-/

namespace LogSim

/-! ## Go values -/

/-- Address of a heap object. -/
abbrev Addr := Nat

/-- Instants (`time.Time`) and durations (`time.Duration`) in nanoseconds. -/
abbrev Time := Int

/-- Unit `time.Second` in nanoseconds. -/
def Second : Int := 1000000000

/-- Unit `time.Minute` in nanoseconds. -/
def Minute : Int := 60 * Second

/-- Unit `time.Hour` in nanoseconds. -/
def Hour : Int := 60 * Minute

/-- Two's complement wrap of an integer into the `int64` range. -/
def wrapInt64 (x : Int) : Int := (x + 2 ^ 63) % 2 ^ 64 - 2 ^ 63

/-- Go conversion of a `float64` to `int64` (`int(x)`, `time.Duration(x)`): the
fraction is discarded, rounding toward zero. A `float64` is represented by the
rational it denotes. When the truncation leaves the `int64` range Go leaves the
result to the platform; on amd64 the conversion instruction then yields the
smallest `int64`, which is what this definition takes. -/
def float64ToInt64 (x : ℚ) : Int :=
  if -(2 ^ 63) ≤ Int.tdiv x.num x.den ∧ Int.tdiv x.num x.den < 2 ^ 63 then
    Int.tdiv x.num x.den
  else -(2 ^ 63)

/-- Go product of two `int64` values, as in `time.Duration(d) * time.Second`. -/
def mulInt64 (a b : Int) : Int := wrapInt64 (a * b)

/-- A dynamically typed Go value (`interface{}`), as found in the values of a
`map[string]interface{}`. JSON decoding produces `float64` for every number. -/
inductive GoValue where
  | nil
  | bool (b : Bool)
  | int (n : Int)
  | float64 (x : ℚ)
  | string (s : String)
  | list (xs : List GoValue)
  | map (m : List (String × GoValue))

/-- A Go map with string keys, as an association list. -/
abbrev GoMap (β : Type) := List (String × β)

/-- Lookup `m[k]`. -/
def mapGet {β : Type} (m : GoMap β) (k : String) : Option β :=
  match m with
  | [] => none
  | (k', v) :: rest => if k' = k then some v else mapGet rest k

/-- Assignment `m[k] = v`. -/
def mapSet {β : Type} (m : GoMap β) (k : String) (v : β) : GoMap β :=
  match m with
  | [] => [(k, v)]
  | (k', v') :: rest => if k' = k then (k, v) :: rest else (k', v') :: mapSet rest k v

/-- Removal `delete(m, k)`. -/
def mapDelete {β : Type} (m : GoMap β) (k : String) : GoMap β :=
  m.filter (fun p => p.1 ≠ k)

/-- Keys of a map. -/
def mapKeys {β : Type} (m : GoMap β) : List String := m.map Prod.fst

/-- Type assertion `v.(float64)` on the result of a map lookup. -/
def asFloat64 : Option GoValue → Option ℚ
  | some (GoValue.float64 x) => some x
  | _ => none

/-- Type assertion `v.(string)` on the result of a map lookup. -/
def asString : Option GoValue → Option String
  | some (GoValue.string s) => some s
  | _ => none

/-- Type assertion `v.(map[string]interface{})` on the result of a map lookup. -/
def asMap : Option GoValue → Option (GoMap GoValue)
  | some (GoValue.map m) => some m
  | _ => none

/-- Type assertion `v.(bool)` on the result of a map lookup. -/
def asBool : Option GoValue → Option Bool
  | some (GoValue.bool b) => some b
  | _ => none

/-! ## models.go -/

/-- Struct `models.ScenarioConfig`; the two maps are held by reference. -/
structure ScenarioConfig where
  Name : String
  Description : String
  LogCount : Int
  Parameters : Addr
  Labels : Addr
deriving DecidableEq, Repr

/-- Struct `models.Scenario`. -/
structure Scenario where
  Type_ : String
  Active : Bool
  Config : ScenarioConfig
  Started : Time
  Duration : Int
  Interval : Int
  StartDate : Option Time
  EndDate : Option Time
deriving DecidableEq, Repr

/-- Struct `models.Schedule`. -/
structure Schedule where
  ID : String
  Name : String
  ScenarioType : String
  CronExpr : String
  Enabled : Bool
  StartDate : Option Time
  EndDate : Option Time
  LastRun : Option Time
  NextRun : Option Time
  CreatedAt : Time
deriving DecidableEq, Repr

/-- Struct `models.ScheduleExecution`. -/
structure ScheduleExecution where
  ID : String
  ScheduleID : String
  ScenarioType : String
  Status : String
  StartedAt : Time
  CompletedAt : Option Time
  Error : String
  LogsCount : Int
deriving DecidableEq, Repr

/-- Struct `models.ChainStep`; a nil `Config` is `none`. -/
structure ChainStep where
  ScenarioType : String
  Name : String
  Config : Option (GoMap GoValue)
  DelayBefore : Int
  Order : Int

/-- Struct `models.ScenarioChain`. -/
structure ScenarioChain where
  ID : String
  Name : String
  Description : String
  Steps : List ChainStep
  Status : String
  StartedAt : Option Time
  CompletedAt : Option Time
  CreatedAt : Time
  CreatedBy : String

/-- Struct `models.ChainExecutionStep`. -/
structure ChainExecutionStep where
  StepIndex : Int
  ScenarioType : String
  Status : String
  StartedAt : Option Time
  CompletedAt : Option Time
  Error : String
deriving DecidableEq, Repr

/-- Struct `models.ChainExecution`. -/
structure ChainExecution where
  ID : String
  ChainID : String
  Status : String
  StartedAt : Time
  CompletedAt : Option Time
  Error : String
  Steps : List ChainExecutionStep
deriving DecidableEq, Repr

/-- The heap: the objects the program holds by pointer or by map reference. An
address is an index into the list of its kind; allocation appends. -/
structure Heap where
  scenarios : List Scenario
  schedules : List Schedule
  labelMaps : List (GoMap String)
  paramMaps : List (GoMap GoValue)
  executions : List ScheduleExecution
  chains : List ScenarioChain
  chainExecutions : List ChainExecution

/-- Contents of the `map[string]string` at address `a`; an address that is not
allocated reads as the nil map. -/
def Heap.labels (h : Heap) (a : Addr) : GoMap String := (h.labelMaps[a]?).getD []

/-- Contents of the `map[string]interface{}` at address `a`. -/
def Heap.params (h : Heap) (a : Addr) : GoMap GoValue := (h.paramMaps[a]?).getD []

/-! ## storage/memory.go -/

/-- Struct `storage.MemoryStorage`, without the collection of chain schedules.
The maps hold pointers. -/
structure MemoryStorage where
  scenarios : GoMap Addr
  schedules : GoMap Addr
  executions : GoMap Addr
  chains : GoMap Addr
  chainExecutions : GoMap Addr
deriving DecidableEq, Repr

/-- Constructor `NewMemoryStorage`. -/
def NewMemoryStorage : MemoryStorage :=
  { scenarios := [], schedules := [], executions := [], chains := [], chainExecutions := [] }

/-- Method `SaveScenario`, given the scenario's `Type`. -/
def MemoryStorage.SaveScenario (m : MemoryStorage) (type_ : String) (p : Addr) : MemoryStorage :=
  { m with scenarios := mapSet m.scenarios type_ p }

/-- Method `UpdateScenario`, given the scenario's `Type`. -/
def MemoryStorage.UpdateScenario (m : MemoryStorage) (type_ : String) (p : Addr) : MemoryStorage :=
  { m with scenarios := mapSet m.scenarios type_ p }

/-- Method `DeleteScenario`. -/
def MemoryStorage.DeleteScenario (m : MemoryStorage) (scenarioType : String) : MemoryStorage :=
  { m with scenarios := mapDelete m.scenarios scenarioType }

/-- Method `GetActiveScenarios`: the stored pointers whose scenario has `Active` set. -/
def MemoryStorage.GetActiveScenarios (m : MemoryStorage) (h : Heap) : List Addr :=
  (m.scenarios.map Prod.snd).filter (fun p =>
    match h.scenarios[p]? with
    | some sc => sc.Active
    | none => false)

/-- Method `SaveSchedule`, given the schedule's `ID`. -/
def MemoryStorage.SaveSchedule (m : MemoryStorage) (id : String) (p : Addr) : MemoryStorage :=
  { m with schedules := mapSet m.schedules id p }

/-- Method `UpdateSchedule`, given the schedule's `ID`. -/
def MemoryStorage.UpdateSchedule (m : MemoryStorage) (id : String) (p : Addr) : MemoryStorage :=
  { m with schedules := mapSet m.schedules id p }

/-- Method `GetSchedules`. -/
def MemoryStorage.GetSchedules (m : MemoryStorage) : List Addr := m.schedules.map Prod.snd

/-- Method `DeleteSchedule` of the store. -/
def MemoryStorage.DeleteSchedule (m : MemoryStorage) (id : String) : MemoryStorage :=
  { m with schedules := mapDelete m.schedules id }

/-- Method `SaveExecution`, given the execution's `ID`. -/
def MemoryStorage.SaveExecution (m : MemoryStorage) (id : String) (p : Addr) : MemoryStorage :=
  { m with executions := mapSet m.executions id p }

/-- Method `SaveChain`, given the chain's `ID`. -/
def MemoryStorage.SaveChain (m : MemoryStorage) (id : String) (p : Addr) : MemoryStorage :=
  { m with chains := mapSet m.chains id p }

/-- Method `GetChain`: the stored pointer, nil (`none`) when the id is unknown. -/
def MemoryStorage.GetChain (m : MemoryStorage) (id : String) : Option Addr :=
  mapGet m.chains id

/-- Method `DeleteChain` of the store. -/
def MemoryStorage.DeleteChain (m : MemoryStorage) (id : String) : MemoryStorage :=
  { m with chains := mapDelete m.chains id }

/-- Method `SaveChainExecution`, given the execution's `ID`. -/
def MemoryStorage.SaveChainExecution (m : MemoryStorage) (id : String) (p : Addr) :
    MemoryStorage :=
  { m with chainExecutions := mapSet m.chainExecutions id p }

/-- Method `UpdateChainExecution`, given the execution's `ID`. -/
def MemoryStorage.UpdateChainExecution (m : MemoryStorage) (id : String) (p : Addr) :
    MemoryStorage :=
  { m with chainExecutions := mapSet m.chainExecutions id p }

/-! ## scenarios.go: catalogue, errors, environment -/

/-- The errors the manager returns, one constructor per `fmt.Errorf` site:
`UnknownScenario` is "сценарий не найден: %s", `NotActive` is
"сценарий не активен: %s", `InvalidCron` is "неверное cron выражение: %v",
`InvalidDateRange` is "дата окончания не может быть раньше даты начала" and
`CronAdd` is "ошибка добавления в cron: %v"; the messages of the others are
given by `SMError.Error`. -/
inductive SMError where
  | UnknownScenario (scenarioType : String)
  | NotActive (scenarioType : String)
  | InvalidCron (err : String)
  | InvalidDateRange
  | CronAdd (err : String)
  | ScheduleNotFound (scheduleID : String)
  | AlreadyEnabled
  | AlreadyDisabled
  | ChainNotFound (chainID : String)
  | ChainRunning
  | ChainExecutionNotFound (chainExecutionID : String)
deriving DecidableEq, Repr

/-- Method `Error()` of the errors built by `fmt.Errorf`. -/
def SMError.Error : SMError → String
  | SMError.UnknownScenario scenarioType => "сценарий не найден: " ++ scenarioType
  | SMError.NotActive scenarioType => "сценарий не активен: " ++ scenarioType
  | SMError.InvalidCron err => "неверное cron выражение: " ++ err
  | SMError.InvalidDateRange => "дата окончания не может быть раньше даты начала"
  | SMError.CronAdd err => "ошибка добавления в cron: " ++ err
  | SMError.ScheduleNotFound scheduleID => "расписание не найдено: " ++ scheduleID
  | SMError.AlreadyEnabled => "расписание уже активно"
  | SMError.AlreadyDisabled => "расписание уже отключено"
  | SMError.ChainNotFound chainID => "цепочка не найдена: " ++ chainID
  | SMError.ChainRunning => "невозможно удалить выполняющуюся цепочку"
  | SMError.ChainExecutionNotFound chainExecutionID =>
    "выполнение цепочки не найдено: " ++ chainExecutionID

/-- The library functions the manager calls (package `time` and
`github.com/robfig/cron/v3`), which are not part of the repository. A parser
returns the error it reports, if any. -/
structure Env where
  /-- Call `time.Parse(time.RFC3339, s)` -/
  parseRFC3339 : String → Option Time
  /-- Call `cron.ParseStandard(expr)` -/
  ParseStandard : String → Option String
  /-- The parser of `sm.cronScheduler`, applied by `AddFunc` -/
  schedulerParse : String → Option String
  /-- Next activation of a parsed expression after an instant -/
  scheduleNext : String → Time → Time

/-- Label maps of the entries of `predefinedScenarios`, in source order: the
objects at addresses 0 to 4 of the initial heap. -/
def predefinedLabelMaps : List (GoMap String) :=
  [ [("test_type", "load"), ("environment", "testing")],
    [("test_type", "errors"), ("environment", "testing")],
    [("test_type", "performance"), ("environment", "testing")],
    [("environment", "production")],
    [("test_type", "continuous"), ("environment", "testing")] ]

/-- Parameter maps of the entries of `predefinedScenarios`, in source order. -/
def predefinedParamMaps : List (GoMap GoValue) :=
  [ [("interval_ms", GoValue.int 10)],
    [("error_rate", GoValue.float64 (1 / 2))],
    [("response_delay", GoValue.int 2000)],
    [("error_rate", GoValue.float64 (1 / 20))],
    [("interval_seconds", GoValue.int 5)] ]

/-- Package variable `predefinedScenarios`. No statement of the package assigns
to it or to one of its entries. -/
def predefinedScenarios : GoMap ScenarioConfig :=
  [ ("load_test",
      { Name := "Load Test", Description := "Генерация высокой нагрузки",
        LogCount := 1000, Labels := 0, Parameters := 0 }),
    ("error_spike",
      { Name := "Error Spike", Description := "Всплеск ошибок в системе",
        LogCount := 200, Labels := 1, Parameters := 1 }),
    ("slow_responses",
      { Name := "Slow Responses", Description := "Имитация медленных ответов",
        LogCount := 500, Labels := 2, Parameters := 2 }),
    ("normal_operation",
      { Name := "Normal Operation", Description := "Нормальная работа системы",
        LogCount := 300, Labels := 3, Parameters := 3 }),
    ("continuous_load",
      { Name := "Continuous Load", Description := "Постоянная нагрузка",
        LogCount := 100, Labels := 4, Parameters := 4 }) ]

/-- The heap once the package variables are set up. -/
def initialHeap : Heap :=
  { scenarios := [], schedules := [],
    labelMaps := predefinedLabelMaps, paramMaps := predefinedParamMaps,
    executions := [], chains := [], chainExecutions := [] }

/-! ## The cron runtime, as the manager observes it -/

/-- One entry of the cron runtime: its id, its expression, the schedule its
callback closes over, and its next activation. -/
structure CronEntry where
  ID : Nat
  Spec : String
  Job : Addr
  Next : Time
deriving DecidableEq, Repr

/-- State of `sm.cronScheduler`. -/
structure Cron where
  entries : List CronEntry
  nextID : Nat
  running : Bool
deriving DecidableEq, Repr

/-- The zero `time.Time` (January 1, year 1, UTC), in nanoseconds from the Unix epoch. -/
def zeroTime : Time := -62135596800 * Second

/-- Result of `cron.New(...)`. -/
def Cron.New : Cron := { entries := [], nextID := 0, running := false }

/-- Method `AddFunc`: parses with the scheduler's parser; on success takes the
next id and records the entry. The next activation is computed by the run loop,
so it is the zero time while the scheduler is not running. -/
def Cron.AddFunc (env : Env) (now : Time) (c : Cron) (spec : String) (job : Addr) :
    Except String (Nat × Cron) :=
  match env.schedulerParse spec with
  | some err => Except.error err
  | none =>
    let id := c.nextID + 1
    let next := if c.running then env.scheduleNext spec now else zeroTime
    Except.ok (id, { c with nextID := id,
                            entries := c.entries ++ [{ ID := id, Spec := spec, Job := job, Next := next }] })

/-- Method `Remove`. -/
def Cron.Remove (c : Cron) (id : Nat) : Cron :=
  { c with entries := c.entries.filter (fun e => e.ID ≠ id) }

/-- Field `Next` of `Entry(id)`; the zero entry when the id is unknown. -/
def Cron.EntryNext (c : Cron) (id : Nat) : Time :=
  match c.entries.find? (fun e => e.ID = id) with
  | some e => e.Next
  | none => zeroTime

/-- Method `Start`: the run loop computes the next activation of every entry. -/
def Cron.Start (env : Env) (now : Time) (c : Cron) : Cron :=
  if c.running then c
  else { c with running := true,
                entries := c.entries.map (fun e => { e with Next := env.scheduleNext e.Spec now }) }

/-! ## The manager -/

/-- Struct `ScenarioManager` with the objects it reaches: the heap, the store,
the scenario workers started by `go sm.executeScenario(scenario)` that have
not returned yet, each named by the scenario it holds, and likewise the chain
workers started by `go sm.executeChain(chain, execution)`, each named by its
chain and its execution. The chain schedules are outside this model. -/
structure ScenarioManager where
  heap : Heap
  storage : MemoryStorage
  activeScenarios : GoMap Addr
  schedules : GoMap Addr
  activeChains : GoMap Addr
  cronScheduler : Cron
  cronEntries : GoMap Nat
  workers : List Addr
  chainWorkers : List (Addr × Addr)

/-- Dereference of a `*models.Scenario`. -/
def ScenarioManager.scenario (sm : ScenarioManager) (p : Addr) : Option Scenario :=
  sm.heap.scenarios[p]?

/-- Dereference of a `*models.Schedule`. -/
def ScenarioManager.schedule (sm : ScenarioManager) (p : Addr) : Option Schedule :=
  sm.heap.schedules[p]?

/-- Store through a `*models.Scenario`. -/
def Heap.setScenario (h : Heap) (p : Addr) (sc : Scenario) : Heap :=
  { h with scenarios := h.scenarios.set p sc }

/-- Store through a `*models.Schedule`. -/
def Heap.setSchedule (h : Heap) (p : Addr) (s : Schedule) : Heap :=
  { h with schedules := h.schedules.set p s }

/-! ## Scenario engine -/

/-- The loop `for k, v := range src { dst[k] = v }`. The iteration order of a Go
map is unspecified; entries are taken so that the outcome does not depend on it
when keys are distinct. -/
def copyInto {β : Type} (src dst : GoMap β) : GoMap β :=
  src.foldr (fun kv acc => mapSet acc kv.1 kv.2) dst

/-- The loop over `labels` in `StartScenario`: string values are assigned, other
values skipped. -/
def mergeLabels (labels : GoMap GoValue) (dst : GoMap String) : GoMap String :=
  labels.foldr (fun kv acc =>
    match kv.2 with
    | GoValue.string strVal => mapSet acc kv.1 strVal
    | _ => acc) dst

/-- Statement `if logCount, ok := customConfig["log_count"].(float64); ok`. -/
def customLogCount (customConfig : GoMap GoValue) (logCount : Int) : Int :=
  match asFloat64 (mapGet customConfig "log_count") with
  | some x => float64ToInt64 x
  | none => logCount

/-- Statement `if labels, ok := customConfig["labels"].(map[string]interface{}); ok`. -/
def customLabels (customConfig : GoMap GoValue) (labels : GoMap String) : GoMap String :=
  match asMap (mapGet customConfig "labels") with
  | some m => mergeLabels m labels
  | none => labels

/-- The two statements of `StartScenario` that assign `duration`, in source order. -/
def customDuration (customConfig : GoMap GoValue) : Int :=
  let duration := 0 * Second
  let duration :=
    match asFloat64 (mapGet customConfig "duration_minutes") with
    | some dur => mulInt64 (float64ToInt64 dur) Minute
    | none => duration
  let duration :=
    match asFloat64 (mapGet customConfig "duration_seconds") with
    | some dur => mulInt64 (float64ToInt64 dur) Second
    | none => duration
  duration

/-- The two statements of `StartScenario` that assign `interval`, in source order. -/
def customInterval (customConfig : GoMap GoValue) : Int :=
  let interval := 0 * Second
  let interval :=
    match asFloat64 (mapGet customConfig "interval_seconds") with
    | some interv => mulInt64 (float64ToInt64 interv) Second
    | none => interval
  let interval :=
    match asFloat64 (mapGet customConfig "interval_minutes") with
    | some interv => mulInt64 (float64ToInt64 interv) Minute
    | none => interval
  interval

/-- The statement of `StartScenario` that reads `start_date` or `end_date`. -/
def customDate (env : Env) (customConfig : GoMap GoValue) (key : String) : Option Time :=
  match asString (mapGet customConfig key) with
  | some str => env.parseRFC3339 str
  | none => none

/-- Method `StartScenario`. The new scenario and its two maps are allocated at
the end of the heap; the worker started by `go sm.executeScenario(scenario)` is
recorded in `workers`. -/
def StartScenario (env : Env) (now : Time) (scenarioType : String)
    (customConfig : Option (GoMap GoValue)) (sm : ScenarioManager) :
    Option SMError × ScenarioManager :=
  match mapGet predefinedScenarios scenarioType with
  | none => (some (SMError.UnknownScenario scenarioType), sm)
  | some config =>
    let labelsAddr := sm.heap.labelMaps.length
    let paramsAddr := sm.heap.paramMaps.length
    let labels := copyInto (sm.heap.labels config.Labels) []
    let params := copyInto (sm.heap.params config.Parameters) []
    -- a nil `customConfig` skips the block; every lookup in the empty map fails alike
    let cc : GoMap GoValue := customConfig.getD []
    let scenarioConfig : ScenarioConfig :=
      { Name := config.Name, Description := config.Description,
        LogCount := customLogCount cc config.LogCount,
        Labels := labelsAddr, Parameters := paramsAddr }
    let scenario : Scenario :=
      { Type_ := scenarioType, Active := true, Config := scenarioConfig, Started := now,
        Duration := customDuration cc, Interval := customInterval cc,
        StartDate := customDate env cc "start_date", EndDate := customDate env cc "end_date" }
    let p := sm.heap.scenarios.length
    let heap : Heap :=
      { sm.heap with scenarios := sm.heap.scenarios ++ [scenario],
                     labelMaps := sm.heap.labelMaps ++ [customLabels cc labels],
                     paramMaps := sm.heap.paramMaps ++ [params] }
    (none, { sm with heap := heap,
                     activeScenarios := mapSet sm.activeScenarios scenarioType p,
                     storage := sm.storage.SaveScenario scenarioType p,
                     workers := sm.workers ++ [p] })

/-- Method `StopScenario`. -/
def StopScenario (scenarioType : String) (sm : ScenarioManager) :
    Option SMError × ScenarioManager :=
  match mapGet sm.activeScenarios scenarioType with
  | none => (some (SMError.NotActive scenarioType), sm)
  | some p =>
    match sm.scenario p with
    | none => (none, sm)
    | some scenario =>
      (none, { sm with heap := sm.heap.setScenario p { scenario with Active := false },
                       storage := sm.storage.UpdateScenario scenario.Type_ p })

/-- The execution modes of a scenario worker. -/
inductive Mode where
  | Periodic
  | Timed
  | Single
deriving DecidableEq, Repr

/-- The mode selection of `executeScenario` (the `if` chain under "Определяем
режим выполнения"). -/
def executeScenarioMode (scenario : Scenario) : Mode :=
  if scenario.Interval > 0 then Mode.Periodic
  else if scenario.Duration > 0 then Mode.Timed
  else Mode.Single

/-- The end of `executeScenario`, run under `sm.mutex` by the worker holding
scenario `p` once its mode function has returned. -/
def executeScenarioExit (p : Addr) (sm : ScenarioManager) : ScenarioManager :=
  match sm.scenario p with
  | none => sm
  | some scenario =>
    { sm with heap := sm.heap.setScenario p { scenario with Active := false },
              storage := (sm.storage.UpdateScenario scenario.Type_ p).DeleteScenario scenario.Type_,
              activeScenarios := mapDelete sm.activeScenarios scenario.Type_,
              workers := sm.workers.erase p }

/-- The two early `return`s of `executeScenario` during the wait for the start
date: the worker ends and touches nothing. -/
def executeScenarioAbandon (p : Addr) (sm : ScenarioManager) : ScenarioManager :=
  { sm with workers := sm.workers.erase p }

/-- The choice of `endTime` at the top of `executeTimedScenario`. -/
def timedEndTime (scenario : Scenario) (now : Time) : Time :=
  match scenario.EndDate with
  | some endDate => endDate
  | none =>
    if scenario.Duration > 0 then now + scenario.Duration
    else now + 365 * 24 * Hour

/-- Go integer quotient `a / b`: truncated, and a run-time panic (`none`) when
the divisor is zero. -/
def goDiv (a b : Int) : Option Int :=
  if b = 0 then none else some (Int.tdiv a b)

/-- The batch size computed on a pulse of `executeTimedScenario`, from
`scenario.Config.LogCount` and `timeUntilEnd` (in seconds): the statement
`batchSize := scenario.Config.LogCount / int(timeUntilEnd/10)` followed by the
clamp `if batchSize < 1`. `none` is the panic of the division. The rounding of
the `float64` quotient is not modelled. -/
def timedBatchSize (logCount : Int) (timeUntilEnd : ℚ) : Option Int :=
  match goDiv logCount (float64ToInt64 (timeUntilEnd / 10)) with
  | none => none
  | some batchSize => some (if batchSize < 1 then 1 else batchSize)

/-- What a pulse of the ticker of `executeTimedScenario` does. -/
inductive Pulse where
  | Return
  | Panic
  | Generate (batchSize : Int)
deriving DecidableEq, Repr

/-- The body of `case <-ticker.C` in `executeTimedScenario`, at instant `now`. -/
def timedPulse (scenario : Scenario) (endTime now : Time) : Pulse :=
  if !scenario.Active || now > endTime then Pulse.Return
  else
    let timeUntilEnd : ℚ := ((endTime - now : Int) : ℚ) / 1000000000
    if timeUntilEnd ≤ 0 then Pulse.Return
    else
      match timedBatchSize scenario.Config.LogCount timeUntilEnd with
      | none => Pulse.Panic
      | some batchSize => Pulse.Generate batchSize

/-! ## Schedule engine -/

/-- Digit of `strconv.FormatInt` in base 36. -/
def digit36 (d : Nat) : Char :=
  if d < 10 then Char.ofNat (48 + d) else Char.ofNat (87 + d)

/-- Base-36 digits of `n`, most significant first, in front of `acc`. -/
def base36Digits (fuel n : Nat) (acc : List Char) : List Char :=
  match fuel with
  | 0 => acc
  | fuel + 1 =>
    if n / 36 = 0 then digit36 (n % 36) :: acc
    else base36Digits fuel (n / 36) (digit36 (n % 36) :: acc)

/-- Function `generateID`: `strconv.FormatInt(time.Now().UnixNano(), 36)`. -/
def generateID (now : Time) : String :=
  if now < 0 then String.mk ('-' :: base36Digits (now.natAbs + 1) now.natAbs [])
  else String.mk (base36Digits (now.natAbs + 1) now.natAbs [])

/-- The test `d != nil && now.After(*d)`. -/
def isAfter (now : Time) (d : Option Time) : Bool :=
  match d with
  | some t => decide (now > t)
  | none => false

/-- The test `d != nil && now.Before(*d)`. -/
def isBefore (now : Time) (d : Option Time) : Bool :=
  match d with
  | some t => decide (now < t)
  | none => false

/-- The statement `if entryID, exists := sm.cronEntries[id]; exists` with body
`sm.cronScheduler.Remove(entryID); delete(sm.cronEntries, id)`. -/
def removeCronEntry (id : String) (sm : ScenarioManager) : ScenarioManager :=
  match mapGet sm.cronEntries id with
  | some entryID =>
    { sm with cronScheduler := sm.cronScheduler.Remove entryID,
              cronEntries := mapDelete sm.cronEntries id }
  | none => sm

/-- Method `scheduleCronJob` on the schedule at address `p`. The readings of
`time.Now()` within one call are identified. -/
def scheduleCronJob (env : Env) (now : Time) (p : Addr) (sm : ScenarioManager) :
    Option SMError × ScenarioManager :=
  match sm.schedule p with
  | none => (none, sm)
  | some schedule =>
    if isAfter now schedule.EndDate then
      (none, { sm with heap := sm.heap.setSchedule p { schedule with Enabled := false } })
    else
      let sm1 := removeCronEntry schedule.ID sm
      match sm1.cronScheduler.AddFunc env now schedule.CronExpr p with
      | Except.error err => (some (SMError.CronAdd err), sm1)
      | Except.ok (entryID, cron) =>
        let nextRun := cron.EntryNext entryID
        (none, { sm1 with cronScheduler := cron,
                          cronEntries := mapSet sm1.cronEntries schedule.ID entryID,
                          heap := sm1.heap.setSchedule p { schedule with NextRun := some nextRun } })

/-- The test `schedule.StartDate != nil && schedule.EndDate != nil` with
`schedule.EndDate.Before(*schedule.StartDate)`. -/
def endBeforeStart (schedule : Schedule) : Bool :=
  match schedule.StartDate, schedule.EndDate with
  | some startDate, some endDate => decide (endDate < startDate)
  | _, _ => false

/-- Method `CreateSchedule`. Its argument points to a struct the caller has just
built (`handlers.CreateSchedule`); the model takes the struct and allocates it
on entry. `SaveSchedule` of the memory store never fails. -/
def CreateSchedule (env : Env) (now : Time) (schedule : Schedule) (sm : ScenarioManager) :
    Option SMError × ScenarioManager :=
  let p := sm.heap.schedules.length
  let schedule : Schedule :=
    if schedule.ID = "" then { schedule with ID := generateID now } else schedule
  let sm : ScenarioManager :=
    { sm with heap := { sm.heap with schedules := sm.heap.schedules ++ [schedule] } }
  match env.ParseStandard schedule.CronExpr with
  | some err => (some (SMError.InvalidCron err), sm)
  | none =>
    if endBeforeStart schedule then (some SMError.InvalidDateRange, sm)
    else
      let schedule : Schedule := { schedule with CreatedAt := now }
      let sm : ScenarioManager :=
        { sm with heap := sm.heap.setSchedule p schedule,
                  schedules := mapSet sm.schedules schedule.ID p,
                  storage := sm.storage.SaveSchedule schedule.ID p }
      if schedule.Enabled then scheduleCronJob env now p sm
      else (none, sm)

/-- Method `GetSchedule`. -/
def GetSchedule (scheduleID : String) (sm : ScenarioManager) : Option Addr :=
  mapGet sm.schedules scheduleID

/-- First loop of `restoreState`: every active scenario of the store is
registered under its type and gets a worker. -/
def restoreScenarios (sm : ScenarioManager) : ScenarioManager :=
  (sm.storage.GetActiveScenarios sm.heap).foldl (fun sm p =>
    match sm.scenario p with
    | none => sm
    | some scenario =>
      { sm with activeScenarios := mapSet sm.activeScenarios scenario.Type_ p,
                workers := sm.workers ++ [p] }) sm

/-- Second loop of `restoreState`: every schedule of the store is registered
and, when enabled, armed; an arming error is only logged. -/
def restoreSchedules (env : Env) (now : Time) (sm : ScenarioManager) : ScenarioManager :=
  sm.storage.GetSchedules.foldl (fun sm p =>
    match sm.schedule p with
    | none => sm
    | some schedule =>
      let sm : ScenarioManager := { sm with schedules := mapSet sm.schedules schedule.ID p }
      if schedule.Enabled then (scheduleCronJob env now p sm).2 else sm) sm

/-- Method `restoreState`, for the memory store, whose getters never fail. The
third loop, over chain schedules, is outside this model. -/
def restoreState (env : Env) (now : Time) (sm : ScenarioManager) : ScenarioManager :=
  restoreSchedules env now (restoreScenarios sm)

/-- Function `NewScenarioManager` over a store and the heap its pointers live in. -/
def NewScenarioManager (env : Env) (now : Time) (storage : MemoryStorage) (heap : Heap) :
    ScenarioManager :=
  let sm : ScenarioManager :=
    { heap := heap, storage := storage, activeScenarios := [], schedules := [],
      activeChains := [], cronScheduler := Cron.New, cronEntries := [], workers := [],
      chainWorkers := [] }
  let sm := restoreState env now sm
  { sm with cronScheduler := sm.cronScheduler.Start env now }

/-- Store through a `*models.ScheduleExecution`. -/
def Heap.setExecution (h : Heap) (p : Addr) (e : ScheduleExecution) : Heap :=
  { h with executions := h.executions.set p e }

/-- Store through a `*models.ChainExecution`. -/
def Heap.setChainExecution (h : Heap) (p : Addr) (e : ChainExecution) : Heap :=
  { h with chainExecutions := h.chainExecutions.set p e }

/-- Dereference of a `*models.ScheduleExecution`. -/
def ScenarioManager.execution (sm : ScenarioManager) (p : Addr) : Option ScheduleExecution :=
  sm.heap.executions[p]?

/-- Dereference of a `*models.ScenarioChain`. -/
def ScenarioManager.chain (sm : ScenarioManager) (p : Addr) : Option ScenarioChain :=
  sm.heap.chains[p]?

/-- Dereference of a `*models.ChainExecution`. -/
def ScenarioManager.chainExecution (sm : ScenarioManager) (p : Addr) : Option ChainExecution :=
  sm.heap.chainExecutions[p]?

/-- Method `executeScheduledScenario`, the callback of the cron entry of the
schedule at address `p`, run without interleaving at instant `now`. The
execution record is allocated at the end of the heap. -/
def executeScheduledScenario (env : Env) (now : Time) (p : Addr) (sm : ScenarioManager) :
    ScenarioManager :=
  match sm.schedule p with
  | none => sm
  | some schedule =>
    if isBefore now schedule.StartDate then sm
    else if isAfter now schedule.EndDate then
      removeCronEntry schedule.ID
        { sm with heap := sm.heap.setSchedule p { schedule with Enabled := false },
                  storage := sm.storage.UpdateSchedule schedule.ID p }
    else
      let e := sm.heap.executions.length
      let execution : ScheduleExecution :=
        { ID := generateID now, ScheduleID := schedule.ID,
          ScenarioType := schedule.ScenarioType, Status := "running", StartedAt := now,
          CompletedAt := none, Error := "", LogsCount := 0 }
      let sm1 : ScenarioManager :=
        { sm with heap := { sm.heap with executions := sm.heap.executions ++ [execution] },
                  storage := sm.storage.SaveExecution execution.ID e }
      match StartScenario env now schedule.ScenarioType none sm1 with
      | (some err, sm2) =>
        { sm2 with
            heap := sm2.heap.setExecution e
              { execution with Status := "failed", Error := err.Error, CompletedAt := some now },
            storage := sm2.storage.SaveExecution execution.ID e }
      | (none, sm2) =>
        let sm3 : ScenarioManager :=
          { sm2 with
              heap := sm2.heap.setExecution e
                { execution with Status := "completed", CompletedAt := some now },
              storage := sm2.storage.SaveExecution execution.ID e }
        let schedule : Schedule := { schedule with LastRun := some now }
        let schedule : Schedule :=
          match mapGet sm3.cronEntries schedule.ID with
          | some entryID => { schedule with NextRun := some (sm3.cronScheduler.EntryNext entryID) }
          | none => schedule
        { sm3 with heap := sm3.heap.setSchedule p schedule,
                   storage := sm3.storage.UpdateSchedule schedule.ID p }

/-- Statement `if name, ok := updates["name"].(string); ok` of `UpdateSchedule`. -/
def updateName (updates : GoMap GoValue) (schedule : Schedule) : Schedule :=
  match asString (mapGet updates "name") with
  | some name => { schedule with Name := name }
  | none => schedule

/-- Statement `if cronExpr, ok := updates["cron_expr"].(string); ok` of
`UpdateSchedule`; the error is the one of `cron.ParseStandard`. -/
def updateCronExpr (env : Env) (updates : GoMap GoValue) (schedule : Schedule) :
    Except String Schedule :=
  match asString (mapGet updates "cron_expr") with
  | some cronExpr =>
    match env.ParseStandard cronExpr with
    | some err => Except.error err
    | none => Except.ok { schedule with CronExpr := cronExpr }
  | none => Except.ok schedule

/-- Statement `if enabled, ok := updates["enabled"].(bool); ok` of `UpdateSchedule`. -/
def updateEnabled (updates : GoMap GoValue) (schedule : Schedule) : Schedule :=
  match asBool (mapGet updates "enabled") with
  | some enabled => { schedule with Enabled := enabled }
  | none => schedule

/-- Statement `if startDate, ok := updates["start_date"].(string); ok` of `UpdateSchedule`. -/
def updateStartDate (env : Env) (updates : GoMap GoValue) (schedule : Schedule) : Schedule :=
  match asString (mapGet updates "start_date") with
  | some startDate =>
    match env.parseRFC3339 startDate with
    | some parsedStart => { schedule with StartDate := some parsedStart }
    | none => schedule
  | none => schedule

/-- Statement `if endDate, ok := updates["end_date"].(string); ok` of `UpdateSchedule`. -/
def updateEndDate (env : Env) (updates : GoMap GoValue) (schedule : Schedule) : Schedule :=
  match asString (mapGet updates "end_date") with
  | some endDate =>
    match env.parseRFC3339 endDate with
    | some parsedEnd => { schedule with EndDate := some parsedEnd }
    | none => schedule
  | none => schedule

/-- Method `UpdateSchedule`. The fields are written through the pointer as the
statements run, so an early return leaves the earlier writes in place. -/
def UpdateSchedule (env : Env) (now : Time) (scheduleID : String) (updates : GoMap GoValue)
    (sm : ScenarioManager) : Option SMError × ScenarioManager :=
  match mapGet sm.schedules scheduleID with
  | none => (some (SMError.ScheduleNotFound scheduleID), sm)
  | some p =>
    match sm.schedule p with
    | none => (none, sm)
    | some schedule =>
      let s1 := updateName updates schedule
      match updateCronExpr env updates s1 with
      | Except.error err =>
        (some (SMError.InvalidCron err), { sm with heap := sm.heap.setSchedule p s1 })
      | Except.ok s2 =>
        let s5 := updateEndDate env updates (updateStartDate env updates (updateEnabled updates s2))
        let sm1 : ScenarioManager := { sm with heap := sm.heap.setSchedule p s5 }
        if endBeforeStart s5 then (some SMError.InvalidDateRange, sm1)
        else if s5.Enabled then scheduleCronJob env now p sm1
        else
          match mapGet sm1.cronEntries scheduleID with
          | some entryID =>
            (none, { sm1 with cronScheduler := sm1.cronScheduler.Remove entryID,
                              cronEntries := mapDelete sm1.cronEntries scheduleID,
                              heap := sm1.heap.setSchedule p { s5 with NextRun := none } })
          | none => (none, sm1)

/-- Method `DeleteSchedule` of the manager. -/
def DeleteSchedule (scheduleID : String) (sm : ScenarioManager) :
    Option SMError × ScenarioManager :=
  match mapGet sm.schedules scheduleID with
  | none => (some (SMError.ScheduleNotFound scheduleID), sm)
  | some _ =>
    let sm1 := removeCronEntry scheduleID sm
    (none, { sm1 with schedules := mapDelete sm1.schedules scheduleID })

/-- Method `EnableSchedule`. -/
def EnableSchedule (env : Env) (now : Time) (scheduleID : String) (sm : ScenarioManager) :
    Option SMError × ScenarioManager :=
  match mapGet sm.schedules scheduleID with
  | none => (some (SMError.ScheduleNotFound scheduleID), sm)
  | some p =>
    match sm.schedule p with
    | none => (none, sm)
    | some schedule =>
      if schedule.Enabled then (some SMError.AlreadyEnabled, sm)
      else
        let sm1 : ScenarioManager :=
          { sm with heap := sm.heap.setSchedule p { schedule with Enabled := true } }
        match scheduleCronJob env now p sm1 with
        | (some err, sm2) =>
          match sm2.schedule p with
          | some s => (some err, { sm2 with heap := sm2.heap.setSchedule p { s with Enabled := false } })
          | none => (some err, sm2)
        | (none, sm2) => (none, sm2)

/-- Method `DisableSchedule`. -/
def DisableSchedule (scheduleID : String) (sm : ScenarioManager) :
    Option SMError × ScenarioManager :=
  match mapGet sm.schedules scheduleID with
  | none => (some (SMError.ScheduleNotFound scheduleID), sm)
  | some p =>
    match sm.schedule p with
    | none => (none, sm)
    | some schedule =>
      if !schedule.Enabled then (some SMError.AlreadyDisabled, sm)
      else
        let s1 : Schedule := { schedule with Enabled := false }
        match mapGet sm.cronEntries scheduleID with
        | some entryID =>
          (none, { sm with cronScheduler := sm.cronScheduler.Remove entryID,
                           cronEntries := mapDelete sm.cronEntries scheduleID,
                           heap := sm.heap.setSchedule p { s1 with NextRun := none } })
        | none => (none, { sm with heap := sm.heap.setSchedule p s1 })

/-! ## Chain engine -/

/-- The loop of `StartChain` that fills `execution.Steps`, from index `i` on. -/
def executionSteps (i : Nat) : List ChainStep → List ChainExecutionStep
  | [] => []
  | step :: rest =>
    { StepIndex := i, ScenarioType := step.ScenarioType, Status := "pending",
      StartedAt := none, CompletedAt := none, Error := "" } :: executionSteps (i + 1) rest

/-- Method `CreateChain`. Its argument points to a struct the caller has just
built (`handlers.CreateChain`); the model takes the struct and allocates it on
entry. `SaveChain` of the memory store never fails. -/
def CreateChain (now : Time) (chain : ScenarioChain) (sm : ScenarioManager) :
    Option SMError × ScenarioManager :=
  let p := sm.heap.chains.length
  let chain : ScenarioChain :=
    if chain.ID = "" then { chain with ID := generateID now } else chain
  let chain : ScenarioChain := { chain with CreatedAt := now, Status := "pending" }
  (none, { sm with heap := { sm.heap with chains := sm.heap.chains ++ [chain] },
                   storage := sm.storage.SaveChain chain.ID p })

/-- Method `GetChain` of the manager. -/
def GetChain (chainID : String) (sm : ScenarioManager) : Option Addr :=
  sm.storage.GetChain chainID

/-- Method `DeleteChain` of the manager. -/
def DeleteChain (chainID : String) (sm : ScenarioManager) :
    Option SMError × ScenarioManager :=
  match mapGet sm.activeChains chainID with
  | some _ => (some SMError.ChainRunning, sm)
  | none => (none, { sm with storage := sm.storage.DeleteChain chainID })

/-- Method `StartChain`. The execution is allocated at the end of the heap; the
worker started by `go sm.executeChain(chain, execution)` is recorded with its
two pointers. -/
def StartChain (now : Time) (chainID : String) (sm : ScenarioManager) :
    Option SMError × ScenarioManager :=
  match sm.storage.GetChain chainID with
  | none => (some (SMError.ChainNotFound chainID), sm)
  | some c =>
    match sm.chain c with
    | none => (none, sm)
    | some chain =>
      let e := sm.heap.chainExecutions.length
      let execution : ChainExecution :=
        { ID := generateID now, ChainID := chainID, Status := "running", StartedAt := now,
          CompletedAt := none, Error := "", Steps := executionSteps 0 chain.Steps }
      (none, { sm with
        heap := { sm.heap with chainExecutions := sm.heap.chainExecutions ++ [execution] },
        storage := sm.storage.SaveChainExecution execution.ID e,
        activeChains := mapSet sm.activeChains execution.ID e,
        chainWorkers := sm.chainWorkers ++ [(c, e)] })

/-- Method `StopChain`. -/
def StopChain (now : Time) (chainExecutionID : String) (sm : ScenarioManager) :
    Option SMError × ScenarioManager :=
  match mapGet sm.activeChains chainExecutionID with
  | none => (some (SMError.ChainExecutionNotFound chainExecutionID), sm)
  | some e =>
    match sm.chainExecution e with
    | none => (none, sm)
    | some execution =>
      (none, { sm with
        heap := sm.heap.setChainExecution e
          { execution with Status := "stopped", CompletedAt := some now },
        storage := sm.storage.UpdateChainExecution execution.ID e,
        activeChains := mapDelete sm.activeChains chainExecutionID })

/-- The test `v, ok := config[key].(float64); ok && v > 0` of `getDurationFromConfig`. -/
def positiveFloat64 (config : GoMap GoValue) (key : String) : Option ℚ :=
  match asFloat64 (mapGet config key) with
  | some v => if v > 0 then some v else none
  | none => none

/-- Function `getDurationFromConfig`. -/
def getDurationFromConfig (config : GoMap GoValue) : Int × Bool :=
  match positiveFloat64 config "duration_seconds" with
  | some seconds => (mulInt64 (float64ToInt64 seconds) Second, true)
  | none =>
    match positiveFloat64 config "duration_minutes" with
    | some minutes => (mulInt64 (float64ToInt64 minutes) Minute, true)
    | none =>
      match positiveFloat64 config "duration_hours" with
      | some hours => (mulInt64 (float64ToInt64 hours) Hour, true)
      | none => (0, false)

/-- The condition under which `executeChain` waits after starting a step:
`step.Config != nil` and `getDurationFromConfig` yields a positive duration. -/
def stepWaits (step : ChainStep) : Bool :=
  match step.Config with
  | none => false
  | some config => (getDurationFromConfig config).2 && decide ((getDurationFromConfig config).1 > 0)

/-- An assignment to fields of `execution.Steps[i]`. An index out of range, on
which Go panics, leaves the execution as it is; the worker never produces one. -/
def ChainExecution.modifyStep (e : ChainExecution) (i : Nat)
    (f : ChainExecutionStep → ChainExecutionStep) : ChainExecution :=
  match e.Steps[i]? with
  | some st => { e with Steps := e.Steps.set i (f st) }
  | none => e

/-- The places of `executeChain` between which other goroutines can run:
`check` is the test of `execution.Status` at the top of the loop body,
`markRunning` the locked block that marks the step running, `delay` the
`select` on `step.DelayBefore`, `start` the call of `StartScenario` with the
handling of its error, `wait` the `select` on the step's duration, `complete`
the locked block that marks the step completed, `exit` the deferred function,
`done` the end of the goroutine. -/
inductive ChainPC where
  | check
  | markRunning
  | delay
  | start
  | wait
  | complete
  | exit
  | done
deriving DecidableEq, Repr

/-- Which case of a `select` is taken: the timer, or `sm.stopChan`. -/
inductive WaitEvent where
  | timer
  | shutdown
deriving DecidableEq, Repr

/-- A goroutine running `executeChain(chain, execution)`: its two pointers, the
loop index `i` and the place it has reached. -/
structure ChainWorker where
  chain : Addr
  execution : Addr
  index : Nat
  pc : ChainPC
deriving DecidableEq, Repr

/-- The worker at the moment `go sm.executeChain(chain, execution)` starts it. -/
def ChainWorker.spawn (chain execution : Addr) : ChainWorker :=
  { chain := chain, execution := execution, index := 0, pc := ChainPC.check }

/-- The deferred function of `executeChain`. -/
def executeChainExit (now : Time) (w : ChainWorker) (execution : ChainExecution)
    (sm : ScenarioManager) : ScenarioManager :=
  let execution : ChainExecution :=
    if execution.Status = "running" then
      { execution with Status := "completed", CompletedAt := some now }
    else execution
  { sm with heap := sm.heap.setChainExecution w.execution execution,
            storage := sm.storage.UpdateChainExecution execution.ID w.execution,
            activeChains := mapDelete sm.activeChains execution.ID,
            chainWorkers := sm.chainWorkers.erase (w.chain, w.execution) }

/-- One move of a worker of `executeChain`, from one place to the next, at
instant `now`; `ev` is the case taken if the place is a `select`. -/
def executeChainStep (env : Env) (now : Time) (ev : WaitEvent) (w : ChainWorker)
    (sm : ScenarioManager) : ChainWorker × ScenarioManager :=
  match sm.chain w.chain, sm.chainExecution w.execution with
  | some chain, some execution =>
    match w.pc with
    | ChainPC.check =>
      match chain.Steps[w.index]? with
      | none => ({ w with pc := ChainPC.exit }, sm)
      | some _ =>
        if execution.Status ≠ "running" then ({ w with pc := ChainPC.exit }, sm)
        else ({ w with pc := ChainPC.markRunning }, sm)
    | ChainPC.markRunning =>
      let execution := execution.modifyStep w.index
        (fun st => { st with Status := "running", StartedAt := some now })
      let sm : ScenarioManager :=
        { sm with heap := sm.heap.setChainExecution w.execution execution,
                  storage := sm.storage.UpdateChainExecution execution.ID w.execution }
      match chain.Steps[w.index]? with
      | none => ({ w with pc := ChainPC.exit }, sm)
      | some step =>
        if step.DelayBefore > 0 then ({ w with pc := ChainPC.delay }, sm)
        else ({ w with pc := ChainPC.start }, sm)
    | ChainPC.delay =>
      match ev with
      | WaitEvent.timer => ({ w with pc := ChainPC.start }, sm)
      | WaitEvent.shutdown => ({ w with pc := ChainPC.exit }, sm)
    | ChainPC.start =>
      match chain.Steps[w.index]? with
      | none => ({ w with pc := ChainPC.exit }, sm)
      | some step =>
        match StartScenario env now step.ScenarioType step.Config sm with
        | (some err, sm1) =>
          let execution := execution.modifyStep w.index
            (fun st => { st with Status := "failed", Error := err.Error })
          let execution : ChainExecution :=
            { execution with
                Status := "failed",
                Error := "Ошибка на шаге " ++ toString (w.index + 1) ++ ": " ++ err.Error }
          ({ w with pc := ChainPC.exit },
            { sm1 with heap := sm1.heap.setChainExecution w.execution execution })
        | (none, sm1) =>
          if stepWaits step then ({ w with pc := ChainPC.wait }, sm1)
          else ({ w with pc := ChainPC.complete }, sm1)
    | ChainPC.wait =>
      match ev with
      | WaitEvent.timer => ({ w with pc := ChainPC.complete }, sm)
      | WaitEvent.shutdown => ({ w with pc := ChainPC.exit }, sm)
    | ChainPC.complete =>
      let execution := execution.modifyStep w.index
        (fun st => { st with Status := "completed", CompletedAt := some now })
      ({ w with index := w.index + 1, pc := ChainPC.check },
        { sm with heap := sm.heap.setChainExecution w.execution execution,
                  storage := sm.storage.UpdateChainExecution execution.ID w.execution })
    | ChainPC.exit => ({ w with pc := ChainPC.done }, executeChainExit now w execution sm)
    | ChainPC.done => (w, sm)
  | _, _ => (w, sm)

/-- A run of `fuel` moves of a worker during which every timer elapses, the
engine is not shut down, no other goroutine acts in between, and the process
keeps running. The last condition is not automatic: a step whose config gives a
duration over ten seconds starts a Timed scenario, and the panic of one of its
pulses (`timedPulse`) ends the whole process while the worker waits. -/
def runChain (env : Env) (now : Time) :
    Nat → ChainWorker × ScenarioManager → ChainWorker × ScenarioManager
  | 0, s => s
  | fuel + 1, s => runChain env now fuel (executeChainStep env now WaitEvent.timer s.1 s.2)

/-! ## generator.go -/

/-- Struct `models.LogEntry`. -/
structure LogEntry where
  Timestamp : Time
  Level : String
  Service : String
  Message : String
  TraceID : String
  SpanID : String
  UserID : String
  SessionID : String
  IP : String
  UserAgent : String
  Method : String
  Path : String
  Status : Int
  Duration : Int
  Error : String
  Stack : String
deriving DecidableEq, Repr

/-- Struct `models.Metric`; the `float64` value is held as a rational. -/
structure Metric where
  Name : String
  Value : ℚ
  Type_ : String
  Labels : GoMap String
  Timestamp : Time
deriving DecidableEq

/-- The package variables of generator.go: the log buffer `logs`, the metric
snapshot `metrics` and the two counters of the application. -/
structure Generator where
  logs : List LogEntry
  metrics : List Metric
  appGeneratedLogsTotal : Int
  appGeneratedMetricsTotal : Int
deriving DecidableEq

/-- The package variables when the process starts. -/
def Generator.new : Generator :=
  { logs := [], metrics := [], appGeneratedLogsTotal := 0, appGeneratedMetricsTotal := 0 }

/-- The loop of `GetLogs`. The first argument is the loop variable `i` plus one,
so that `0` is the exit `i < 0`; `filtered` and `count` are the two variables
the loop updates, and a match is put in front of `filtered`. -/
def getLogsLoop (logs : List LogEntry) (limit : Int) (service level : String) :
    Nat → List LogEntry → Int → List LogEntry
  | 0, filtered, _ => filtered
  | i + 1, filtered, count =>
    if count < limit then
      match logs[i]? with
      | none => filtered
      | some logEntry =>
        if service ≠ "" ∧ logEntry.Service ≠ service then
          getLogsLoop logs limit service level i filtered count
        else if level ≠ "" ∧ logEntry.Level ≠ level then
          getLogsLoop logs limit service level i filtered count
        else
          getLogsLoop logs limit service level i (logEntry :: filtered) (count + 1)
    else filtered

/-- Function `GetLogs` of the generator. -/
def GetLogs (limit : Int) (service level : String) (g : Generator) : List LogEntry :=
  getLogsLoop g.logs limit service level g.logs.length [] 0

/-- Function `applyBlackFridayScenario`; `r` is the value of `rand.Float64()`
and `n` the value of `rand.Intn(5000)`, drawn only when `r < 0.3`. -/
def applyBlackFridayScenario (r : ℚ) (n : Int) (logEntry : LogEntry) : LogEntry :=
  if r < 3 / 10 then { logEntry with Level := "ERROR", Duration := n + 1000 }
  else logEntry

/-- Function `applyPaymentIssuesScenario`; `r` is the value of `rand.Float64()`. -/
def applyPaymentIssuesScenario (r : ℚ) (logEntry : LogEntry) : LogEntry :=
  if logEntry.Service = "payment-service" ∧ r < 4 / 10 then
    { logEntry with Level := "ERROR", Error := "Payment gateway unavailable" }
  else logEntry

/-- Function `applyHighLoadScenario`: `int64(float64(logEntry.Duration) * 1.5)`.
The product is taken in exact rationals; the code rounds it through `float64`,
which differs for durations beyond `2^52`. -/
def applyHighLoadScenario (logEntry : LogEntry) : LogEntry :=
  { logEntry with Duration := float64ToInt64 ((logEntry.Duration : ℚ) * (3 / 2)) }

/-- Function `applyNormalLoadScenario`. -/
def applyNormalLoadScenario (logEntry : LogEntry) : LogEntry := logEntry

/-- The branches of the `switch scenario` of `generateRealisticLog`. -/
inductive ScenarioBranch where
  | blackFriday
  | normalLoad
  | highLoad
  | paymentIssues
  | default
deriving DecidableEq, Repr

/-- The branch that `switch scenario` takes. -/
def scenarioBranch (scenario : String) : ScenarioBranch :=
  if scenario = "black_friday" then ScenarioBranch.blackFriday
  else if scenario = "normal_load" then ScenarioBranch.normalLoad
  else if scenario = "high_load" then ScenarioBranch.highLoad
  else if scenario = "payment_issues" then ScenarioBranch.paymentIssues
  else ScenarioBranch.default

/-- What one call of `generateRealisticLog` takes from `rand` and the clock:
`base` is the struct literal it starts from, `float` and `intn` are the values
drawn inside the scenario branch, and `serviceLog` is the `switch service`
that completes the entry, with the draws of the function it calls. -/
structure LogDraws where
  base : LogEntry
  float : ℚ
  intn : Int
  serviceLog : LogEntry → String → LogEntry

/-- Function `generateRealisticLog`. -/
def generateRealisticLog (d : LogDraws) (scenario : String) : LogEntry :=
  let level := d.base.Level
  let logEntry := d.base
  let logEntry :=
    match scenarioBranch scenario with
    | ScenarioBranch.blackFriday => applyBlackFridayScenario d.float d.intn logEntry
    | ScenarioBranch.normalLoad => applyNormalLoadScenario logEntry
    | ScenarioBranch.highLoad => applyHighLoadScenario logEntry
    | ScenarioBranch.paymentIssues => applyPaymentIssuesScenario d.float logEntry
    | ScenarioBranch.default => applyNormalLoadScenario logEntry
  d.serviceLog logEntry level

/-- The two samples that `updateEcommerceMetrics` appends last: the counters of
the application as they are when it runs. -/
def appMetrics (g : Generator) (now : Time) : List Metric :=
  [ { Name := "app_generated_logs_total", Value := (g.appGeneratedLogsTotal : ℚ),
      Type_ := "counter", Labels := [("app", "simulator")], Timestamp := now },
    { Name := "app_generated_metrics_total", Value := (g.appGeneratedMetricsTotal : ℚ),
      Type_ := "counter", Labels := [("app", "simulator")], Timestamp := now } ]

/-- Function `updateEcommerceMetrics`: the snapshot is reset, the samples
computed from the batch are appended, then the two counters of the
application. The samples of the batch depend on `rand` and on the iteration
order of Go maps; they are the parameter `ecommerce`, and each of them has a
literal name that starts with `ecommerce_`. -/
def updateEcommerceMetrics (ecommerce : List LogEntry → List Metric) (now : Time)
    (logs : List LogEntry) (g : Generator) : Generator :=
  { g with metrics := ecommerce logs ++ appMetrics g now }

/-- Function `GenerateLogs`; `draws i` is what call `i` of `generateRealisticLog`
draws. A negative `logCount` makes `make` panic, which is `none`. The calls of
`time.Sleep` and the printing at the end change no package variable. -/
def GenerateLogs (ecommerce : List LogEntry → List Metric) (draws : Nat → LogDraws)
    (now : Time) (logCount : Int) (scenario : String) (g : Generator) :
    Option (List LogEntry × Generator) :=
  if logCount < 0 then none
  else
    let generatedLogs :=
      (List.range logCount.toNat).map (fun i => generateRealisticLog (draws i) scenario)
    let logs := g.logs ++ generatedLogs
    let logs := if logs.length > 50000 then logs.drop (logs.length - 50000) else logs
    let g1 := updateEcommerceMetrics ecommerce now generatedLogs { g with logs := logs }
    let g2 : Generator :=
      { g1 with appGeneratedLogsTotal :=
          wrapInt64 (g1.appGeneratedLogsTotal + (generatedLogs.length : Int)) }
    let currentMetrics := g2.metrics.length
    some (generatedLogs,
      { g2 with appGeneratedMetricsTotal :=
          wrapInt64 (g2.appGeneratedMetricsTotal + (currentMetrics : Int)) })

/-! ## handlers.go and the routes of main.go -/

/-- The limit that handler `GetLogs` passes to the generator; `parsed` is the
result of `strconv.Atoi` on the `limit` query parameter, `none` when the
parameter is empty or is not a number. -/
def handlerLimit (parsed : Option Int) : Int :=
  match parsed with
  | some l => if l > 0 then l else 100
  | none => 100

/-- A segment of a route pattern of gin: a literal, or a parameter `:name`. -/
inductive Segment where
  | lit (s : String)
  | param (name : String)
deriving DecidableEq, Repr

/-- Matching of a request path against a route pattern, as the router of gin
(a library) does it for a pattern without wildcards: the literals agree and a
parameter is bound to the segment in its place. -/
def matchRoute : List Segment → List String → Option (GoMap String)
  | [], [] => some []
  | Segment.lit s :: pattern, x :: path =>
    if s = x then matchRoute pattern path else none
  | Segment.param name :: pattern, x :: path =>
    (matchRoute pattern path).map (fun params => (name, x) :: params)
  | _, _ => none

/-- Method `c.Param(key)` of gin: the value bound to `key`, or the empty string
when the route binds no parameter of that name. -/
def ginParam (params : GoMap String) (key : String) : String :=
  (mapGet params key).getD ""

/-- The route `chains.POST("/:id/stop", handlers.StopChain)` of `main`, inside
the groups `/api/v1` and `/chains`. -/
def chainStopRoute : List Segment :=
  [Segment.lit "api", Segment.lit "v1", Segment.lit "chains", Segment.param "id",
   Segment.lit "stop"]

/-- Handler `StopChain`: the status code of the response, the error of the
manager, and the manager. -/
def handlersStopChain (now : Time) (params : GoMap String) (sm : ScenarioManager) :
    Nat × Option SMError × ScenarioManager :=
  let executionID := ginParam params "execution_id"
  match StopChain now executionID sm with
  | (some err, sm1) => (400, some err, sm1)
  | (none, sm1) => (200, none, sm1)

/-- A POST request whose path is served by the chain stop route; a path that
the route does not match is answered 404 here. -/
def postChainStop (now : Time) (path : List String) (sm : ScenarioManager) :
    Nat × Option SMError × ScenarioManager :=
  match matchRoute chainStopRoute path with
  | some params => handlersStopChain now params sm
  | none => (404, none, sm)

/-- The request struct of handler `CreateChain` once `ShouldBindJSON` has filled it. -/
structure CreateChainRequest where
  Name : String
  Description : String
  Steps : List ChainStep

/-- The loop `for i, step := range req.Steps` of handler `CreateChain`; the
result is the number `i + 1` of the first step without a scenario type. `step`
is the range variable, a copy of the element, and `step.Order = i` assigns to
that copy. -/
def createChainStepsLoop : List ChainStep → Nat → Option Nat
  | [], _ => none
  | step :: rest, i =>
    if step.ScenarioType = "" then some (i + 1)
    else
      let _step : ChainStep := { step with Order := (i : Int) }
      createChainStepsLoop rest (i + 1)

/-- Handler `CreateChain` on a bound request: the status code of the response
and the manager. `handlerNow` is the clock reading of the handler and `now` the
one of the manager. -/
def handlersCreateChain (handlerNow now : Time) (req : CreateChainRequest)
    (sm : ScenarioManager) : Nat × ScenarioManager :=
  if req.Steps.length = 0 then (400, sm)
  else
    match createChainStepsLoop req.Steps 0 with
    | some _ => (400, sm)
    | none =>
      let chain : ScenarioChain :=
        { ID := "", Name := req.Name, Description := req.Description, Steps := req.Steps,
          Status := "pending", StartedAt := none, CompletedAt := none,
          CreatedAt := handlerNow, CreatedBy := "" }
      match CreateChain now chain sm with
      | (some _, sm1) => (500, sm1)
      | (none, sm1) => (200, sm1)

/-- The transitions of the scenario engine: the two API calls, the two ways a
worker ends, and `restoreState`. -/
inductive ScenarioStep (env : Env) : ScenarioManager → ScenarioManager → Prop where
  | start (now : Time) (scenarioType : String) (customConfig : Option (GoMap GoValue))
      (sm : ScenarioManager) :
      ScenarioStep env sm (StartScenario env now scenarioType customConfig sm).2
  | stop (scenarioType : String) (sm : ScenarioManager) :
      ScenarioStep env sm (StopScenario scenarioType sm).2
  | workerExit (p : Addr) (sm : ScenarioManager) :
      p ∈ sm.workers → ScenarioStep env sm (executeScenarioExit p sm)
  | workerAbandon (p : Addr) (sm : ScenarioManager) :
      p ∈ sm.workers → ScenarioStep env sm (executeScenarioAbandon p sm)
  | restore (now : Time) (sm : ScenarioManager) :
      ScenarioStep env sm (restoreState env now sm)

/-- The states the scenario engine reaches from a manager whose active index is
empty, whatever its store and heap hold. -/
inductive ScenarioReachable (env : Env) : ScenarioManager → Prop where
  | init (sm : ScenarioManager) : sm.activeScenarios = [] → ScenarioReachable env sm
  | step (sm sm' : ScenarioManager) :
      ScenarioReachable env sm → ScenarioStep env sm sm' → ScenarioReachable env sm'

/-- The invariant of the active-scenarios index at key `k`: what is stored
under `k` is a scenario of type `k`. -/
def ActiveKeyed (sm : ScenarioManager) : Prop :=
  ∀ k p, mapGet sm.activeScenarios k = some p → ∃ sc, sm.scenario p = some sc ∧ sc.Type_ = k

/-- The invariant of the scenario engine: the keys of the active index are
distinct and each one names the type of the scenario stored under it. -/
def ScenarioInv (sm : ScenarioManager) : Prop :=
  (mapKeys sm.activeScenarios).Nodup ∧ ActiveKeyed sm

/-- Number of whitespace-separated fields of a cron expression (`strings.Fields`),
`inField` telling whether the previous character belonged to a field. -/
def countFields (spec : List Char) (inField : Bool) : Nat :=
  match spec with
  | [] => 0
  | c :: rest =>
    if c.isWhitespace then countFields rest false
    else if inField then countFields rest true
    else countFields rest true + 1

/-- Function `strings.Fields` on the characters of a string: the maximal runs of
characters that are not white space; `current` is the run being read, last
character first. -/
def splitFields (spec : List Char) (current : List Char) : List String :=
  match spec with
  | [] => if current = [] then [] else [String.mk current.reverse]
  | c :: rest =>
    if c.isWhitespace then
      if current = [] then splitFields rest []
      else String.mk current.reverse :: splitFields rest []
    else splitFields rest (c :: current)

/-- The first checks of the parsers of `github.com/robfig/cron/v3` on an
expression that is not a descriptor: the expression is not empty, and its number
of fields is the one the parser was built for; the message ends with the fields
as `%s` prints a slice. The syntax of the fields, which the library checks
next, is not modelled: an expression with the right number of fields passes. -/
def expectFields (n : Nat) (spec : String) : Option String :=
  if spec = "" then some "empty spec string"
  else if countFields spec.toList false = n then none
  else some ("expected exactly " ++ toString n ++ " fields, found "
    ++ toString (countFields spec.toList false) ++ ": ["
    ++ " ".intercalate (splitFields spec.toList []) ++ "]")

/-- The environment of `NewScenarioManager`, as far as the field counts go:
`cron.ParseStandard` expects five fields, and the scheduler built by
`cron.New(cron.WithSeconds())` expects six. Dates are not parsed and the next
activation is taken one minute ahead. -/
def withSecondsEnv : Env :=
  { parseRFC3339 := fun _ => none,
    ParseStandard := expectFields 5,
    schedulerParse := expectFields 6,
    scheduleNext := fun _ now => now + Minute }

/-- The manager that `main` builds: `NewScenarioManager(storage.NewMemoryStorage())`. -/
def mainManager (env : Env) (now : Time) : ScenarioManager :=
  NewScenarioManager env now NewMemoryStorage initialHeap

/-- The manager of `main` after `StartScenario("load_test", nil)` at instant 1. -/
def sampleManager : ScenarioManager :=
  (StartScenario withSecondsEnv 1 "load_test" none (mainManager withSecondsEnv 0)).2

/-- The maps of every catalogue entry are allocated in the heap. -/
def CatalogueAllocated (h : Heap) : Prop :=
  ∀ k config, mapGet predefinedScenarios k = some config →
    config.Labels < h.labelMaps.length ∧ config.Parameters < h.paramMaps.length

/-- The struct that `StartScenario` builds for a catalogue entry `config`, before
it is stored in the heap of `sm`. -/
def startedScenario (env : Env) (now : Time) (scenarioType : String)
    (customConfig : Option (GoMap GoValue)) (sm : ScenarioManager) (config : ScenarioConfig) :
    Scenario :=
  { Type_ := scenarioType, Active := true,
    Config := { Name := config.Name, Description := config.Description,
                LogCount := customLogCount (customConfig.getD []) config.LogCount,
                Labels := sm.heap.labelMaps.length, Parameters := sm.heap.paramMaps.length },
    Started := now,
    Duration := customDuration (customConfig.getD []),
    Interval := customInterval (customConfig.getD []),
    StartDate := customDate env (customConfig.getD []) "start_date",
    EndDate := customDate env (customConfig.getD []) "end_date" }

/-- A custom configuration whose `labels` entry overrides one default label
with a string and carries one value that is not a string. -/
def sampleLabelsConfig : GoMap GoValue :=
  [("labels", GoValue.map [("environment", GoValue.string "staging"),
                           ("replicas", GoValue.float64 3)])]

/-- A custom configuration that supplies both unit variants of the duration
and of the interval. -/
def sampleTimingConfig : GoMap GoValue :=
  [("duration_seconds", GoValue.float64 90), ("duration_minutes", GoValue.float64 5),
   ("interval_seconds", GoValue.float64 30), ("interval_minutes", GoValue.float64 2)]

/-- The mode selection as the specification words it: Periodic if the interval
is positive; otherwise Timed if the duration is positive or an end date is set;
otherwise One-shot. -/
def specMode (scenario : Scenario) : Mode :=
  if scenario.Interval > 0 then Mode.Periodic
  else if scenario.Duration > 0 ∨ scenario.EndDate.isSome then Mode.Timed
  else Mode.Single

/-- A scenario as `StartScenario("load_test", {"end_date": ...})` registers it:
no interval, no duration, an end date one hour after the start. -/
def endDatedScenario : Scenario :=
  { Type_ := "load_test", Active := true,
    Config := { Name := "Load Test", Description := "Генерация высокой нагрузки",
                LogCount := 1000, Labels := 5, Parameters := 5 },
    Started := 0, Duration := 0, Interval := 0, StartDate := none, EndDate := some Hour }

/-- A scenario as `StartScenario("load_test", {"duration_seconds": 15})`
registers it at instant 0. -/
def timedScenario : Scenario :=
  { Type_ := "load_test", Active := true,
    Config := { Name := "Load Test", Description := "Генерация высокой нагрузки",
                LogCount := 1000, Labels := 5, Parameters := 5 },
    Started := 0, Duration := 15 * Second, Interval := 0, StartDate := none, EndDate := none }

/-- The batch size as the specification words it:
`logCount / max(1, secondsRemaining/10)`, the inner quotient taken in whole
numbers. -/
def specBatchSize (logCount : Int) (secondsRemaining : ℚ) : Int :=
  Int.tdiv logCount (max 1 (float64ToInt64 (secondsRemaining / 10)))

/-- The manager of `main` after `StartScenario(t)`, `StopScenario(t)`,
`StartScenario(t)` and then the end of the worker of the first scenario, which
is the scenario at address 0; the second scenario is at address 1. -/
def restartedThenFirstWorkerEnds (t : String) : ScenarioManager :=
  executeScenarioExit 0
    (StartScenario withSecondsEnv 3 t none
      (StopScenario t
        (StartScenario withSecondsEnv 1 t none (mainManager withSecondsEnv 0)).2).2).2

/-- The request of the end-to-end scenario 3 of the specification, as
`handlers.CreateSchedule` builds it: every minute, enabled, no dates, no id. -/
def everyMinuteSchedule : Schedule :=
  { ID := "", Name := "t", ScenarioType := "load_test", CronExpr := "* * * * *",
    Enabled := true, StartDate := none, EndDate := none, LastRun := none, NextRun := none,
    CreatedAt := zeroTime }

/-- A request whose expression is not a cron expression. -/
def notACronSchedule : Schedule :=
  { everyMinuteSchedule with CronExpr := "not a cron" }

/-- A request whose end date lies before its start date. -/
def backwardsSchedule : Schedule :=
  { everyMinuteSchedule with StartDate := some (2 * Hour), EndDate := some Hour }

/-- The descriptors that the parsers of `github.com/robfig/cron/v3` accept in
place of fields; `@every <duration>` is not modelled. -/
def knownDescriptors : List String :=
  ["@yearly", "@annually", "@monthly", "@weekly", "@daily", "@midnight", "@hourly"]

/-- A parser of the cron library built for `n` fields: an expression that starts
with `@` must be a known descriptor, any other must have `n` fields. The
descriptors `@every <duration>`, which the library accepts as well, are not
modelled and are refused here; no expression of that form is used below. -/
def parseSpec (n : Nat) (spec : String) : Option String :=
  if spec.toList.head? = some '@' then
    if spec ∈ knownDescriptors then none else some ("unrecognized descriptor: " ++ spec)
  else expectFields n spec

/-- The environment of `NewScenarioManager` with descriptors: as
`withSecondsEnv`, and both parsers accept the descriptors. -/
def cronLibraryEnv : Env :=
  { withSecondsEnv with ParseStandard := parseSpec 5, schedulerParse := parseSpec 6 }

/-- A request for an hourly schedule, enabled, whose window ends at second 100. -/
def hourlyUntilSchedule : Schedule :=
  { everyMinuteSchedule with CronExpr := "@hourly", EndDate := some (100 * Second) }

/-- The manager of `main` after `CreateSchedule(hourlyUntilSchedule)` at second
10: the schedule is at address 0 and armed. -/
def armedManager : ScenarioManager :=
  (CreateSchedule cronLibraryEnv (10 * Second) hourlyUntilSchedule
    (mainManager cronLibraryEnv 0)).2

/-- A request for a schedule that is not enabled. -/
def disabledSchedule : Schedule :=
  { everyMinuteSchedule with Enabled := false }

/-- The manager of `main` after `CreateSchedule(disabledSchedule)` at instant
1000, which gives the schedule the id `generateID 1000`. -/
def scheduledManager : ScenarioManager :=
  (CreateSchedule withSecondsEnv 1000 disabledSchedule (mainManager withSecondsEnv 0)).2

/-- A chain request of one step with a delay of five seconds before it, as
`handlers.CreateChain` builds it. -/
def delayedChain (scenarioType : String) : ScenarioChain :=
  { ID := "", Name := "chain", Description := "",
    Steps := [{ ScenarioType := scenarioType, Name := "step", Config := none,
                DelayBefore := 5, Order := 0 }],
    Status := "pending", StartedAt := none, CompletedAt := none, CreatedAt := 1000,
    CreatedBy := "" }

/-- The manager of `main` after `CreateChain(delayedChain t)` at instant 1000
and `StartChain` of that chain at instant 2000: the chain and its execution are
at address 0 and the execution id is `generateID 2000`. -/
def chainStartedManager (scenarioType : String) : ScenarioManager :=
  (StartChain 2000 (generateID 1000)
    (CreateChain 1000 (delayedChain scenarioType) (mainManager withSecondsEnv 0)).2).2

/-- The worker of `chainStartedManager t` once it waits on the delay of step 0:
it has passed the status check and marked the step running. -/
def waitingOnDelay (scenarioType : String) : ChainWorker × ScenarioManager :=
  runChain withSecondsEnv 2000 2 (ChainWorker.spawn 0 0, chainStartedManager scenarioType)

/-- The run in which `StopChain` is called at instant 3000 while the worker
waits on the delay of step 0, and the worker then makes `fuel` more moves. -/
def stoppedDuringDelay (scenarioType : String) (fuel : Nat) : ChainWorker × ScenarioManager :=
  runChain withSecondsEnv 6000 fuel
    ((waitingOnDelay scenarioType).1,
      (StopChain 3000 (generateID 2000) (waitingOnDelay scenarioType).2).2)

/-- The run in which the engine is shut down while the worker waits on the
delay of step 0: the `select` takes `sm.stopChan`, then the deferred function
runs. -/
def shutDownDuringDelay (scenarioType : String) : ChainWorker × ScenarioManager :=
  runChain withSecondsEnv 3000 1
    (executeChainStep withSecondsEnv 3000 WaitEvent.shutdown
      (waitingOnDelay scenarioType).1 (waitingOnDelay scenarioType).2)

/-- The armed manager after the callback of the schedule fires at second 200,
past the end of its window. -/
def firedLateManager : ScenarioManager :=
  executeScheduledScenario cronLibraryEnv (200 * Second) 0 armedManager

/-- The armed manager after `UpdateSchedule(id, {"name": "renamed"})` at second
200, past the end of the schedule's window. -/
def updatedLateManager : Option SMError × ScenarioManager :=
  UpdateSchedule cronLibraryEnv (200 * Second) (generateID (10 * Second))
    [("name", GoValue.string "renamed")] armedManager

/-- A request for an hourly schedule, enabled, without dates. -/
def hourlySchedule : Schedule :=
  { everyMinuteSchedule with CronExpr := "@hourly" }

/-- The manager of `main` after `CreateSchedule(hourlySchedule)` at instant
1000, which gives the schedule the id `generateID 1000`, and `DeleteSchedule`
of that id. -/
def deletedManager : Option SMError × ScenarioManager :=
  DeleteSchedule (generateID 1000)
    (CreateSchedule cronLibraryEnv 1000 hourlySchedule (mainManager cronLibraryEnv 0)).2

/-- The manager that a restart builds over the store and heap that
`deletedManager` leaves. -/
def restartedManager : ScenarioManager :=
  NewScenarioManager cronLibraryEnv 5000 deletedManager.2.storage deletedManager.2.heap

/-- The statuses of the steps of an execution, in order. -/
def ChainExecution.statuses (e : ChainExecution) : List String :=
  e.Steps.map (fun st => st.Status)

/-- The shape of the step statuses of an execution: completed steps, then at most
one step that is running or failed, then pending steps. -/
def StepsShape (statuses : List String) : Prop :=
  ∃ (a c : Nat) (mid : List String),
    (mid = [] ∨ mid = ["running"] ∨ mid = ["failed"]) ∧
    statuses = List.replicate a "completed" ++ mid ++ List.replicate c "pending"

/-- What the step statuses look like when the worker is at place `pc` of the
iteration for step `i`. -/
def PlaceShape (pc : ChainPC) (i : Nat) (statuses : List String) : Prop :=
  match pc with
  | ChainPC.check | ChainPC.markRunning =>
    ∃ m, statuses = List.replicate i "completed" ++ List.replicate m "pending"
  | ChainPC.delay | ChainPC.start | ChainPC.wait | ChainPC.complete =>
    ∃ m, statuses = List.replicate i "completed" ++ "running" :: List.replicate m "pending"
  | ChainPC.exit | ChainPC.done => StepsShape statuses

/-- The invariant of a chain worker and the manager it runs in: its two pointers
are valid, the execution has as many steps as the chain, and the statuses have
the shape of the worker's place. -/
def WorkerInv (s : ChainWorker × ScenarioManager) : Prop :=
  ∃ chain e, s.2.chain s.1.chain = some chain ∧ s.2.chainExecution s.1.execution = some e ∧
    e.Steps.length = chain.Steps.length ∧ PlaceShape s.1.pc s.1.index e.statuses

/-- The runs of one chain worker from `start`: its own moves, with either case
of each `select`, interleaved with the calls of the chain engine and of
`StartScenario` by other goroutines and with the moves of the workers of other
executions. -/
inductive ChainRun (env : Env) (start : ChainWorker × ScenarioManager) :
    ChainWorker × ScenarioManager → Prop where
  | init : ChainRun env start start
  | move (now : Time) (ev : WaitEvent) (s : ChainWorker × ScenarioManager) :
      ChainRun env start s → ChainRun env start (executeChainStep env now ev s.1 s.2)
  | stopChain (now : Time) (id : String) (s : ChainWorker × ScenarioManager) :
      ChainRun env start s → ChainRun env start (s.1, (StopChain now id s.2).2)
  | startChain (now : Time) (id : String) (s : ChainWorker × ScenarioManager) :
      ChainRun env start s → ChainRun env start (s.1, (StartChain now id s.2).2)
  | createChain (now : Time) (chain : ScenarioChain) (s : ChainWorker × ScenarioManager) :
      ChainRun env start s → ChainRun env start (s.1, (CreateChain now chain s.2).2)
  | deleteChain (id : String) (s : ChainWorker × ScenarioManager) :
      ChainRun env start s → ChainRun env start (s.1, (DeleteChain id s.2).2)
  | startScenario (now : Time) (t : String) (cfg : Option (GoMap GoValue))
      (s : ChainWorker × ScenarioManager) :
      ChainRun env start s → ChainRun env start (s.1, (StartScenario env now t cfg s.2).2)
  | otherMove (now : Time) (ev : WaitEvent) (other : ChainWorker)
      (s : ChainWorker × ScenarioManager) :
      other.execution ≠ s.1.execution → ChainRun env start s →
      ChainRun env start (s.1, (executeChainStep env now ev other s.2).2)

/-- What a call or a move of another goroutine preserves for the worker of
execution `q` on chain `c`: the chain, and the steps of the execution. -/
def PreservesWorker (c q : Addr) (sm sm' : ScenarioManager) : Prop :=
  (∀ chain, sm.chain c = some chain → sm'.chain c = some chain) ∧
  (∀ e, sm.chainExecution q = some e →
    ∃ e', sm'.chainExecution q = some e' ∧ e'.Steps = e.Steps)

/-- The worker of execution `q` on chain `c` is at place `pc` of the iteration
for step `k`, and its execution has the given status and step statuses. -/
def RunState (c q : Addr) (chain : ScenarioChain) (pc : ChainPC) (k : Nat) (status : String)
    (statuses : List String) (s : ChainWorker × ScenarioManager) : Prop :=
  s.1 = { chain := c, execution := q, index := k, pc := pc } ∧
  s.2.chain c = some chain ∧
  ∃ e, s.2.chainExecution q = some e ∧ e.Status = status ∧
    e.Steps.length = chain.Steps.length ∧ e.statuses = statuses

/-- One move of a worker in which the timer of a `select` elapses. -/
def timerMove (env : Env) (now : Time) (s : ChainWorker × ScenarioManager) :
    ChainWorker × ScenarioManager :=
  executeChainStep env now WaitEvent.timer s.1 s.2

/-- The library environment in which `time.Parse` reads one date string, the
instant of second 50 of the Unix epoch, and rejects every other string. -/
def oneDateEnv : Env :=
  { cronLibraryEnv with
      parseRFC3339 := fun s => if s = "1970-01-01T00:00:50Z" then some (50 * Second) else none }

/-- A request for an hourly schedule, enabled, whose window starts at second 100. -/
def hourlyFromSchedule : Schedule :=
  { everyMinuteSchedule with CronExpr := "@hourly", StartDate := some (100 * Second) }

/-- The manager of `main` after `CreateSchedule(hourlyFromSchedule)` at second
10 and `UpdateSchedule(id, {"end_date": "1970-01-01T00:00:50Z"})` at second 20:
the update is refused after the end date has been written through the pointer. -/
def backwardsWindowManager : Option SMError × ScenarioManager :=
  UpdateSchedule oneDateEnv (20 * Second) (generateID (10 * Second))
    [("end_date", GoValue.string "1970-01-01T00:00:50Z")]
    (CreateSchedule oneDateEnv (10 * Second) hourlyFromSchedule (mainManager oneDateEnv 0)).2

/-- A chain request of two steps without delays: a catalogue type, then a type
that is not in the catalogue. -/
def twoStepChain : ScenarioChain :=
  { ID := "", Name := "chain", Description := "",
    Steps := [{ ScenarioType := "load_test", Name := "first", Config := none,
                DelayBefore := 0, Order := 0 },
              { ScenarioType := "nope", Name := "second", Config := none,
                DelayBefore := 0, Order := 1 }],
    Status := "pending", StartedAt := none, CompletedAt := none, CreatedAt := 1000,
    CreatedBy := "" }

/-- The filters as the specification words them: an empty filter matches every
entry, another one matches the entries whose field equals it. -/
def matchesFilters (service level : String) (logEntry : LogEntry) : Bool :=
  (decide (service = "") || decide (logEntry.Service = service)) &&
  (decide (level = "") || decide (logEntry.Level = level))

/-- The last `n` elements of a list, in the order of the list. -/
def lastN {α : Type} (n : Nat) (l : List α) : List α := l.drop (l.length - n)

/-- The result of `GetLogs` in the words of C26: the last `min(limit, m)`
elements of the sub-list of the matching entries, `m` being its length. -/
def specGetLogs (limit : Int) (service level : String) (logs : List LogEntry) :
    List LogEntry :=
  lastN (min limit.toNat (logs.filter (matchesFilters service level)).length)
    (logs.filter (matchesFilters service level))

/-- A log entry of the given service and level with the given message. -/
def sampleLog (service level message : String) : LogEntry :=
  { Timestamp := 0, Level := level, Service := service, Message := message, TraceID := "",
    SpanID := "", UserID := "", SessionID := "", IP := "", UserAgent := "", Method := "",
    Path := "", Status := 200, Duration := 0, Error := "", Stack := "" }

/-- A buffer of three entries, appended in the order older, other, newer. -/
def threeLogs : Generator :=
  { Generator.new with
      logs := [sampleLog "auth-service" "INFO" "older", sampleLog "cart-service" "WARN" "other",
               sampleLog "auth-service" "INFO" "newer"] }

/-- The result of `GetLogs` in the words of C23: the matching entries, most
recent first, cut to the first `limit` of them. -/
def specGetLogsNewestFirst (limit : Int) (service level : String) (logs : List LogEntry) :
    List LogEntry :=
  (logs.reverse.filter (matchesFilters service level)).take limit.toNat

/-- A step config that gives the duration in hours only. -/
def hoursConfig : GoMap GoValue := [("duration_hours", GoValue.float64 1)]

/-- A step config with zero seconds and five minutes. -/
def zeroSecondsConfig : GoMap GoValue :=
  [("duration_seconds", GoValue.float64 0), ("duration_minutes", GoValue.float64 5)]

/-- A bound request of handler `CreateChain` with one step that carries the
order value 7. -/
def orderSevenRequest : CreateChainRequest :=
  { Name := "chain", Description := "",
    Steps := [{ ScenarioType := "load_test", Name := "step", Config := none,
                DelayBefore := 0, Order := 7 }] }

/-- Samples of a batch, for the runs below: the one sample
`ecommerce_http_requests_total` with the size of the batch. -/
def requestsTotalOnly (logs : List LogEntry) : List Metric :=
  [{ Name := "ecommerce_http_requests_total", Value := (logs.length : ℚ), Type_ := "counter",
     Labels := [("app", "ecommerce")], Timestamp := 0 }]

/-- Draws for the runs below: every entry starts from the same struct and the
service branch leaves it as it is. -/
def constantDraws (_ : Nat) : LogDraws :=
  { base := sampleLog "auth-service" "INFO" "", float := 0, intn := 0,
    serviceLog := fun logEntry _ => logEntry }

/-- The value of the sample `app_generated_logs_total` of a snapshot. -/
def generatedLogsSample (g : Generator) : Option ℚ :=
  (g.metrics.find? (fun m => m.Name = "app_generated_logs_total")).map (fun m => m.Value)

/-- Method `CreateSchedule` from the statement after the assignment of the id:
`schedule` is the struct with its id. -/
def createScheduleWithID (env : Env) (now : Time) (schedule : Schedule)
    (sm : ScenarioManager) : Option SMError × ScenarioManager :=
  let p := sm.heap.schedules.length
  let sm : ScenarioManager :=
    { sm with heap := { sm.heap with schedules := sm.heap.schedules ++ [schedule] } }
  match env.ParseStandard schedule.CronExpr with
  | some err => (some (SMError.InvalidCron err), sm)
  | none =>
    if endBeforeStart schedule then (some SMError.InvalidDateRange, sm)
    else
      let schedule : Schedule := { schedule with CreatedAt := now }
      let sm : ScenarioManager :=
        { sm with heap := sm.heap.setSchedule p schedule,
                  schedules := mapSet sm.schedules schedule.ID p,
                  storage := sm.storage.SaveSchedule schedule.ID p }
      if schedule.Enabled then scheduleCronJob env now p sm
      else (none, sm)

/-- The struct of a schedule once `CreateSchedule` has given it an id, if it had
none, and its creation time. -/
def createdSchedule (now : Time) (schedule : Schedule) : Schedule :=
  { (if schedule.ID = "" then { schedule with ID := generateID now } else schedule) with
      CreatedAt := now }

/-- The manager once `CreateSchedule` has put the schedule in the index and in
the store, before it arms it. -/
def registeredManager (now : Time) (schedule : Schedule) (sm : ScenarioManager) :
    ScenarioManager :=
  { sm with
      heap := { sm.heap with schedules := sm.heap.schedules ++ [createdSchedule now schedule] },
      schedules := mapSet sm.schedules (createdSchedule now schedule).ID sm.heap.schedules.length,
      storage := sm.storage.SaveSchedule (createdSchedule now schedule).ID
        sm.heap.schedules.length }

/-- A request for an hourly schedule, enabled, whose window ended at second 5. -/
def expiredSchedule : Schedule :=
  { everyMinuteSchedule with CronExpr := "@hourly", EndDate := some (5 * Second) }

/-- The library environment in which `time.Parse` reads two date strings, the
instants of seconds 100 and 50 of the Unix epoch, and rejects every other
string. -/
def twoDatesEnv : Env :=
  { cronLibraryEnv with
      parseRFC3339 := fun s =>
        if s = "1970-01-01T00:01:40Z" then some (100 * Second)
        else if s = "1970-01-01T00:00:50Z" then some (50 * Second)
        else none }

/-- An update with a new name and an expression that is not a cron expression. -/
def renameBadCronUpdate : GoMap GoValue :=
  [("name", GoValue.string "renamed"), ("cron_expr", GoValue.string "not a cron")]

/-- An update whose end date lies before its start date. -/
def backwardsDatesUpdate : GoMap GoValue :=
  [("start_date", GoValue.string "1970-01-01T00:01:40Z"),
   ("end_date", GoValue.string "1970-01-01T00:00:50Z")]

/-- A custom configuration whose number of seconds, in nanoseconds, does not
fit `int64`. -/
def overflowTimingConfig : GoMap GoValue :=
  [("duration_seconds", GoValue.float64 10000000000)]

/-- The worker of `chainStartedManager "nope"` after its first four moves, the
last of which is the call of StartScenario that fails. -/
def failedBeforeExit : ChainWorker × ScenarioManager :=
  runChain withSecondsEnv 2000 4 (ChainWorker.spawn 0 0, chainStartedManager "nope")

/-- The run in which `StopChain` is served at instant 3000 after the error path
of the worker has released the lock and before its deferred function takes it;
the deferred function then runs. -/
def stoppedAfterFailure : ChainWorker × ScenarioManager :=
  runChain withSecondsEnv 4000 1
    (failedBeforeExit.1, (StopChain 3000 (generateID 2000) failedBeforeExit.2).2)

/-- A chain request of one catalogue step whose config gives a duration of
fifteen seconds. -/
def fifteenSecondsChain : ScenarioChain :=
  { ID := "", Name := "chain", Description := "",
    Steps := [{ ScenarioType := "load_test", Name := "step",
                Config := some [("duration_seconds", GoValue.float64 15)],
                DelayBefore := 0, Order := 0 }],
    Status := "pending", StartedAt := none, CompletedAt := none, CreatedAt := 1000,
    CreatedBy := "" }

/-- The worker of `fifteenSecondsChain`, started at instant 2000, after its
first three moves: it has started the scenario of step 0 and waits for fifteen
seconds. -/
def waitingOnDuration : ChainWorker × ScenarioManager :=
  runChain withSecondsEnv 2000 3
    (ChainWorker.spawn 0 0,
      (StartChain 2000 (generateID 1000)
        (CreateChain 1000 fifteenSecondsChain (mainManager withSecondsEnv 0)).2).2)

/-! # Properties -/

/-! ## Go maps -/

theorem mapGet_mapSet {β : Type} (m : GoMap β) (k k' : String) (v : β) :
    mapGet (mapSet m k v) k' = if k = k' then some v else mapGet m k' := by
  induction m with
  | nil => simp [mapSet, mapGet]
  | cons e rest ih =>
    obtain ⟨k0, v0⟩ := e
    by_cases h0 : k0 = k
    · subst h0
      by_cases h : k0 = k' <;> simp [mapSet, mapGet, h]
    · by_cases h : k = k'
      · subst h
        simp [mapSet, mapGet, h0, ih]
      · by_cases h1 : k0 = k'
        · subst h1
          simp [mapSet, mapGet, h0, h]
        · simp [mapSet, mapGet, h0, h1, ih, h]

theorem mapGet_mapDelete {β : Type} (m : GoMap β) (k k' : String) :
    mapGet (mapDelete m k) k' = if k = k' then none else mapGet m k' := by
  induction m with
  | nil => simp [mapDelete, mapGet]
  | cons e rest ih =>
    obtain ⟨k0, v0⟩ := e
    have hcons : mapDelete ((k0, v0) :: rest) k
        = if k0 = k then mapDelete rest k else (k0, v0) :: mapDelete rest k := by
      by_cases h0 : k0 = k <;> simp [mapDelete, List.filter_cons, h0]
    rw [hcons]
    by_cases h0 : k0 = k
    · subst h0
      by_cases h : k0 = k'
      · subst h
        simp [ih]
      · simp [ih, h, mapGet]
    · by_cases h : k = k'
      · subst h
        simp [h0, mapGet, ih]
      · by_cases h1 : k0 = k'
        · subst h1
          simp [h0, mapGet, h]
        · simp [h0, mapGet, h1, ih, h]

theorem mapKeys_mapSet_mem {β : Type} (m : GoMap β) (k : String) (v : β) (x : String) :
    x ∈ mapKeys (mapSet m k v) ↔ x = k ∨ x ∈ mapKeys m := by
  induction m with
  | nil => simp [mapSet, mapKeys]
  | cons e rest ih =>
    obtain ⟨k0, v0⟩ := e
    unfold mapKeys at ih ⊢
    by_cases h0 : k0 = k
    · subst h0
      simp [mapSet]
    · simp only [mapSet, h0, if_false, List.map_cons, List.mem_cons, ih]
      tauto

theorem mapKeys_mapSet_nodup {β : Type} (m : GoMap β) (k : String) (v : β)
    (h : (mapKeys m).Nodup) : (mapKeys (mapSet m k v)).Nodup := by
  induction m with
  | nil => simp [mapSet, mapKeys]
  | cons e rest ih =>
    obtain ⟨k0, v0⟩ := e
    have hk : k0 ∉ mapKeys rest ∧ (mapKeys rest).Nodup := by
      simpa [mapKeys] using h
    by_cases h0 : k0 = k
    · subst h0
      simpa [mapSet, mapKeys] using h
    · have hmem := mapKeys_mapSet_mem rest k v k0
      have : (mapKeys ((k0, v0) :: mapSet rest k v)).Nodup := by
        have h1 : k0 ∉ mapKeys (mapSet rest k v) := by
          rw [hmem]; tauto
        have h2 := ih hk.2
        simp only [mapKeys, List.map_cons, List.nodup_cons] at h1 h2 ⊢
        exact ⟨h1, h2⟩
      simpa [mapSet, h0] using this

theorem mapKeys_mapDelete_nodup {β : Type} (m : GoMap β) (k : String)
    (h : (mapKeys m).Nodup) : (mapKeys (mapDelete m k)).Nodup := by
  unfold mapKeys mapDelete at *
  exact List.Nodup.sublist (List.Sublist.map _ (List.filter_sublist _)) h

theorem mapGet_of_mem {β : Type} (m : GoMap β) (k : String) (v : β)
    (h : (mapKeys m).Nodup) (hm : (k, v) ∈ m) : mapGet m k = some v := by
  induction m with
  | nil => simp at hm
  | cons e rest ih =>
    obtain ⟨k0, v0⟩ := e
    have hk : k0 ∉ mapKeys rest ∧ (mapKeys rest).Nodup := by
      simpa [mapKeys] using h
    rcases List.mem_cons.mp hm with heq | hrest
    · cases heq
      simp [mapGet]
    · have hne : k0 ≠ k := by
        intro hc
        subst hc
        exact hk.1 (by simpa [mapKeys] using ⟨v, hrest⟩)
      simp [mapGet, hne, ih hk.2 hrest]

theorem mem_of_mapGet {β : Type} (m : GoMap β) (k : String) (v : β)
    (h : mapGet m k = some v) : (k, v) ∈ m := by
  induction m with
  | nil => simp [mapGet] at h
  | cons e rest ih =>
    obtain ⟨k0, v0⟩ := e
    by_cases h0 : k0 = k
    · subst h0
      simp [mapGet] at h
      simp [h]
    · simp [mapGet, h0] at h
      exact List.mem_cons_of_mem _ (ih h)

/-! ## The active-scenarios index -/

theorem lt_of_getElem?_eq_some {α : Type} (l : List α) (i : Nat) (x : α)
    (h : l[i]? = some x) : i < l.length := by
  by_contra hcon
  have hle : l.length ≤ i := Nat.le_of_not_lt hcon
  rw [List.getElem?_eq_none hle] at h
  cases h

theorem scenario_setScenario (sm : ScenarioManager) (p q : Addr) (sc new : Scenario)
    (hp : sm.scenario p = some sc) :
    (sm.heap.setScenario p new).scenarios[q]? = if p = q then some new else sm.scenario q := by
  have hlt : p < sm.heap.scenarios.length := lt_of_getElem?_eq_some _ _ _ hp
  simp [Heap.setScenario, List.getElem?_set, hlt, ScenarioManager.scenario]

theorem scenarioInv_init (sm : ScenarioManager) (h : sm.activeScenarios = []) :
    ScenarioInv sm := by
  constructor
  · simp [h, mapKeys]
  · intro k p hk
    simp [h, mapGet] at hk

theorem scenarioInv_start (env : Env) (now : Time) (t : String)
    (cfg : Option (GoMap GoValue)) (sm : ScenarioManager) (h : ScenarioInv sm) :
    ScenarioInv (StartScenario env now t cfg sm).2 := by
  unfold StartScenario
  cases hc : mapGet predefinedScenarios t with
  | none => exact h
  | some config =>
    obtain ⟨hnd, hkey⟩ := h
    refine ⟨mapKeys_mapSet_nodup _ _ _ hnd, ?_⟩
    intro k p hk
    simp only [mapGet_mapSet] at hk
    by_cases htk : t = k
    · subst htk
      simp only [if_true, Option.some.injEq] at hk
      subst hk
      simp [ScenarioManager.scenario]
    · simp only [htk, if_false] at hk
      obtain ⟨sc, hsc, hty⟩ := hkey k p hk
      refine ⟨sc, ?_, hty⟩
      unfold ScenarioManager.scenario at hsc ⊢
      have hlt : p < sm.heap.scenarios.length := lt_of_getElem?_eq_some _ _ _ hsc
      simp [List.getElem?_append_left hlt, hsc]

theorem scenarioInv_setInactive (p : Addr) (sm sm' : ScenarioManager) (scenario : Scenario)
    (hs : sm.scenario p = some scenario)
    (hheap : sm'.heap = sm.heap.setScenario p { scenario with Active := false })
    (hsub : ∀ k q, mapGet sm'.activeScenarios k = some q → mapGet sm.activeScenarios k = some q)
    (hkey : ActiveKeyed sm) : ActiveKeyed sm' := by
  intro k q hk
  obtain ⟨sc, hsc, hty⟩ := hkey k q (hsub k q hk)
  unfold ScenarioManager.scenario
  rw [hheap, scenario_setScenario sm p q scenario _ hs]
  by_cases hpq : p = q
  · subst hpq
    rw [hs] at hsc
    cases hsc
    exact ⟨{ scenario with Active := false }, by simp, hty⟩
  · exact ⟨sc, by simp [hpq, hsc], hty⟩

theorem scenarioInv_stop (t : String) (sm : ScenarioManager) (h : ScenarioInv sm) :
    ScenarioInv (StopScenario t sm).2 := by
  unfold StopScenario
  cases hg : mapGet sm.activeScenarios t with
  | none => exact h
  | some p =>
    cases hs : sm.scenario p with
    | none => simpa [hs] using h
    | some scenario =>
      simp only [hs]
      exact ⟨h.1, scenarioInv_setInactive p sm _ scenario hs rfl (fun _ _ hk => hk) h.2⟩

theorem scenarioInv_exit (p : Addr) (sm : ScenarioManager) (h : ScenarioInv sm) :
    ScenarioInv (executeScenarioExit p sm) := by
  unfold executeScenarioExit
  cases hs : sm.scenario p with
  | none => exact h
  | some scenario =>
    refine ⟨mapKeys_mapDelete_nodup _ _ h.1, ?_⟩
    refine scenarioInv_setInactive p sm _ scenario hs rfl ?_ h.2
    intro k q hk
    simp only [mapGet_mapDelete] at hk
    by_cases htk : scenario.Type_ = k
    · simp [htk] at hk
    · simpa [htk] using hk

theorem removeCronEntry_frame (id : String) (sm : ScenarioManager) :
    (removeCronEntry id sm).activeScenarios = sm.activeScenarios ∧
    (removeCronEntry id sm).heap = sm.heap ∧
    (removeCronEntry id sm).storage = sm.storage ∧
    (removeCronEntry id sm).schedules = sm.schedules ∧
    (removeCronEntry id sm).workers = sm.workers := by
  unfold removeCronEntry
  cases mapGet sm.cronEntries id <;> simp

theorem scheduleCronJob_frame (env : Env) (now : Time) (p : Addr) (sm : ScenarioManager) :
    (scheduleCronJob env now p sm).2.activeScenarios = sm.activeScenarios ∧
    (scheduleCronJob env now p sm).2.heap.scenarios = sm.heap.scenarios ∧
    (scheduleCronJob env now p sm).2.heap.labelMaps = sm.heap.labelMaps ∧
    (scheduleCronJob env now p sm).2.heap.paramMaps = sm.heap.paramMaps ∧
    (scheduleCronJob env now p sm).2.storage = sm.storage ∧
    (scheduleCronJob env now p sm).2.schedules = sm.schedules ∧
    (scheduleCronJob env now p sm).2.workers = sm.workers := by
  have hr := removeCronEntry_frame
  unfold scheduleCronJob
  cases hs : sm.schedule p with
  | none => simp
  | some schedule =>
    by_cases hend : isAfter now schedule.EndDate = true
    · simp [hend, Heap.setSchedule]
    · cases hadd : (removeCronEntry schedule.ID sm).cronScheduler.AddFunc env now
          schedule.CronExpr p with
      | error err => simp [hend, hadd, hr]
      | ok r => simp [hend, hadd, Heap.setSchedule, hr]

theorem restoreSchedules_frame (env : Env) (now : Time) (sm : ScenarioManager) :
    (restoreSchedules env now sm).activeScenarios = sm.activeScenarios ∧
    (restoreSchedules env now sm).heap.scenarios = sm.heap.scenarios := by
  unfold restoreSchedules
  generalize sm.storage.GetSchedules = ps
  induction ps generalizing sm with
  | nil => simp
  | cons p rest ih =>
    rw [List.foldl_cons]
    refine ⟨(ih _).1.trans ?_, (ih _).2.trans ?_⟩
    · cases hs : sm.schedule p with
      | none => rfl
      | some schedule =>
        by_cases he : schedule.Enabled = true
        · simp [he, (scheduleCronJob_frame env now p _).1]
        · simp [he]
    · cases hs : sm.schedule p with
      | none => rfl
      | some schedule =>
        by_cases he : schedule.Enabled = true
        · simp [he, (scheduleCronJob_frame env now p _).2.1]
        · simp [he]

theorem scenarioInv_restoreScenarios (sm : ScenarioManager) (h : ScenarioInv sm) :
    ScenarioInv (restoreScenarios sm) := by
  unfold restoreScenarios
  generalize sm.storage.GetActiveScenarios sm.heap = ps
  induction ps generalizing sm with
  | nil => exact h
  | cons p rest ih =>
    rw [List.foldl_cons]
    apply ih
    cases hs : sm.scenario p with
    | none => exact h
    | some scenario =>
      refine ⟨mapKeys_mapSet_nodup _ _ _ h.1, ?_⟩
      intro k q hk
      simp only [mapGet_mapSet] at hk
      by_cases htk : scenario.Type_ = k
      · simp only [htk, if_true, Option.some.injEq] at hk
        subst hk
        exact ⟨scenario, hs, htk⟩
      · simp only [htk, if_false] at hk
        exact h.2 k q hk

theorem scenarioInv_restore (env : Env) (now : Time) (sm : ScenarioManager)
    (h : ScenarioInv sm) : ScenarioInv (restoreState env now sm) := by
  have h1 := scenarioInv_restoreScenarios sm h
  have hf := restoreSchedules_frame env now (restoreScenarios sm)
  unfold restoreState
  unfold ScenarioInv ActiveKeyed ScenarioManager.scenario at h1 ⊢
  rw [hf.1, hf.2]
  exact h1

theorem scenarioInv_reachable (env : Env) (sm : ScenarioManager)
    (h : ScenarioReachable env sm) : ScenarioInv sm := by
  induction h with
  | init sm h0 => exact scenarioInv_init sm h0
  | step sm sm' _ hstep ih =>
    cases hstep with
    | start now t cfg => exact scenarioInv_start env now t cfg sm ih
    | stop t => exact scenarioInv_stop t sm ih
    | workerExit p _ => exact scenarioInv_exit p sm ih
    | workerAbandon p _ => exact ih
    | restore now => exact scenarioInv_restore env now sm ih

/-- C1: in every state reached through StartScenario, StopScenario, the end of a
scenario worker and restoreState, every entry of the active-scenarios index
stored under key `k` is a scenario whose Type is `k`, and no key occurs twice,
so the index holds at most one entry per scenario type. -/
theorem active_index_one_entry_per_type (env : Env) (sm : ScenarioManager)
    (h : ScenarioReachable env sm) :
    (∀ k p, (k, p) ∈ sm.activeScenarios →
      ∃ sc, sm.scenario p = some sc ∧ sc.Type_ = k) ∧
    (∀ t, (mapKeys sm.activeScenarios).count t ≤ 1) := by
  have hinv := scenarioInv_reachable env sm h
  refine ⟨?_, ?_⟩
  · intro k p hmem
    exact hinv.2 k p (mapGet_of_mem _ k p hinv.1 hmem)
  · intro t
    exact List.nodup_iff_count_le_one.mp hinv.1 t

theorem sampleManager_reachable : ScenarioReachable withSecondsEnv sampleManager :=
  ScenarioReachable.step _ _ (ScenarioReachable.init (mainManager withSecondsEnv 0) rfl)
    (ScenarioStep.start 1 "load_test" none (mainManager withSecondsEnv 0))

/-- Witness of C1 on the manager of `main` after one StartScenario. -/
theorem active_index_one_entry_per_type_witness :
    ScenarioReachable withSecondsEnv sampleManager ∧
    ((∀ k p, (k, p) ∈ sampleManager.activeScenarios →
      ∃ sc, sampleManager.scenario p = some sc ∧ sc.Type_ = k) ∧
    (∀ t, (mapKeys sampleManager.activeScenarios).count t ≤ 1)) :=
  ⟨sampleManager_reachable,
    active_index_one_entry_per_type withSecondsEnv sampleManager sampleManager_reachable⟩

/-! ## StartScenario -/

/-- C2: for a type that is not a key of the predefined catalogue StartScenario
returns the unknown-scenario error and leaves the whole manager (active index,
store, heap, workers) as it was; for a type of the catalogue it returns no
error. -/
theorem startScenario_unknown_or_ok (env : Env) (now : Time) (t : String)
    (cfg : Option (GoMap GoValue)) (sm : ScenarioManager) :
    (mapGet predefinedScenarios t = none →
      (StartScenario env now t cfg sm).1 = some (SMError.UnknownScenario t) ∧
      (StartScenario env now t cfg sm).2 = sm) ∧
    (mapGet predefinedScenarios t ≠ none → (StartScenario env now t cfg sm).1 = none) := by
  unfold StartScenario
  cases hc : mapGet predefinedScenarios t with
  | none => simp
  | some config => simp

/-- Witness of C2: an unknown type on the manager of `main`, and a catalogue type. -/
theorem startScenario_unknown_or_ok_witness :
    (mapGet predefinedScenarios "black_friday" = none ∧
      (StartScenario withSecondsEnv 1 "black_friday" none sampleManager).1
        = some (SMError.UnknownScenario "black_friday") ∧
      (StartScenario withSecondsEnv 1 "black_friday" none sampleManager).2 = sampleManager) ∧
    (mapGet predefinedScenarios "error_spike" ≠ none ∧
      (StartScenario withSecondsEnv 1 "error_spike" none sampleManager).1 = none) :=
  ⟨⟨by decide,
     (startScenario_unknown_or_ok withSecondsEnv 1 "black_friday" none sampleManager).1
       (by decide)⟩,
   ⟨by decide,
     (startScenario_unknown_or_ok withSecondsEnv 1 "error_spike" none sampleManager).2
       (by decide)⟩⟩

theorem mapGet_eq_none_of_not_mem {β : Type} (m : GoMap β) (k : String)
    (h : k ∉ mapKeys m) : mapGet m k = none := by
  induction m with
  | nil => rfl
  | cons e rest ih =>
    obtain ⟨k0, v0⟩ := e
    have h' : ¬ k = k0 ∧ k ∉ mapKeys rest := by
      simpa [mapKeys] using h
    have hne : ¬ k0 = k := fun hc => h'.1 hc.symm
    simp [mapGet, hne, ih h'.2]

theorem mapGet_copyInto {β : Type} (src dst : GoMap β) (k : String) :
    mapGet (copyInto src dst) k = (mapGet src k).orElse (fun _ => mapGet dst k) := by
  induction src with
  | nil => simp [copyInto, mapGet]
  | cons e rest ih =>
    obtain ⟨k0, v0⟩ := e
    have hstep : copyInto ((k0, v0) :: rest) dst = mapSet (copyInto rest dst) k0 v0 := rfl
    rw [hstep, mapGet_mapSet]
    by_cases h : k0 = k
    · simp [h, mapGet]
    · simp [h, mapGet, ih]

theorem mapGet_mergeLabels (labels : GoMap GoValue) (dst : GoMap String) (k : String)
    (hnd : (mapKeys labels).Nodup) :
    mapGet (mergeLabels labels dst) k =
      match mapGet labels k with
      | some (GoValue.string strVal) => some strVal
      | _ => mapGet dst k := by
  induction labels with
  | nil => simp [mergeLabels, mapGet]
  | cons e rest ih =>
    obtain ⟨k0, v0⟩ := e
    have hk : k0 ∉ mapKeys rest ∧ (mapKeys rest).Nodup := by
      simpa [mapKeys] using hnd
    have ih' := ih hk.2
    by_cases h : k0 = k
    · subst h
      have hnone := mapGet_eq_none_of_not_mem rest k0 hk.1
      rw [hnone] at ih'
      cases v0 <;> simp [mergeLabels, mapGet, mapGet_mapSet] <;>
        simpa [mergeLabels] using ih'
    · cases v0 <;> simp [mergeLabels, mapGet, mapGet_mapSet, h] <;>
        simpa [mergeLabels] using ih'

theorem startScenario_eq (env : Env) (now : Time) (t : String)
    (cfg : Option (GoMap GoValue)) (sm : ScenarioManager) (config : ScenarioConfig)
    (hc : mapGet predefinedScenarios t = some config) :
    StartScenario env now t cfg sm =
      (none, { sm with
        heap := { sm.heap with
          scenarios := sm.heap.scenarios ++ [startedScenario env now t cfg sm config],
          labelMaps := sm.heap.labelMaps ++
            [customLabels (cfg.getD []) (copyInto (sm.heap.labels config.Labels) [])],
          paramMaps := sm.heap.paramMaps ++ [copyInto (sm.heap.params config.Parameters) []] },
        activeScenarios := mapSet sm.activeScenarios t sm.heap.scenarios.length,
        storage := sm.storage.SaveScenario t sm.heap.scenarios.length,
        workers := sm.workers ++ [sm.heap.scenarios.length] }) := by
  unfold StartScenario
  rw [hc]
  rfl

theorem catalogue_addr_lt (k : String) (config : ScenarioConfig)
    (h : mapGet predefinedScenarios k = some config) :
    config.Labels < 5 ∧ config.Parameters < 5 := by
  simp only [predefinedScenarios, mapGet] at h
  split_ifs at h <;> cases h <;> decide

theorem catalogueAllocated_of_le (h : Heap) (h1 : 5 ≤ h.labelMaps.length)
    (h2 : 5 ≤ h.paramMaps.length) : CatalogueAllocated h := by
  intro k config hk
  have hlt := catalogue_addr_lt k config hk
  exact ⟨Nat.lt_of_lt_of_le hlt.1 h1, Nat.lt_of_lt_of_le hlt.2 h2⟩

theorem getElem?_append_singleton_lt {α : Type} (l : List α) (x : α) (i : Nat)
    (h : i < l.length) : (l ++ [x])[i]? = l[i]? :=
  List.getElem?_append_left h

theorem getElem?_append_singleton_length {α : Type} (l : List α) (x : α) :
    (l ++ [x])[l.length]? = some x := by
  simp

/-- C3: StartScenario of a catalogue type leaves the maps of every catalogue
entry as they were; the labels of the registered scenario are the catalogue
defaults overridden by exactly the string-valued entries of
`customConfig["labels"]`, its parameters are a copy of the defaults; both maps
are new objects, so a second scenario started from the same type shares
neither of them with the first. -/
theorem startScenario_copies_config (env : Env) (now : Time) (t : String)
    (cfg : Option (GoMap GoValue)) (sm : ScenarioManager) (config : ScenarioConfig)
    (hc : mapGet predefinedScenarios t = some config)
    (halloc : CatalogueAllocated sm.heap)
    (hnd : ∀ m, asMap (mapGet (cfg.getD []) "labels") = some m → (mapKeys m).Nodup) :
    (∀ k c, mapGet predefinedScenarios k = some c →
      (StartScenario env now t cfg sm).2.heap.labels c.Labels = sm.heap.labels c.Labels ∧
      (StartScenario env now t cfg sm).2.heap.params c.Parameters
        = sm.heap.params c.Parameters) ∧
    ∃ p sc,
      mapGet (StartScenario env now t cfg sm).2.activeScenarios t = some p ∧
      (StartScenario env now t cfg sm).2.scenario p = some sc ∧
      (∀ k, mapGet ((StartScenario env now t cfg sm).2.heap.labels sc.Config.Labels) k =
        match asMap (mapGet (cfg.getD []) "labels") with
        | some m =>
          (match mapGet m k with
           | some (GoValue.string v) => some v
           | _ => mapGet (sm.heap.labels config.Labels) k)
        | none => mapGet (sm.heap.labels config.Labels) k) ∧
      (∀ k, mapGet ((StartScenario env now t cfg sm).2.heap.params sc.Config.Parameters) k
        = mapGet (sm.heap.params config.Parameters) k) ∧
      sm.heap.labelMaps.length ≤ sc.Config.Labels ∧
      sm.heap.paramMaps.length ≤ sc.Config.Parameters ∧
      (∀ now2 cfg2, ∃ p2 sc2,
        mapGet (StartScenario env now2 t cfg2
          (StartScenario env now t cfg sm).2).2.activeScenarios t = some p2 ∧
        (StartScenario env now2 t cfg2 (StartScenario env now t cfg sm).2).2.scenario p2
          = some sc2 ∧
        (StartScenario env now2 t cfg2 (StartScenario env now t cfg sm).2).2.scenario p
          = some sc ∧
        sc2.Config.Labels ≠ sc.Config.Labels ∧
        sc2.Config.Parameters ≠ sc.Config.Parameters) := by
  refine ⟨?_, sm.heap.scenarios.length, startedScenario env now t cfg sm config, ?_, ?_, ?_, ?_,
    ?_, ?_, ?_⟩
  · intro k c hk
    obtain ⟨h1, h2⟩ := halloc k c hk
    rw [startScenario_eq env now t cfg sm config hc]
    simp only [Heap.labels, Heap.params]
    rw [getElem?_append_singleton_lt _ _ _ h1, getElem?_append_singleton_lt _ _ _ h2]
    exact ⟨rfl, rfl⟩
  · rw [startScenario_eq env now t cfg sm config hc]
    simp [mapGet_mapSet]
  · rw [startScenario_eq env now t cfg sm config hc]
    simp [ScenarioManager.scenario]
  · intro k
    rw [startScenario_eq env now t cfg sm config hc]
    simp only [Heap.labels, startedScenario, getElem?_append_singleton_length, Option.getD_some]
    unfold customLabels
    cases hm : asMap (mapGet (cfg.getD []) "labels") with
    | none =>
      simp only [mapGet_copyInto]
      cases mapGet (sm.heap.labelMaps[config.Labels]?.getD []) k <;> simp [mapGet]
    | some m =>
      simp only []
      rw [mapGet_mergeLabels m _ k (hnd m hm), mapGet_copyInto]
      have hd : ((mapGet (sm.heap.labelMaps[config.Labels]?.getD []) k).orElse
          (fun _ => mapGet ([] : GoMap String) k))
          = mapGet (sm.heap.labelMaps[config.Labels]?.getD []) k := by
        cases mapGet (sm.heap.labelMaps[config.Labels]?.getD []) k <;> simp [mapGet]
      rw [hd]
  · intro k
    rw [startScenario_eq env now t cfg sm config hc]
    simp only [Heap.params, startedScenario, getElem?_append_singleton_length, Option.getD_some,
      mapGet_copyInto]
    cases mapGet (sm.heap.paramMaps[config.Parameters]?.getD []) k <;> simp [mapGet]
  · exact Nat.le_refl _
  · exact Nat.le_refl _
  · intro now2 cfg2
    refine ⟨(StartScenario env now t cfg sm).2.heap.scenarios.length,
      startedScenario env now2 t cfg2 (StartScenario env now t cfg sm).2 config, ?_, ?_, ?_, ?_, ?_⟩
    · rw [startScenario_eq env now2 t cfg2 _ config hc]
      simp [mapGet_mapSet]
    · rw [startScenario_eq env now2 t cfg2 _ config hc]
      simp [ScenarioManager.scenario]
    · rw [startScenario_eq env now2 t cfg2 _ config hc,
        startScenario_eq env now t cfg sm config hc]
      show ((sm.heap.scenarios ++ [_]) ++ [_])[sm.heap.scenarios.length]? = some _
      rw [getElem?_append_singleton_lt _ _ _ (by simp), getElem?_append_singleton_length]
    · rw [startScenario_eq env now t cfg sm config hc]
      simp [startedScenario]
    · rw [startScenario_eq env now t cfg sm config hc]
      simp [startedScenario]

theorem sampleManager_allocated : CatalogueAllocated sampleManager.heap :=
  catalogueAllocated_of_le _ (by decide) (by decide)

/-- Witness of C3: `load_test` started on the sample manager with a label override. -/
theorem startScenario_copies_config_witness :
    mapGet predefinedScenarios "load_test"
      = some { Name := "Load Test", Description := "Генерация высокой нагрузки",
               LogCount := 1000, Labels := 0, Parameters := 0 } ∧
    CatalogueAllocated sampleManager.heap ∧
    ∃ p sc,
      mapGet (StartScenario withSecondsEnv 2 "load_test" (some sampleLabelsConfig)
        sampleManager).2.activeScenarios "load_test" = some p ∧
      (StartScenario withSecondsEnv 2 "load_test" (some sampleLabelsConfig)
        sampleManager).2.scenario p = some sc ∧
      mapGet ((StartScenario withSecondsEnv 2 "load_test" (some sampleLabelsConfig)
        sampleManager).2.heap.labels sc.Config.Labels) "environment" = some "staging" ∧
      mapGet ((StartScenario withSecondsEnv 2 "load_test" (some sampleLabelsConfig)
        sampleManager).2.heap.labels sc.Config.Labels) "test_type" = some "load" ∧
      mapGet ((StartScenario withSecondsEnv 2 "load_test" (some sampleLabelsConfig)
        sampleManager).2.heap.labels sc.Config.Labels) "replicas" = none := by
  refine ⟨by decide, sampleManager_allocated, ?_⟩
  obtain ⟨p, sc, h1, h2, h3, _⟩ :=
    (startScenario_copies_config withSecondsEnv 2 "load_test" (some sampleLabelsConfig)
      sampleManager
      { Name := "Load Test", Description := "Генерация высокой нагрузки",
        LogCount := 1000, Labels := 0, Parameters := 0 }
      (by decide) sampleManager_allocated
      (by
        intro m hm
        have hm' : m = [("environment", GoValue.string "staging"),
            ("replicas", GoValue.float64 3)] := by
          have h0 : asMap (mapGet ((some sampleLabelsConfig).getD []) "labels")
              = some [("environment", GoValue.string "staging"),
                      ("replicas", GoValue.float64 3)] := rfl
          rw [h0] at hm
          exact (Option.some.inj hm).symm
        subst hm'
        decide)).2
  exact ⟨p, sc, h1, h2, (h3 "environment").trans (by decide), (h3 "test_type").trans (by decide),
    (h3 "replicas").trans (by decide)⟩

theorem wrapInt64_of_inRange (y : Int) (h1 : -(2 ^ 63) ≤ y) (h2 : y < 2 ^ 63) :
    wrapInt64 y = y := by
  unfold wrapInt64
  omega

theorem mulInt64_exact (x : ℚ) (unit_ : Int) (hu : 1 ≤ unit_)
    (h1 : -(2 ^ 63) ≤ Int.tdiv x.num x.den * unit_)
    (h2 : Int.tdiv x.num x.den * unit_ < 2 ^ 63) :
    mulInt64 (float64ToInt64 x) unit_ = Int.tdiv x.num x.den * unit_ := by
  unfold mulInt64 float64ToInt64
  generalize Int.tdiv x.num x.den = a at h1 h2 ⊢
  have hlo : -(2 ^ 63) ≤ a := by
    by_contra hcon
    have hneg : a < 0 := by omega
    have hmul : a * unit_ ≤ a := by nlinarith
    omega
  have hhi : a < 2 ^ 63 := by
    by_contra hcon
    have hpos : 0 ≤ a := by omega
    have hmul : a ≤ a * unit_ := by nlinarith
    omega
  rw [if_pos ⟨hlo, hhi⟩, wrapInt64_of_inRange _ h1 h2]

/-- C4, the code at a number of seconds whose nanoseconds do not fit `int64`:
with `duration_seconds = 1e10` the product `time.Duration(dur) * time.Second`
overflows, and the registered scenario has a negative duration, not ten
thousand million seconds; having no positive duration and no interval, it runs
One-shot. -/
theorem startScenario_duration_overflows :
    asFloat64 (mapGet overflowTimingConfig "duration_seconds") = some 10000000000 ∧
    ((StartScenario withSecondsEnv 2 "load_test" (some overflowTimingConfig)
      (mainManager withSecondsEnv 0)).2.scenario 0).map (fun sc => sc.Duration)
      = some (-8446744073709551616) ∧
    (-8446744073709551616 : Int) ≠ 10000000000 * Second ∧
    ((StartScenario withSecondsEnv 2 "load_test" (some overflowTimingConfig)
      (mainManager withSecondsEnv 0)).2.scenario 0).map executeScenarioMode
      = some Mode.Single := by
  decide

/-- C4, as the code has it: the scenario registered by StartScenario has the
duration `duration_seconds`, truncated to whole seconds, when that key holds a
number whose nanoseconds fit `int64`; when that key holds no number, the
duration `duration_minutes`, truncated to whole minutes, when that key holds a
number whose nanoseconds fit `int64`; and zero when neither key holds a number.
Its interval is given in the same way by `interval_minutes` first and
`interval_seconds` second. -/
theorem startScenario_duration_interval (env : Env) (now : Time) (t : String)
    (cfg : Option (GoMap GoValue)) (sm : ScenarioManager)
    (ht : mapGet predefinedScenarios t ≠ none) :
    ∃ p sc,
      mapGet (StartScenario env now t cfg sm).2.activeScenarios t = some p ∧
      (StartScenario env now t cfg sm).2.scenario p = some sc ∧
      (∀ x : ℚ, asFloat64 (mapGet (cfg.getD []) "duration_seconds") = some x →
        -(2 ^ 63) ≤ Int.tdiv x.num x.den * Second →
        Int.tdiv x.num x.den * Second < 2 ^ 63 →
        sc.Duration = Int.tdiv x.num x.den * Second) ∧
      (asFloat64 (mapGet (cfg.getD []) "duration_seconds") = none →
        ∀ x : ℚ, asFloat64 (mapGet (cfg.getD []) "duration_minutes") = some x →
        -(2 ^ 63) ≤ Int.tdiv x.num x.den * Minute →
        Int.tdiv x.num x.den * Minute < 2 ^ 63 →
        sc.Duration = Int.tdiv x.num x.den * Minute) ∧
      (asFloat64 (mapGet (cfg.getD []) "duration_seconds") = none →
        asFloat64 (mapGet (cfg.getD []) "duration_minutes") = none → sc.Duration = 0) ∧
      (∀ x : ℚ, asFloat64 (mapGet (cfg.getD []) "interval_minutes") = some x →
        -(2 ^ 63) ≤ Int.tdiv x.num x.den * Minute →
        Int.tdiv x.num x.den * Minute < 2 ^ 63 →
        sc.Interval = Int.tdiv x.num x.den * Minute) ∧
      (asFloat64 (mapGet (cfg.getD []) "interval_minutes") = none →
        ∀ x : ℚ, asFloat64 (mapGet (cfg.getD []) "interval_seconds") = some x →
        -(2 ^ 63) ≤ Int.tdiv x.num x.den * Second →
        Int.tdiv x.num x.den * Second < 2 ^ 63 →
        sc.Interval = Int.tdiv x.num x.den * Second) ∧
      (asFloat64 (mapGet (cfg.getD []) "interval_minutes") = none →
        asFloat64 (mapGet (cfg.getD []) "interval_seconds") = none → sc.Interval = 0) := by
  cases hc : mapGet predefinedScenarios t with
  | none => exact absurd hc ht
  | some config =>
    refine ⟨sm.heap.scenarios.length, startedScenario env now t cfg sm config, ?_, ?_,
      ?_, ?_, ?_, ?_, ?_, ?_⟩
    · rw [startScenario_eq env now t cfg sm config hc]
      simp [mapGet_mapSet]
    · rw [startScenario_eq env now t cfg sm config hc]
      simp [ScenarioManager.scenario]
    · intro x hx h1 h2
      show customDuration (cfg.getD []) = _
      unfold customDuration
      simp only [hx]
      exact mulInt64_exact x Second (by decide) h1 h2
    · intro hnone x hx h1 h2
      show customDuration (cfg.getD []) = _
      unfold customDuration
      simp only [hnone, hx]
      exact mulInt64_exact x Minute (by decide) h1 h2
    · intro h1 h2
      show customDuration (cfg.getD []) = _
      unfold customDuration
      simp only [h1, h2]
      rfl
    · intro x hx h1 h2
      show customInterval (cfg.getD []) = _
      unfold customInterval
      simp only [hx]
      exact mulInt64_exact x Minute (by decide) h1 h2
    · intro hnone x hx h1 h2
      show customInterval (cfg.getD []) = _
      unfold customInterval
      simp only [hnone, hx]
      exact mulInt64_exact x Second (by decide) h1 h2
    · intro h1 h2
      show customInterval (cfg.getD []) = _
      unfold customInterval
      simp only [h1, h2]
      rfl

/-- Witness of C4: both unit variants supplied; seconds win for the duration,
minutes for the interval. -/
theorem startScenario_duration_interval_witness :
    mapGet predefinedScenarios "load_test" ≠ none ∧
    ∃ p sc,
      mapGet (StartScenario withSecondsEnv 2 "load_test" (some sampleTimingConfig)
        sampleManager).2.activeScenarios "load_test" = some p ∧
      (StartScenario withSecondsEnv 2 "load_test" (some sampleTimingConfig)
        sampleManager).2.scenario p = some sc ∧
      sc.Duration = 90 * Second ∧ sc.Interval = 2 * Minute :=
  ⟨by decide,
    match startScenario_duration_interval withSecondsEnv 2 "load_test"
      (some sampleTimingConfig) sampleManager (by decide) with
    | ⟨p, sc, h1, h2, h3, _, _, h6, _, _⟩ =>
      ⟨p, sc, h1, h2, (h3 90 (by decide) (by decide) (by decide)).trans (by decide),
        (h6 2 (by decide) (by decide) (by decide)).trans (by decide)⟩⟩

/-! ## StopScenario -/

theorem stopScenario_eq (t : String) (sm : ScenarioManager) (p : Addr) (sc : Scenario)
    (hp : mapGet sm.activeScenarios t = some p) (hs : sm.scenario p = some sc) :
    StopScenario t sm =
      (none, { sm with heap := sm.heap.setScenario p { sc with Active := false },
                       storage := sm.storage.UpdateScenario sc.Type_ p }) := by
  unfold StopScenario
  rw [hp]
  simp only [hs]

theorem stopScenario_notActive (t : String) (sm : ScenarioManager)
    (h : mapGet sm.activeScenarios t = none) :
    StopScenario t sm = (some (SMError.NotActive t), sm) := by
  unfold StopScenario
  rw [h]

/-- Two successive calls of StopScenario on the manager of `main` with
`load_test` started: the second call succeeds too. -/
theorem stopScenario_twice_counterexample :
    mapGet sampleManager.activeScenarios "load_test" ≠ none ∧
    (StopScenario "load_test" sampleManager).1 = none ∧
    (StopScenario "load_test" (StopScenario "load_test" sampleManager).2).1 = none := by
  decide

/-- C5, the code in every reachable state where type `t` is in the active
index: StopScenario succeeds and clears the active flag of the scenario, and a
second StopScenario right after it returns no error either, although the
scenario is not active any more: the call tests only that the index has an
entry for `t`, and the entry stays until a worker removes it at its end, after
which the call does return the not-active error. -/
theorem stopScenario_twice (env : Env) (sm : ScenarioManager) (t : String) (p : Addr)
    (hr : ScenarioReachable env sm) (hp : mapGet sm.activeScenarios t = some p) :
    (StopScenario t sm).1 = none ∧
    ((StopScenario t sm).2.scenario p).map (fun sc => sc.Active) = some false ∧
    (StopScenario t (StopScenario t sm).2).1 = none ∧
    (StopScenario t (executeScenarioExit p (StopScenario t sm).2)).1
      = some (SMError.NotActive t) := by
  obtain ⟨sc, hs, hty⟩ := (scenarioInv_reachable env sm hr).2 t p hp
  have hs' : (StopScenario t sm).2.scenario p = some { sc with Active := false } := by
    rw [stopScenario_eq t sm p sc hp hs]
    unfold ScenarioManager.scenario
    rw [scenario_setScenario sm p p sc _ hs]
    simp
  have hp' : mapGet (StopScenario t sm).2.activeScenarios t = some p := by
    rw [stopScenario_eq t sm p sc hp hs]
    exact hp
  refine ⟨?_, ?_, ?_, ?_⟩
  · rw [stopScenario_eq t sm p sc hp hs]
  · rw [hs']
    rfl
  · rw [stopScenario_eq t _ p _ hp' hs']
  · have hdel : mapGet (executeScenarioExit p (StopScenario t sm).2).activeScenarios t = none := by
      unfold executeScenarioExit
      simp only [hs']
      rw [mapGet_mapDelete]
      simp [hty]
    rw [stopScenario_notActive t _ hdel]

/-- Witness of C5 at the failing input: the manager of `main` with `load_test`
started. -/
theorem stopScenario_twice_witness :
    ScenarioReachable withSecondsEnv sampleManager ∧
    mapGet sampleManager.activeScenarios "load_test" = some 0 ∧
    (StopScenario "load_test" sampleManager).1 = none ∧
    ((StopScenario "load_test" sampleManager).2.scenario 0).map (fun sc => sc.Active)
      = some false ∧
    (StopScenario "load_test" (StopScenario "load_test" sampleManager).2).1 = none ∧
    (StopScenario "load_test"
      (executeScenarioExit 0 (StopScenario "load_test" sampleManager).2)).1
      = some (SMError.NotActive "load_test") :=
  ⟨sampleManager_reachable, by decide,
    stopScenario_twice withSecondsEnv sampleManager "load_test" 0 sampleManager_reachable
      (by decide)⟩

/-! ## Scenario workers -/

/-- C6, the code at the failing input: a scenario with interval 0, duration 0
and an end date is run One-shot by `executeScenario`, where the specification
selects Timed; `executeTimedScenario`, had it been entered, would have run
until that end date. -/
theorem executeScenarioMode_endDate_only :
    executeScenarioMode endDatedScenario = Mode.Single ∧
    specMode endDatedScenario = Mode.Timed ∧
    (∀ now, timedEndTime endDatedScenario now = Hour) := by
  refine ⟨by decide, by decide, ?_⟩
  intro now
  rfl

theorem float64ToInt64_tenth_eq_zero (x : ℚ) (h0 : 0 < x) (h10 : x < 10) :
    float64ToInt64 (x / 10) = 0 := by
  unfold float64ToInt64
  have hlt : (x / 10).num < ((x / 10).den : Int) := by
    have h1 : x / 10 < 1 := by linarith
    exact_mod_cast (Rat.lt_one_iff_num_lt_denom.mp h1)
  have hnn : 0 ≤ (x / 10).num := by
    have h2 : 0 ≤ x / 10 := by positivity
    exact Rat.num_nonneg.mpr h2
  have hz : Int.tdiv (x / 10).num (x / 10).den = 0 := by
    rw [Int.tdiv_eq_ediv hnn (Int.ofNat_nonneg _)]
    exact Int.ediv_eq_zero_of_lt hnn hlt
  rw [hz]
  decide

theorem timedBatchSize_panics (logCount : Int) (x : ℚ) (h0 : 0 < x) (h10 : x < 10) :
    timedBatchSize logCount x = none := by
  unfold timedBatchSize goDiv
  rw [float64ToInt64_tenth_eq_zero x h0 h10]
  rfl

/-- C7, the code on the failing inputs: on a pulse of a Timed scenario that is
active and has more than zero but less than ten seconds left, the divisor
`int(timeUntilEnd/10)` is zero and the batch-size division panics, where the
specification divides by `max(1, secondsRemaining/10)` and obtains `logCount`. -/
theorem timedPulse_panics_under_ten_seconds (scenario : Scenario) (endTime now : Time)
    (hactive : scenario.Active = true) (hbefore : now < endTime)
    (hclose : endTime - now < 10 * Second) :
    timedPulse scenario endTime now = Pulse.Panic ∧
    specBatchSize scenario.Config.LogCount (((endTime - now : Int) : ℚ) / 1000000000)
      = scenario.Config.LogCount := by
  have hd : (0 : Int) < endTime - now := sub_pos.mpr hbefore
  have hpos : (0 : ℚ) < ((endTime - now : Int) : ℚ) / 1000000000 := by
    have h1 : (0 : ℚ) < ((endTime - now : Int) : ℚ) := by exact_mod_cast hd
    positivity
  have hlt : ((endTime - now : Int) : ℚ) / 1000000000 < 10 := by
    have h1 : ((endTime - now : Int) : ℚ) < ((10 * Second : Int) : ℚ) := by
      exact_mod_cast hclose
    have h2 : ((10 * Second : Int) : ℚ) = 10 * 1000000000 := by
      norm_num [Second]
    rw [h2] at h1
    rw [div_lt_iff₀ (by norm_num)]
    exact h1
  constructor
  · unfold timedPulse
    have hcond : (!scenario.Active || decide (now > endTime)) = false := by
      simp [hactive, not_lt.mpr (le_of_lt hbefore)]
    dsimp only
    rw [hcond, if_neg (by simp), if_neg (not_le.mpr hpos),
      timedBatchSize_panics _ _ hpos hlt]
  · unfold specBatchSize
    rw [float64ToInt64_tenth_eq_zero _ hpos hlt]
    simp [Int.tdiv_one]

/-- Witness of C7: the first pulse, at 10 seconds, of a scenario started with a
duration of 15 seconds. -/
theorem timedPulse_panics_under_ten_seconds_witness :
    timedScenario.Active = true ∧ (10 * Second : Int) < timedEndTime timedScenario 0 ∧
    timedEndTime timedScenario 0 - 10 * Second < 10 * Second ∧
    executeScenarioMode timedScenario = Mode.Timed ∧
    timedPulse timedScenario (timedEndTime timedScenario 0) (10 * Second) = Pulse.Panic :=
  ⟨by decide, by decide, by decide, by decide,
    (timedPulse_panics_under_ten_seconds timedScenario (timedEndTime timedScenario 0)
      (10 * Second) (by decide) (by decide) (by decide)).1⟩

/-- C8, the code at the failing input: for each catalogue type, after
StartScenario, StopScenario, StartScenario and the end of the first scenario's
worker, the second scenario is still active and its worker still runs, but the
active index and the store hold no registration for the type any more: the old
worker deleted the entry by type. -/
theorem old_worker_exit_unregisters_new_scenario :
    ∀ t ∈ mapKeys predefinedScenarios,
      (∃ sc, (restartedThenFirstWorkerEnds t).scenario 1 = some sc ∧
        sc.Type_ = t ∧ sc.Active = true) ∧
      1 ∈ (restartedThenFirstWorkerEnds t).workers ∧
      mapGet (restartedThenFirstWorkerEnds t).activeScenarios t = none ∧
      mapGet (restartedThenFirstWorkerEnds t).storage.scenarios t = none := by
  intro t ht
  simp only [mapKeys, predefinedScenarios, List.map_cons, List.map_nil, List.mem_cons,
    List.mem_singleton, List.not_mem_nil, or_false] at ht
  rcases ht with h | h | h | h | h <;> subst h <;>
    exact ⟨⟨_, rfl, rfl, rfl⟩, by decide, by decide, by decide⟩

/-- Witness of C8 for the type `load_test`. -/
theorem old_worker_exit_unregisters_new_scenario_witness :
    "load_test" ∈ mapKeys predefinedScenarios ∧
    (∃ sc, (restartedThenFirstWorkerEnds "load_test").scenario 1 = some sc ∧
      sc.Type_ = "load_test" ∧ sc.Active = true) ∧
    1 ∈ (restartedThenFirstWorkerEnds "load_test").workers ∧
    mapGet (restartedThenFirstWorkerEnds "load_test").activeScenarios "load_test" = none ∧
    mapGet (restartedThenFirstWorkerEnds "load_test").storage.scenarios "load_test" = none :=
  ⟨by decide, old_worker_exit_unregisters_new_scenario "load_test" (by decide)⟩

/-! ## CreateSchedule -/

/-- C9: when the expression of the schedule does not parse as a standard cron
expression CreateSchedule returns the invalid-cron error; when it parses and
both dates are set with the end before the start it returns the
invalid-date-range error; in both cases the schedules index, the store, the
cron-entry map and the cron runtime are left as they were. -/
theorem createSchedule_rejects (env : Env) (now : Time) (schedule : Schedule)
    (sm : ScenarioManager) :
    (∀ err, env.ParseStandard schedule.CronExpr = some err →
      (CreateSchedule env now schedule sm).1 = some (SMError.InvalidCron err)) ∧
    (∀ startDate endDate, env.ParseStandard schedule.CronExpr = none →
      schedule.StartDate = some startDate → schedule.EndDate = some endDate →
      endDate < startDate →
      (CreateSchedule env now schedule sm).1 = some SMError.InvalidDateRange) ∧
    (env.ParseStandard schedule.CronExpr ≠ none ∨ endBeforeStart schedule = true →
      (CreateSchedule env now schedule sm).1 ≠ none ∧
      (CreateSchedule env now schedule sm).2.schedules = sm.schedules ∧
      (CreateSchedule env now schedule sm).2.storage = sm.storage ∧
      (CreateSchedule env now schedule sm).2.cronEntries = sm.cronEntries ∧
      (CreateSchedule env now schedule sm).2.cronScheduler = sm.cronScheduler) := by
  have hexpr : (if schedule.ID = "" then { schedule with ID := generateID now }
      else schedule).CronExpr = schedule.CronExpr := by
    split_ifs <;> rfl
  have hdates : endBeforeStart (if schedule.ID = "" then { schedule with ID := generateID now }
      else schedule) = endBeforeStart schedule := by
    split_ifs <;> rfl
  refine ⟨?_, ?_, ?_⟩
  · intro err herr
    unfold CreateSchedule
    simp only [hexpr, herr]
  · intro startDate endDate hparse hs he hlt
    have hb : endBeforeStart schedule = true := by
      simp [endBeforeStart, hs, he, hlt]
    unfold CreateSchedule
    simp only [hexpr, hparse, hdates, hb, if_true]
  · intro h
    unfold CreateSchedule
    cases hparse : env.ParseStandard schedule.CronExpr with
    | some err => simp only [hexpr, hparse]; simp
    | none =>
      have hb : endBeforeStart schedule = true := by
        rcases h with h | h
        · exact absurd hparse h
        · exact h
      simp only [hexpr, hparse, hdates, hb, if_true]
      simp

/-- Witness of C9: an expression of three words, and an end date before the
start date, submitted to the manager of `main`. -/
theorem createSchedule_rejects_witness :
    ((withSecondsEnv.ParseStandard notACronSchedule.CronExpr ≠ none ∨
        endBeforeStart notACronSchedule = true) ∧
      (CreateSchedule withSecondsEnv 5 notACronSchedule sampleManager).1 ≠ none ∧
      (CreateSchedule withSecondsEnv 5 notACronSchedule sampleManager).2.schedules
        = sampleManager.schedules) ∧
    (withSecondsEnv.ParseStandard backwardsSchedule.CronExpr = none ∧
      backwardsSchedule.StartDate = some (2 * Hour) ∧ backwardsSchedule.EndDate = some Hour ∧
      Hour < 2 * Hour ∧
      (CreateSchedule withSecondsEnv 5 backwardsSchedule sampleManager).1
        = some SMError.InvalidDateRange) :=
  ⟨⟨by decide,
     ((createSchedule_rejects withSecondsEnv 5 notACronSchedule sampleManager).2.2
       (by decide)).1,
     ((createSchedule_rejects withSecondsEnv 5 notACronSchedule sampleManager).2.2
       (by decide)).2.1⟩,
   ⟨by decide, rfl, rfl, by decide,
     (createSchedule_rejects withSecondsEnv 5 backwardsSchedule sampleManager).2.1
       (2 * Hour) Hour (by decide) rfl rfl (by decide)⟩⟩

/-- C10, the code at the failing input: the schedule of the specification's
end-to-end scenario 3 passes `cron.ParseStandard`, yet the scheduler built with
`cron.WithSeconds()` rejects its five fields when the job is added, so
CreateSchedule returns an error; the schedule stays registered and stored,
enabled, with no cron entry and no next run. -/
theorem createSchedule_five_fields_fails :
    withSecondsEnv.ParseStandard everyMinuteSchedule.CronExpr = none ∧
    (CreateSchedule withSecondsEnv 1000 everyMinuteSchedule (mainManager withSecondsEnv 0)).1
      = some (SMError.CronAdd "expected exactly 6 fields, found 5: [* * * * *]") ∧
    (CreateSchedule withSecondsEnv 1000 everyMinuteSchedule
      (mainManager withSecondsEnv 0)).2.cronEntries = [] ∧
    mapGet (CreateSchedule withSecondsEnv 1000 everyMinuteSchedule
      (mainManager withSecondsEnv 0)).2.schedules (generateID 1000) = some 0 ∧
    mapGet (CreateSchedule withSecondsEnv 1000 everyMinuteSchedule
      (mainManager withSecondsEnv 0)).2.storage.schedules (generateID 1000) = some 0 ∧
    ((CreateSchedule withSecondsEnv 1000 everyMinuteSchedule
      (mainManager withSecondsEnv 0)).2.schedule 0).map (fun s => (s.Enabled, s.NextRun))
      = some (true, none) := by
  decide

/-! ## Schedules: disabling and deleting -/

/-- C11, the code at the failing inputs: a schedule that is enabled and armed,
with a next run, is disabled by the callback that fires after the end of its
window, and by `scheduleCronJob` when UpdateSchedule runs after the end of its
window; in both cases it stays in the index with `enabled = false` and its
next run still set, and in the second case its cron entry stays registered
too. -/
theorem auto_disabled_schedule_keeps_nextRun :
    (armedManager.schedule 0).map (fun s => (s.ID, s.Enabled, s.NextRun))
      = some (generateID (10 * Second), true, some (70 * Second)) ∧
    mapGet armedManager.cronEntries (generateID (10 * Second)) = some 1 ∧
    mapGet firedLateManager.schedules (generateID (10 * Second)) = some 0 ∧
    (firedLateManager.schedule 0).map (fun s => (s.Enabled, s.NextRun))
      = some (false, some (70 * Second)) ∧
    mapGet firedLateManager.cronEntries (generateID (10 * Second)) = none ∧
    updatedLateManager.1 = none ∧
    mapGet updatedLateManager.2.schedules (generateID (10 * Second)) = some 0 ∧
    (updatedLateManager.2.schedule 0).map (fun s => (s.Enabled, s.NextRun))
      = some (false, some (70 * Second)) ∧
    mapGet updatedLateManager.2.cronEntries (generateID (10 * Second)) = some 1 ∧
    updatedLateManager.2.cronScheduler.entries.map (fun e => e.ID) = [1] := by
  decide

/-- C20, the code at the failing input: DeleteSchedule of an existing schedule
returns no error and removes the id from the schedules index and the cron
entries, but the store still holds the id; a manager restarted over that store
registers the schedule again and arms it again. -/
theorem deleteSchedule_leaves_store :
    deletedManager.1 = none ∧
    mapGet deletedManager.2.schedules (generateID 1000) = none ∧
    deletedManager.2.cronEntries = [] ∧
    mapGet deletedManager.2.storage.schedules (generateID 1000) = some 0 ∧
    mapKeys deletedManager.2.storage.schedules ≠ mapKeys deletedManager.2.schedules ∧
    mapGet restartedManager.schedules (generateID 1000) = some 0 ∧
    (mapGet restartedManager.cronEntries (generateID 1000)).isSome = true ∧
    restartedManager.cronScheduler.entries.map (fun e => (e.Spec, e.Job)) = [("@hourly", 0)] := by
  decide

/-! ## Chains: stopping, deleting, shutting down -/

/-- C14, the code at the failing input: StopChain marks the execution stopped
and removes it from the active index while the worker waits on the delay of a
step whose scenario type is unknown; when the delay ends the worker calls
StartScenario, which fails, and the error path overwrites the status, so that
the execution ends as failed once the worker has finished. -/
theorem stopped_execution_ends_failed :
    (waitingOnDelay "nope").1.pc = ChainPC.delay ∧
    mapGet (waitingOnDelay "nope").2.activeChains (generateID 2000) = some 0 ∧
    (StopChain 3000 (generateID 2000) (waitingOnDelay "nope").2).1 = none ∧
    ((stoppedDuringDelay "nope" 0).2.chainExecution 0).map
      (fun e => (e.Status, e.CompletedAt)) = some ("stopped", some 3000) ∧
    mapGet (stoppedDuringDelay "nope" 0).2.activeChains (generateID 2000) = none ∧
    (stoppedDuringDelay "nope" 3).1.pc = ChainPC.done ∧
    ((stoppedDuringDelay "nope" 3).2.chainExecution 0).map (fun e => e.Status)
      = some "failed" := by
  decide

/-- C15, the code at the failing input: StopChain is applied while the worker
waits on the delay of step 0, and succeeds; no scenario is active then. When the
delay ends the worker does not look at the status: it goes on to call
StartScenario for that step, which registers the scenario and starts its
worker, and then marks the step completed; it leaves only at the status check
of the next step, with the execution stopped and its step completed. The step
has no config, so the scenario it starts is One-shot. -/
theorem stop_during_delay_still_starts_step :
    (waitingOnDelay "load_test").1.pc = ChainPC.delay ∧
    (StopChain 3000 (generateID 2000) (waitingOnDelay "load_test").2).1 = none ∧
    mapGet (stoppedDuringDelay "load_test" 0).2.activeScenarios "load_test" = none ∧
    (stoppedDuringDelay "load_test" 1).1.pc = ChainPC.start ∧
    mapGet (stoppedDuringDelay "load_test" 2).2.activeScenarios "load_test" = some 0 ∧
    (stoppedDuringDelay "load_test" 2).2.workers = [0] ∧
    (stoppedDuringDelay "load_test" 3).1 = { chain := 0, execution := 0, index := 1,
                                             pc := ChainPC.check } ∧
    ((stoppedDuringDelay "load_test" 3).2.chainExecution 0).map
      (fun e => (e.Status, e.Steps.map (fun st => st.Status)))
      = some ("stopped", ["completed"]) ∧
    (stoppedDuringDelay "load_test" 5).1.pc = ChainPC.done := by
  decide

/-- C16, the code at the failing input: with an execution of chain `c` in the
active-chain index, which is keyed by execution id, DeleteChain(c) looks `c` up
in that index, finds nothing, returns no error and removes the chain from the
store. -/
theorem deleteChain_of_running_chain :
    mapGet (chainStartedManager "load_test").storage.chains (generateID 1000) = some 0 ∧
    mapGet (chainStartedManager "load_test").activeChains (generateID 2000) = some 0 ∧
    ((chainStartedManager "load_test").chainExecution 0).map (fun e => (e.ChainID, e.Status))
      = some (generateID 1000, "running") ∧
    (DeleteChain (generateID 1000) (chainStartedManager "load_test")).1 = none ∧
    mapGet (DeleteChain (generateID 1000) (chainStartedManager "load_test")).2.storage.chains
      (generateID 1000) = none := by
  decide

/-- C19, the code at the failing input: the engine is shut down while the worker
waits on the delay of step 0; the worker returns, and its deferred function,
finding the status still running, marks the execution completed although its
only step is still marked running. -/
theorem shutdown_during_delay_marks_completed :
    (waitingOnDelay "load_test").1.pc = ChainPC.delay ∧
    (shutDownDuringDelay "load_test").1.pc = ChainPC.done ∧
    ((shutDownDuringDelay "load_test").2.chainExecution 0).map
      (fun e => (e.Status, e.Steps.map (fun st => st.Status)))
      = some ("completed", ["running"]) := by
  decide

/-! ## StartChain -/

theorem executionSteps_length (k : Nat) (steps : List ChainStep) :
    (executionSteps k steps).length = steps.length := by
  induction steps generalizing k with
  | nil => rfl
  | cons step rest ih => simp [executionSteps, ih]

theorem executionSteps_getElem? (k i : Nat) (steps : List ChainStep) :
    (executionSteps k steps)[i]? =
      (steps[i]?).map (fun step =>
        { StepIndex := ((k + i : Nat) : Int), ScenarioType := step.ScenarioType,
          Status := "pending", StartedAt := none, CompletedAt := none, Error := "" }) := by
  induction steps generalizing k i with
  | nil => simp [executionSteps]
  | cons step rest ih =>
    cases i with
    | zero => simp [executionSteps]
    | succ j =>
      simp only [executionSteps, List.getElem?_cons_succ, ih]
      have hk : k + 1 + j = k + (j + 1) := by omega
      rw [hk]

theorem executionSteps_status (k : Nat) (steps : List ChainStep) :
    (executionSteps k steps).map (fun st => st.Status) = List.replicate steps.length "pending" := by
  induction steps generalizing k with
  | nil => rfl
  | cons step rest ih => simp [executionSteps, ih, List.replicate_succ]

theorem startChain_eq (now : Time) (chainID : String) (sm : ScenarioManager) (c : Addr)
    (chain : ScenarioChain) (hget : sm.storage.GetChain chainID = some c)
    (hc : sm.chain c = some chain) :
    StartChain now chainID sm =
      (none, { sm with
        heap := { sm.heap with chainExecutions := sm.heap.chainExecutions ++
          [{ ID := generateID now, ChainID := chainID, Status := "running", StartedAt := now,
             CompletedAt := none, Error := "", Steps := executionSteps 0 chain.Steps }] },
        storage := sm.storage.SaveChainExecution (generateID now) sm.heap.chainExecutions.length,
        activeChains := mapSet sm.activeChains (generateID now) sm.heap.chainExecutions.length,
        chainWorkers := sm.chainWorkers ++ [(c, sm.heap.chainExecutions.length)] }) := by
  unfold StartChain
  rw [hget]
  simp only [hc]

/-- C13: for a chain id present in the store, with a chain of `n` steps,
StartChain returns no error, allocates an execution whose chain id is that id
and whose `n` steps have step index `i`, the scenario type of chain step `i`
and status pending, and puts it under the new execution id both in the stored
executions and in the active-chain index; for a chain id absent from the store
StartChain returns the not-found error and leaves the manager as it was. -/
theorem startChain_registers_execution (now : Time) (chainID : String) (sm : ScenarioManager) :
    (∀ c chain, sm.storage.GetChain chainID = some c → sm.chain c = some chain →
      (StartChain now chainID sm).1 = none ∧
      (StartChain now chainID sm).2.activeChains
        = mapSet sm.activeChains (generateID now) sm.heap.chainExecutions.length ∧
      (StartChain now chainID sm).2.storage.chainExecutions
        = mapSet sm.storage.chainExecutions (generateID now) sm.heap.chainExecutions.length ∧
      ∃ execution,
        (StartChain now chainID sm).2.chainExecution sm.heap.chainExecutions.length
          = some execution ∧
        execution.ID = generateID now ∧ execution.ChainID = chainID ∧
        execution.Steps.length = chain.Steps.length ∧
        ∀ (i : Nat) (step : ChainStep), chain.Steps[i]? = some step →
          ∃ st, execution.Steps[i]? = some st ∧ st.StepIndex = (i : Int) ∧
            st.ScenarioType = step.ScenarioType ∧ st.Status = "pending") ∧
    (sm.storage.GetChain chainID = none →
      (StartChain now chainID sm).1 = some (SMError.ChainNotFound chainID) ∧
      (StartChain now chainID sm).2 = sm) := by
  constructor
  · intro c chain hget hc
    rw [startChain_eq now chainID sm c chain hget hc]
    refine ⟨rfl, rfl, rfl,
      { ID := generateID now, ChainID := chainID, Status := "running", StartedAt := now,
        CompletedAt := none, Error := "", Steps := executionSteps 0 chain.Steps },
      ?_, rfl, rfl, executionSteps_length 0 chain.Steps, ?_⟩
    · simp [ScenarioManager.chainExecution]
    · intro i step hi
      refine ⟨{ StepIndex := ((0 + i : Nat) : Int), ScenarioType := step.ScenarioType,
                Status := "pending", StartedAt := none, CompletedAt := none, Error := "" },
        ?_, ?_, rfl, rfl⟩
      · simp only [executionSteps_getElem?, hi, Option.map_some']
      · simp
  · intro hget
    unfold StartChain
    rw [hget]
    exact ⟨rfl, rfl⟩

/-- Witness of C13 on the manager of `main` with one chain created. -/
theorem startChain_registers_execution_witness :
    ((CreateChain 1000 (delayedChain "load_test") (mainManager withSecondsEnv 0)).2.storage.GetChain
        (generateID 1000) = some 0 ∧
      mapGet (chainStartedManager "load_test").activeChains (generateID 2000) = some 0 ∧
      mapGet (chainStartedManager "load_test").storage.chainExecutions (generateID 2000)
        = some 0) ∧
    ((mainManager withSecondsEnv 0).storage.GetChain "missing" = none ∧
      (StartChain 2000 "missing" (mainManager withSecondsEnv 0)).1
        = some (SMError.ChainNotFound "missing")) := by
  refine ⟨⟨by decide, ?_, ?_⟩, ⟨by decide, ?_⟩⟩
  · have h := ((startChain_registers_execution 2000 (generateID 1000)
      (CreateChain 1000 (delayedChain "load_test") (mainManager withSecondsEnv 0)).2).1
      0 _ (by decide) rfl).2.1
    exact (congrArg (fun m => mapGet m (generateID 2000)) h).trans (by decide)
  · have h := ((startChain_registers_execution 2000 (generateID 1000)
      (CreateChain 1000 (delayedChain "load_test") (mainManager withSecondsEnv 0)).2).1
      0 _ (by decide) rfl).2.2.1
    exact (congrArg (fun m => mapGet m (generateID 2000)) h).trans (by decide)
  · exact ((startChain_registers_execution 2000 "missing" (mainManager withSecondsEnv 0)).2
      (by decide)).1

/-! ## The callback of a schedule -/

theorem set_append_singleton_length {α : Type} (l : List α) (x y : α) :
    (l ++ [x]).set l.length y = l ++ [y] := by
  induction l with
  | nil => rfl
  | cons a rest ih => simp [ih]

theorem mapSet_mapSet_same {β : Type} (m : GoMap β) (k : String) (v : β) :
    mapSet (mapSet m k v) k v = mapSet m k v := by
  induction m with
  | nil => simp [mapSet]
  | cons e rest ih =>
    obtain ⟨k0, v0⟩ := e
    by_cases h : k0 = k
    · subst h
      simp [mapSet]
    · simp [mapSet, h, ih]

theorem literal_append_ne_empty (a b : String) (ha : 0 < a.length) : a ++ b ≠ "" := by
  intro h
  have hlen := congrArg String.length h
  rw [String.length_append] at hlen
  have h0 : ("" : String).length = 0 := rfl
  omega

theorem startScenario_unknown (env : Env) (now : Time) (t : String)
    (cfg : Option (GoMap GoValue)) (sm : ScenarioManager)
    (hc : mapGet predefinedScenarios t = none) :
    StartScenario env now t cfg sm = (some (SMError.UnknownScenario t), sm) := by
  unfold StartScenario
  rw [hc]

theorem schedule_setSchedule (sm : ScenarioManager) (p q : Addr) (s new : Schedule)
    (hp : sm.schedule p = some s) :
    (sm.heap.setSchedule p new).schedules[q]? = if p = q then some new else sm.schedule q := by
  have hlt : p < sm.heap.schedules.length := lt_of_getElem?_eq_some _ _ _ hp
  simp [Heap.setSchedule, List.getElem?_set, hlt, ScenarioManager.schedule]

theorem removeCronEntry_cronEntries (id : String) (sm : ScenarioManager) :
    mapGet (removeCronEntry id sm).cronEntries id = none := by
  unfold removeCronEntry
  cases h : mapGet sm.cronEntries id with
  | none => exact h
  | some entryID => simp [mapGet_mapDelete]

theorem removeCronEntry_entries (id : String) (sm : ScenarioManager) (entryID : Nat)
    (h : mapGet sm.cronEntries id = some entryID) :
    ∀ e ∈ (removeCronEntry id sm).cronScheduler.entries, e.ID ≠ entryID := by
  unfold removeCronEntry
  rw [h]
  intro e he
  simp only [Cron.Remove, List.mem_filter] at he
  simpa using he.2

/-- C12: the callback of a schedule does nothing when `now` is before the start
date; when `now` is not before the start date and is after the end date it
records no execution and starts no scenario, sets `enabled = false` and removes
the cron entry; otherwise it records one execution of the schedule under a new
id, whose final status is completed when the scenario type is in the catalogue
and failed with a non-empty error otherwise, and only in the completed case
does it set `lastRun`. -/
theorem executeScheduledScenario_cases (env : Env) (now : Time) (p : Addr)
    (sm : ScenarioManager) (schedule : Schedule) (hp : sm.schedule p = some schedule) :
    (isBefore now schedule.StartDate = true → executeScheduledScenario env now p sm = sm) ∧
    (isBefore now schedule.StartDate = false → isAfter now schedule.EndDate = true →
      (executeScheduledScenario env now p sm).storage.executions = sm.storage.executions ∧
      (executeScheduledScenario env now p sm).heap.executions = sm.heap.executions ∧
      (executeScheduledScenario env now p sm).activeScenarios = sm.activeScenarios ∧
      (executeScheduledScenario env now p sm).heap.scenarios = sm.heap.scenarios ∧
      (executeScheduledScenario env now p sm).workers = sm.workers ∧
      (executeScheduledScenario env now p sm).schedule p
        = some { schedule with Enabled := false } ∧
      mapGet (executeScheduledScenario env now p sm).cronEntries schedule.ID = none ∧
      (∀ entryID, mapGet sm.cronEntries schedule.ID = some entryID →
        ∀ e ∈ (executeScheduledScenario env now p sm).cronScheduler.entries, e.ID ≠ entryID)) ∧
    (isBefore now schedule.StartDate = false → isAfter now schedule.EndDate = false →
      (executeScheduledScenario env now p sm).storage.executions
        = mapSet sm.storage.executions (generateID now) sm.heap.executions.length ∧
      ∃ execution,
        (executeScheduledScenario env now p sm).heap.executions
          = sm.heap.executions ++ [execution] ∧
        execution.ID = generateID now ∧ execution.ScheduleID = schedule.ID ∧
        (mapGet predefinedScenarios schedule.ScenarioType ≠ none →
          execution.Status = "completed" ∧
          ∃ s, (executeScheduledScenario env now p sm).schedule p = some s ∧
            s.LastRun = some now) ∧
        (mapGet predefinedScenarios schedule.ScenarioType = none →
          execution.Status = "failed" ∧ execution.Error ≠ "" ∧
          (executeScheduledScenario env now p sm).schedule p = some schedule ∧
          (executeScheduledScenario env now p sm).activeScenarios = sm.activeScenarios)) := by
  refine ⟨?_, ?_, ?_⟩
  · intro hb
    unfold executeScheduledScenario
    simp only [hp, hb, if_true]
  · intro hb ha
    have hr : executeScheduledScenario env now p sm =
        removeCronEntry schedule.ID
          { sm with heap := sm.heap.setSchedule p { schedule with Enabled := false },
                    storage := sm.storage.UpdateSchedule schedule.ID p } := by
      unfold executeScheduledScenario
      simp only [hp, hb, ha, if_true, Bool.false_eq_true, if_false]
    rw [hr]
    have hf := removeCronEntry_frame schedule.ID
      { sm with heap := sm.heap.setSchedule p { schedule with Enabled := false },
                storage := sm.storage.UpdateSchedule schedule.ID p }
    refine ⟨?_, ?_, ?_, ?_, ?_, ?_, ?_, ?_⟩
    · rw [hf.2.2.1]; rfl
    · rw [hf.2.1]; rfl
    · rw [hf.1]
    · rw [hf.2.1]; rfl
    · rw [hf.2.2.2.2]
    · unfold ScenarioManager.schedule
      rw [hf.2.1]
      show (sm.heap.setSchedule p _).schedules[p]? = _
      rw [schedule_setSchedule sm p p schedule _ hp]
      simp
    · exact removeCronEntry_cronEntries _ _
    · intro entryID hentry
      exact removeCronEntry_entries _ _ entryID hentry
  · intro hb ha
    cases hc : mapGet predefinedScenarios schedule.ScenarioType with
    | none =>
      have hr : executeScheduledScenario env now p sm =
          { sm with
            heap := { sm.heap with executions := sm.heap.executions ++
              [{ ID := generateID now, ScheduleID := schedule.ID,
                 ScenarioType := schedule.ScenarioType, Status := "failed", StartedAt := now,
                 CompletedAt := some now,
                 Error := (SMError.UnknownScenario schedule.ScenarioType).Error,
                 LogsCount := 0 }] },
            storage := (sm.storage.SaveExecution (generateID now)
              sm.heap.executions.length).SaveExecution (generateID now)
              sm.heap.executions.length } := by
        unfold executeScheduledScenario
        simp only [hp, hb, ha, Bool.false_eq_true, if_false]
        rw [startScenario_unknown env now _ none _ hc]
        simp [Heap.setExecution, set_append_singleton_length]
      rw [hr]
      refine ⟨?_, _, rfl, rfl, rfl, fun h => absurd rfl h, fun _ => ⟨rfl, ?_, hp, rfl⟩⟩
      · simp only [MemoryStorage.SaveExecution, mapSet_mapSet_same]
      · exact literal_append_ne_empty _ _ (by decide)
    | some config =>
      have hlt : p < sm.heap.schedules.length := lt_of_getElem?_eq_some _ _ _ hp
      unfold executeScheduledScenario
      simp only [hp, hb, ha, Bool.false_eq_true, if_false]
      rw [startScenario_eq env now _ none _ config hc]
      refine ⟨?_, { ID := generateID now, ScheduleID := schedule.ID,
                    ScenarioType := schedule.ScenarioType, Status := "completed",
                    StartedAt := now, CompletedAt := some now, Error := "", LogsCount := 0 },
        ?_, rfl, rfl, fun _ => ⟨rfl, ?_⟩, fun h => absurd h (by simp)⟩
      · simp [MemoryStorage.SaveExecution, MemoryStorage.UpdateSchedule,
          MemoryStorage.SaveScenario, mapSet_mapSet_same]
      · simp [Heap.setExecution, Heap.setSchedule, set_append_singleton_length]
      · simp only [ScenarioManager.schedule, Heap.setSchedule, Heap.setExecution,
          List.getElem?_set, hlt, if_true]
        cases mapGet sm.cronEntries schedule.ID <;> exact ⟨_, rfl, rfl⟩

/-! ## The chain worker, move by move -/

theorem startScenario_chain_frame (env : Env) (now : Time) (t : String)
    (cfg : Option (GoMap GoValue)) (sm : ScenarioManager) :
    (StartScenario env now t cfg sm).2.heap.chains = sm.heap.chains ∧
    (StartScenario env now t cfg sm).2.heap.chainExecutions = sm.heap.chainExecutions ∧
    (StartScenario env now t cfg sm).2.storage.chainExecutions = sm.storage.chainExecutions ∧
    (StartScenario env now t cfg sm).2.activeChains = sm.activeChains ∧
    (StartScenario env now t cfg sm).2.chainWorkers = sm.chainWorkers := by
  unfold StartScenario
  cases mapGet predefinedScenarios t <;> simp [MemoryStorage.SaveScenario]

theorem chainExecution_setChainExecution (sm : ScenarioManager) (p q : Addr)
    (e new : ChainExecution) (hp : sm.chainExecution p = some e) :
    (sm.heap.setChainExecution p new).chainExecutions[q]?
      = if p = q then some new else sm.chainExecution q := by
  have hlt : p < sm.heap.chainExecutions.length := lt_of_getElem?_eq_some _ _ _ hp
  simp [Heap.setChainExecution, List.getElem?_set, hlt, ScenarioManager.chainExecution]

theorem modifyStep_statuses (e : ChainExecution) (i : Nat)
    (f : ChainExecutionStep → ChainExecutionStep) (s : String)
    (hf : ∀ st, (f st).Status = s) :
    (e.modifyStep i f).statuses = e.statuses.set i s := by
  unfold ChainExecution.modifyStep ChainExecution.statuses
  cases h : e.Steps[i]? with
  | none =>
    have hle : e.Steps.length ≤ i := by
      by_contra hcon
      have hlt : i < e.Steps.length := Nat.lt_of_not_le hcon
      rw [List.getElem?_eq_getElem hlt] at h
      cases h
    simp only []
    rw [List.set_eq_of_length_le (by simpa using hle)]
  | some st =>
    simp only [List.map_set, hf]

theorem modifyStep_length (e : ChainExecution) (i : Nat)
    (f : ChainExecutionStep → ChainExecutionStep) :
    (e.modifyStep i f).Steps.length = e.Steps.length := by
  unfold ChainExecution.modifyStep
  cases e.Steps[i]? <;> simp

theorem modifyStep_fields (e : ChainExecution) (i : Nat)
    (f : ChainExecutionStep → ChainExecutionStep) :
    (e.modifyStep i f).ID = e.ID ∧ (e.modifyStep i f).Status = e.Status ∧
    (e.modifyStep i f).ChainID = e.ChainID ∧ (e.modifyStep i f).Error = e.Error := by
  unfold ChainExecution.modifyStep
  cases e.Steps[i]? <;> simp

theorem set_at_length {α : Type} (A : List α) (y x : α) (rest : List α) :
    (A ++ y :: rest).set A.length x = A ++ x :: rest := by
  rw [List.set_append]
  simp

theorem replicate_snoc_cons (i : Nat) (a : String) (rest : List String) :
    List.replicate i a ++ a :: rest = List.replicate (i + 1) a ++ rest := by
  induction i with
  | zero => rfl
  | succ k ih =>
    rw [List.replicate_succ, List.cons_append, ih]
    rfl

theorem startScenario_known_fst (env : Env) (now : Time) (t : String)
    (cfg : Option (GoMap GoValue)) (sm : ScenarioManager)
    (hok : mapGet predefinedScenarios t ≠ none) :
    (StartScenario env now t cfg sm).1 = none := by
  unfold StartScenario
  cases hc : mapGet predefinedScenarios t with
  | none => exact absurd hc hok
  | some config => rfl

theorem step_check (env : Env) (now : Time) (ev : WaitEvent) (w : ChainWorker)
    (sm : ScenarioManager) (chain : ScenarioChain) (e : ChainExecution)
    (hc : sm.chain w.chain = some chain) (he : sm.chainExecution w.execution = some e)
    (hpc : w.pc = ChainPC.check) :
    executeChainStep env now ev w sm =
      (match chain.Steps[w.index]? with
       | none => ({ w with pc := ChainPC.exit }, sm)
       | some _ =>
         if e.Status ≠ "running" then ({ w with pc := ChainPC.exit }, sm)
         else ({ w with pc := ChainPC.markRunning }, sm)) := by
  unfold executeChainStep
  simp only [hc, he, hpc]

theorem step_markRunning (env : Env) (now : Time) (ev : WaitEvent) (w : ChainWorker)
    (sm : ScenarioManager) (chain : ScenarioChain) (e : ChainExecution)
    (hc : sm.chain w.chain = some chain) (he : sm.chainExecution w.execution = some e)
    (hpc : w.pc = ChainPC.markRunning) :
    executeChainStep env now ev w sm =
      (match chain.Steps[w.index]? with
       | none => { w with pc := ChainPC.exit }
       | some step =>
         if step.DelayBefore > 0 then { w with pc := ChainPC.delay }
         else { w with pc := ChainPC.start },
       { sm with
           heap := sm.heap.setChainExecution w.execution
             (e.modifyStep w.index
               (fun st => { st with Status := "running", StartedAt := some now })),
           storage := sm.storage.UpdateChainExecution
             (e.modifyStep w.index
               (fun st => { st with Status := "running", StartedAt := some now })).ID
             w.execution }) := by
  unfold executeChainStep
  simp only [hc, he, hpc]
  cases chain.Steps[w.index]? with
  | none => rfl
  | some step => by_cases hd : step.DelayBefore > 0 <;> simp [hd]

theorem step_delay (env : Env) (now : Time) (ev : WaitEvent) (w : ChainWorker)
    (sm : ScenarioManager) (chain : ScenarioChain) (e : ChainExecution)
    (hc : sm.chain w.chain = some chain) (he : sm.chainExecution w.execution = some e)
    (hpc : w.pc = ChainPC.delay) :
    executeChainStep env now ev w sm =
      (match ev with
       | WaitEvent.timer => ({ w with pc := ChainPC.start }, sm)
       | WaitEvent.shutdown => ({ w with pc := ChainPC.exit }, sm)) := by
  unfold executeChainStep
  simp only [hc, he, hpc]

theorem step_wait (env : Env) (now : Time) (ev : WaitEvent) (w : ChainWorker)
    (sm : ScenarioManager) (chain : ScenarioChain) (e : ChainExecution)
    (hc : sm.chain w.chain = some chain) (he : sm.chainExecution w.execution = some e)
    (hpc : w.pc = ChainPC.wait) :
    executeChainStep env now ev w sm =
      (match ev with
       | WaitEvent.timer => ({ w with pc := ChainPC.complete }, sm)
       | WaitEvent.shutdown => ({ w with pc := ChainPC.exit }, sm)) := by
  unfold executeChainStep
  simp only [hc, he, hpc]

theorem step_start_ok (env : Env) (now : Time) (ev : WaitEvent) (w : ChainWorker)
    (sm : ScenarioManager) (chain : ScenarioChain) (e : ChainExecution) (step : ChainStep)
    (hc : sm.chain w.chain = some chain) (he : sm.chainExecution w.execution = some e)
    (hpc : w.pc = ChainPC.start) (hstep : chain.Steps[w.index]? = some step)
    (hok : mapGet predefinedScenarios step.ScenarioType ≠ none) :
    executeChainStep env now ev w sm =
      ({ w with pc := if stepWaits step then ChainPC.wait else ChainPC.complete },
        (StartScenario env now step.ScenarioType step.Config sm).2) := by
  have hnone := (startScenario_known_fst env now step.ScenarioType step.Config sm hok)
  unfold executeChainStep
  simp only [hc, he, hpc, hstep]
  generalize StartScenario env now step.ScenarioType step.Config sm = r at hnone ⊢
  obtain ⟨err, sm1⟩ := r
  simp only at hnone
  subst hnone
  by_cases hw : stepWaits step = true <;> simp [hw]

theorem step_start_fail (env : Env) (now : Time) (ev : WaitEvent) (w : ChainWorker)
    (sm : ScenarioManager) (chain : ScenarioChain) (e : ChainExecution) (step : ChainStep)
    (hc : sm.chain w.chain = some chain) (he : sm.chainExecution w.execution = some e)
    (hpc : w.pc = ChainPC.start) (hstep : chain.Steps[w.index]? = some step)
    (hbad : mapGet predefinedScenarios step.ScenarioType = none) :
    executeChainStep env now ev w sm =
      ({ w with pc := ChainPC.exit },
        { sm with heap := (sm.heap.setChainExecution w.execution
            { (e.modifyStep w.index (fun st =>
                { st with Status := "failed",
                          Error := (SMError.UnknownScenario step.ScenarioType).Error })) with
              Status := "failed",
              Error := "Ошибка на шаге " ++ toString (w.index + 1) ++ ": "
                ++ (SMError.UnknownScenario step.ScenarioType).Error }) }) := by
  unfold executeChainStep
  simp only [hc, he, hpc, hstep]
  rw [startScenario_unknown env now _ _ _ hbad]

theorem step_complete (env : Env) (now : Time) (ev : WaitEvent) (w : ChainWorker)
    (sm : ScenarioManager) (chain : ScenarioChain) (e : ChainExecution)
    (hc : sm.chain w.chain = some chain) (he : sm.chainExecution w.execution = some e)
    (hpc : w.pc = ChainPC.complete) :
    executeChainStep env now ev w sm =
      ({ w with index := w.index + 1, pc := ChainPC.check },
        { sm with
            heap := sm.heap.setChainExecution w.execution
              (e.modifyStep w.index
                (fun st => { st with Status := "completed", CompletedAt := some now })),
            storage := sm.storage.UpdateChainExecution
              (e.modifyStep w.index
                (fun st => { st with Status := "completed", CompletedAt := some now })).ID
              w.execution }) := by
  unfold executeChainStep
  simp only [hc, he, hpc]

theorem step_exit (env : Env) (now : Time) (ev : WaitEvent) (w : ChainWorker)
    (sm : ScenarioManager) (chain : ScenarioChain) (e : ChainExecution)
    (hc : sm.chain w.chain = some chain) (he : sm.chainExecution w.execution = some e)
    (hpc : w.pc = ChainPC.exit) :
    executeChainStep env now ev w sm =
      ({ w with pc := ChainPC.done }, executeChainExit now w e sm) := by
  unfold executeChainStep
  simp only [hc, he, hpc]

theorem step_done (env : Env) (now : Time) (ev : WaitEvent) (w : ChainWorker)
    (sm : ScenarioManager) (hpc : w.pc = ChainPC.done) :
    executeChainStep env now ev w sm = (w, sm) := by
  unfold executeChainStep
  cases sm.chain w.chain <;> cases sm.chainExecution w.execution <;> simp [hpc]

/-! ## The shape of the step statuses -/

theorem placeShape_exit_of_pending (i : Nat) (statuses : List String)
    (h : ∃ m, statuses = List.replicate i "completed" ++ List.replicate m "pending") :
    StepsShape statuses := by
  obtain ⟨m, hm⟩ := h
  exact ⟨i, m, [], Or.inl rfl, by simp [hm]⟩

theorem placeShape_exit_of_running (i : Nat) (statuses : List String)
    (h : ∃ m, statuses = List.replicate i "completed" ++ "running" :: List.replicate m "pending") :
    StepsShape statuses := by
  obtain ⟨m, hm⟩ := h
  exact ⟨i, m, ["running"], Or.inr (Or.inl rfl), by simp [hm]⟩

theorem workerInv_preserved (w : ChainWorker) (sm sm' : ScenarioManager)
    (hinv : WorkerInv (w, sm)) (hp : PreservesWorker w.chain w.execution sm sm') :
    WorkerInv (w, sm') := by
  obtain ⟨chain, e, hc, he, hlen, hshape⟩ := hinv
  obtain ⟨e', he', hsteps⟩ := hp.2 e he
  refine ⟨chain, e', hp.1 chain hc, he', by rw [hsteps]; exact hlen, ?_⟩
  have hst : e'.statuses = e.statuses := by
    unfold ChainExecution.statuses
    rw [hsteps]
  rw [hst]
  exact hshape

theorem preserves_of_heap_eq (c q : Addr) (sm sm' : ScenarioManager)
    (h1 : sm'.heap.chains = sm.heap.chains)
    (h2 : sm'.heap.chainExecutions = sm.heap.chainExecutions) :
    PreservesWorker c q sm sm' := by
  constructor
  · intro chain hc
    unfold ScenarioManager.chain at hc ⊢
    rw [h1]; exact hc
  · intro e he
    refine ⟨e, ?_, rfl⟩
    unfold ScenarioManager.chainExecution at he ⊢
    rw [h2]; exact he

theorem preserves_startScenario (env : Env) (now : Time) (t : String)
    (cfg : Option (GoMap GoValue)) (c q : Addr) (sm : ScenarioManager) :
    PreservesWorker c q sm (StartScenario env now t cfg sm).2 :=
  preserves_of_heap_eq c q sm _ (startScenario_chain_frame env now t cfg sm).1
    (startScenario_chain_frame env now t cfg sm).2.1

theorem preserves_deleteChain (id : String) (c q : Addr) (sm : ScenarioManager) :
    PreservesWorker c q sm (DeleteChain id sm).2 := by
  apply preserves_of_heap_eq
  · unfold DeleteChain
    cases mapGet sm.activeChains id <;> rfl
  · unfold DeleteChain
    cases mapGet sm.activeChains id <;> rfl

theorem preserves_createChain (now : Time) (chain0 : ScenarioChain) (c q : Addr)
    (sm : ScenarioManager) : PreservesWorker c q sm (CreateChain now chain0 sm).2 := by
  constructor
  · intro chain hc
    unfold ScenarioManager.chain at hc ⊢
    have hlt := lt_of_getElem?_eq_some _ _ _ hc
    simp only [CreateChain]
    rw [List.getElem?_append_left hlt]
    exact hc
  · intro e he
    exact ⟨e, he, rfl⟩

theorem preserves_startChain (now : Time) (id : String) (c q : Addr)
    (sm : ScenarioManager) : PreservesWorker c q sm (StartChain now id sm).2 := by
  unfold StartChain
  cases hget : sm.storage.GetChain id with
  | none => exact preserves_of_heap_eq c q sm _ rfl rfl
  | some c0 =>
    cases hch : sm.chain c0 with
    | none => simpa [hch] using preserves_of_heap_eq c q sm sm rfl rfl
    | some chain0 =>
      simp only [hch]
      constructor
      · intro chain hc
        exact hc
      · intro e he
        refine ⟨e, ?_, rfl⟩
        unfold ScenarioManager.chainExecution at he ⊢
        have hlt := lt_of_getElem?_eq_some _ _ _ he
        simp only []
        rw [List.getElem?_append_left hlt]
        exact he

theorem preserves_setChainExecution (c q p : Addr) (sm sm' : ScenarioManager)
    (e0 new : ChainExecution) (hp : sm.chainExecution p = some e0)
    (hsteps : p = q → new.Steps = e0.Steps)
    (hheap : sm'.heap = sm.heap.setChainExecution p new) :
    PreservesWorker c q sm sm' := by
  constructor
  · intro chain hc
    unfold ScenarioManager.chain at hc ⊢
    rw [hheap]
    exact hc
  · intro e he
    unfold ScenarioManager.chainExecution
    rw [hheap, chainExecution_setChainExecution sm p q e0 new hp]
    by_cases hpq : p = q
    · subst hpq
      rw [hp] at he
      cases he
      exact ⟨new, by simp, hsteps rfl⟩
    · exact ⟨e, by simp [hpq, he], rfl⟩

theorem preserves_stopChain (now : Time) (id : String) (c q : Addr)
    (sm : ScenarioManager) : PreservesWorker c q sm (StopChain now id sm).2 := by
  unfold StopChain
  cases hget : mapGet sm.activeChains id with
  | none => exact preserves_of_heap_eq c q sm _ rfl rfl
  | some p =>
    cases hex : sm.chainExecution p with
    | none => simpa [hex] using preserves_of_heap_eq c q sm sm rfl rfl
    | some e0 =>
      simp only [hex]
      exact preserves_setChainExecution c q p sm _ e0
        { e0 with Status := "stopped", CompletedAt := some now } hex (fun _ => rfl) rfl

theorem preserves_trans (c q : Addr) (sm sm1 sm2 : ScenarioManager)
    (h1 : PreservesWorker c q sm sm1) (h2 : PreservesWorker c q sm1 sm2) :
    PreservesWorker c q sm sm2 := by
  constructor
  · intro chain hc
    exact h2.1 chain (h1.1 chain hc)
  · intro e he
    obtain ⟨e1, he1, hs1⟩ := h1.2 e he
    obtain ⟨e2, he2, hs2⟩ := h2.2 e1 he1
    exact ⟨e2, he2, hs2.trans hs1⟩

theorem preserves_refl (c q : Addr) (sm : ScenarioManager) : PreservesWorker c q sm sm :=
  preserves_of_heap_eq c q sm sm rfl rfl

theorem preserves_otherMove (env : Env) (now : Time) (ev : WaitEvent) (other : ChainWorker)
    (c q : Addr) (sm : ScenarioManager) (hne : other.execution ≠ q) :
    PreservesWorker c q sm (executeChainStep env now ev other sm).2 := by
  cases hc : sm.chain other.chain with
  | none =>
    have : executeChainStep env now ev other sm = (other, sm) := by
      unfold executeChainStep
      simp only [hc]
    rw [this]
    exact preserves_refl c q sm
  | some chain =>
    cases he : sm.chainExecution other.execution with
    | none =>
      have : executeChainStep env now ev other sm = (other, sm) := by
        unfold executeChainStep
        simp only [hc, he]
      rw [this]
      exact preserves_refl c q sm
    | some e =>
      cases hpc : other.pc with
      | check =>
        rw [step_check env now ev other sm chain e hc he hpc]
        cases chain.Steps[other.index]? with
        | none => exact preserves_refl c q sm
        | some step =>
          by_cases hs : e.Status ≠ "running" <;> simp [hs] <;> exact preserves_refl c q sm
      | markRunning =>
        rw [step_markRunning env now ev other sm chain e hc he hpc]
        exact preserves_setChainExecution c q other.execution sm _ e _ he
          (fun h => absurd h hne) rfl
      | delay =>
        rw [step_delay env now ev other sm chain e hc he hpc]
        cases ev <;> exact preserves_refl c q sm
      | start =>
        cases hstep : chain.Steps[other.index]? with
        | none =>
          have : executeChainStep env now ev other sm
              = ({ other with pc := ChainPC.exit }, sm) := by
            unfold executeChainStep
            simp only [hc, he, hpc, hstep]
          rw [this]
          exact preserves_refl c q sm
        | some step =>
          cases hcat : mapGet predefinedScenarios step.ScenarioType with
          | none =>
            rw [step_start_fail env now ev other sm chain e step hc he hpc hstep hcat]
            exact preserves_setChainExecution c q other.execution sm _ e _ he
              (fun h => absurd h hne) rfl
          | some config =>
            rw [step_start_ok env now ev other sm chain e step hc he hpc hstep
              (by rw [hcat]; simp)]
            exact preserves_startScenario env now _ _ c q sm
      | wait =>
        rw [step_wait env now ev other sm chain e hc he hpc]
        cases ev <;> exact preserves_refl c q sm
      | complete =>
        rw [step_complete env now ev other sm chain e hc he hpc]
        exact preserves_setChainExecution c q other.execution sm _ e _ he
          (fun h => absurd h hne) rfl
      | exit =>
        rw [step_exit env now ev other sm chain e hc he hpc]
        exact preserves_setChainExecution c q other.execution sm _ e _ he
          (fun h => absurd h hne) rfl
      | done =>
        rw [step_done env now ev other sm hpc]
        exact preserves_refl c q sm

theorem set_replicate_pending (i m : Nat) (x : String) (statuses : List String)
    (h : statuses = List.replicate i "completed" ++ List.replicate m "pending")
    (hlt : i < statuses.length) :
    ∃ m', statuses.set i x = List.replicate i "completed" ++ x :: List.replicate m' "pending" := by
  have hm : 0 < m := by
    rw [h] at hlt
    simp only [List.length_append, List.length_replicate] at hlt
    omega
  obtain ⟨m', rfl⟩ : ∃ m', m = m' + 1 := ⟨m - 1, by omega⟩
  refine ⟨m', ?_⟩
  rw [h, List.replicate_succ]
  have hset :=
    set_at_length (List.replicate i "completed") "pending" x (List.replicate m' "pending")
  rw [List.length_replicate] at hset
  exact hset

theorem set_replicate_running (i m : Nat) (x : String) (statuses : List String)
    (h : statuses = List.replicate i "completed" ++ "running" :: List.replicate m "pending") :
    statuses.set i x = List.replicate i "completed" ++ x :: List.replicate m "pending" := by
  rw [h]
  have hset :=
    set_at_length (List.replicate i "completed") "running" x (List.replicate m "pending")
  rw [List.length_replicate] at hset
  exact hset

theorem workerInv_setChainExecution (w w' : ChainWorker) (sm sm' : ScenarioManager)
    (chain : ScenarioChain) (e e' : ChainExecution)
    (hc : sm.chain w.chain = some chain) (he : sm.chainExecution w.execution = some e)
    (hlen : e.Steps.length = chain.Steps.length)
    (hw : w'.chain = w.chain ∧ w'.execution = w.execution)
    (hheap : sm'.heap = sm.heap.setChainExecution w.execution e')
    (hlen' : e'.Steps.length = e.Steps.length)
    (hshape : PlaceShape w'.pc w'.index e'.statuses) :
    WorkerInv (w', sm') := by
  refine ⟨chain, e', ?_, ?_, by rw [hlen', hlen], hshape⟩
  · show sm'.heap.chains[w'.chain]? = some chain
    rw [hheap, hw.1]
    exact hc
  · show sm'.heap.chainExecutions[w'.execution]? = some e'
    rw [hheap, hw.2, chainExecution_setChainExecution sm _ _ e e' he]
    simp

theorem workerInv_move (env : Env) (now : Time) (ev : WaitEvent) (w : ChainWorker)
    (sm : ScenarioManager) (hinv : WorkerInv (w, sm)) :
    WorkerInv (executeChainStep env now ev w sm) := by
  obtain ⟨chain, e, hc, he, hlen, hshape⟩ := hinv
  simp only at hc he hshape
  have hstlen : e.statuses.length = e.Steps.length := by
    simp [ChainExecution.statuses]
  cases hpc : w.pc with
  | check =>
    rw [hpc] at hshape
    rw [step_check env now ev w sm chain e hc he hpc]
    cases chain.Steps[w.index]? with
    | none => exact ⟨chain, e, hc, he, hlen, placeShape_exit_of_pending _ _ hshape⟩
    | some step =>
      by_cases hs : e.Status ≠ "running"
      · dsimp only
        rw [if_pos hs]
        exact ⟨chain, e, hc, he, hlen, placeShape_exit_of_pending _ _ hshape⟩
      · dsimp only
        rw [if_neg hs]
        exact ⟨chain, e, hc, he, hlen, hshape⟩
  | markRunning =>
    rw [hpc] at hshape
    obtain ⟨m, hm⟩ := hshape
    rw [step_markRunning env now ev w sm chain e hc he hpc]
    have hst := modifyStep_statuses e w.index
      (fun st => { st with Status := "running", StartedAt := some now }) "running" (fun _ => rfl)
    cases hstep : chain.Steps[w.index]? with
    | none =>
      have hle : chain.Steps.length ≤ w.index := by
        by_contra hcon
        rw [List.getElem?_eq_getElem (Nat.lt_of_not_le hcon)] at hstep
        cases hstep
      refine workerInv_setChainExecution w _ sm _ chain e _ hc he hlen ⟨rfl, rfl⟩ rfl
        (modifyStep_length _ _ _) ?_
      show StepsShape _
      rw [hst, List.set_eq_of_length_le (by rw [hstlen, hlen]; exact hle)]
      exact placeShape_exit_of_pending _ _ ⟨m, hm⟩
    | some step =>
      have hlt : w.index < e.statuses.length := by
        rw [hstlen, hlen]
        exact lt_of_getElem?_eq_some _ _ _ hstep
      obtain ⟨m', hm'⟩ := set_replicate_pending w.index m "running" e.statuses hm hlt
      by_cases hd : step.DelayBefore > 0
      · dsimp only
        rw [if_pos hd]
        refine workerInv_setChainExecution w _ sm _ chain e _ hc he hlen ⟨rfl, rfl⟩ rfl
          (modifyStep_length _ _ _) ?_
        show ∃ m, _ = _
        exact ⟨m', by rw [hst]; exact hm'⟩
      · dsimp only
        rw [if_neg hd]
        refine workerInv_setChainExecution w _ sm _ chain e _ hc he hlen ⟨rfl, rfl⟩ rfl
          (modifyStep_length _ _ _) ?_
        show ∃ m, _ = _
        exact ⟨m', by rw [hst]; exact hm'⟩
  | delay =>
    rw [hpc] at hshape
    rw [step_delay env now ev w sm chain e hc he hpc]
    cases ev with
    | timer => exact ⟨chain, e, hc, he, hlen, hshape⟩
    | shutdown => exact ⟨chain, e, hc, he, hlen, placeShape_exit_of_running _ _ hshape⟩
  | wait =>
    rw [hpc] at hshape
    rw [step_wait env now ev w sm chain e hc he hpc]
    cases ev with
    | timer => exact ⟨chain, e, hc, he, hlen, hshape⟩
    | shutdown => exact ⟨chain, e, hc, he, hlen, placeShape_exit_of_running _ _ hshape⟩
  | start =>
    rw [hpc] at hshape
    cases hstep : chain.Steps[w.index]? with
    | none =>
      have heq : executeChainStep env now ev w sm = ({ w with pc := ChainPC.exit }, sm) := by
        unfold executeChainStep
        simp only [hc, he, hpc, hstep]
      rw [heq]
      exact ⟨chain, e, hc, he, hlen, placeShape_exit_of_running _ _ hshape⟩
    | some step =>
      cases hcat : mapGet predefinedScenarios step.ScenarioType with
      | none =>
        rw [step_start_fail env now ev w sm chain e step hc he hpc hstep hcat]
        obtain ⟨m, hm⟩ := hshape
        have hst := modifyStep_statuses e w.index
          (fun st => { st with Status := "failed",
                               Error := (SMError.UnknownScenario step.ScenarioType).Error })
          "failed" (fun _ => rfl)
        refine workerInv_setChainExecution w _ sm _ chain e _ hc he hlen ⟨rfl, rfl⟩ rfl
          (modifyStep_length _ _ _) ?_
        show StepsShape (e.modifyStep w.index _).statuses
        rw [hst, set_replicate_running w.index m "failed" e.statuses hm]
        exact ⟨w.index, m, ["failed"], Or.inr (Or.inr rfl), by simp⟩
      | some config =>
        rw [step_start_ok env now ev w sm chain e step hc he hpc hstep (by rw [hcat]; simp)]
        have hpres := preserves_startScenario env now step.ScenarioType step.Config
          w.chain w.execution sm
        have hbase : WorkerInv ({ w with pc := ChainPC.wait }, sm) :=
          ⟨chain, e, hc, he, hlen, hshape⟩
        have hbase' : WorkerInv ({ w with pc := ChainPC.complete }, sm) :=
          ⟨chain, e, hc, he, hlen, hshape⟩
        by_cases hw : stepWaits step = true
        · simp only [hw, if_true]
          exact workerInv_preserved _ sm _ hbase hpres
        · simp only [hw, Bool.false_eq_true, if_false]
          exact workerInv_preserved _ sm _ hbase' hpres
  | complete =>
    rw [hpc] at hshape
    obtain ⟨m, hm⟩ := hshape
    rw [step_complete env now ev w sm chain e hc he hpc]
    have hst := modifyStep_statuses e w.index
      (fun st => { st with Status := "completed", CompletedAt := some now }) "completed"
      (fun _ => rfl)
    refine workerInv_setChainExecution w _ sm _ chain e _ hc he hlen ⟨rfl, rfl⟩ rfl
      (modifyStep_length _ _ _) ?_
    show ∃ m, _ = _
    refine ⟨m, ?_⟩
    rw [hst, set_replicate_running w.index m "completed" e.statuses hm, replicate_snoc_cons]
  | exit =>
    rw [hpc] at hshape
    rw [step_exit env now ev w sm chain e hc he hpc]
    refine workerInv_setChainExecution w _ sm _ chain e
      (if e.Status = "running" then { e with Status := "completed", CompletedAt := some now }
        else e) hc he hlen ⟨rfl, rfl⟩ rfl ?_ ?_
    · split_ifs <;> rfl
    · show StepsShape _
      have : (if e.Status = "running" then
          { e with Status := "completed", CompletedAt := some now } else e).statuses
          = e.statuses := by
        split_ifs <;> rfl
      rw [this]
      exact hshape
  | done =>
    rw [hpc] at hshape
    rw [step_done env now ev w sm hpc]
    exact ⟨chain, e, hc, he, hlen, by rw [hpc]; exact hshape⟩

theorem placeShape_stepsShape (pc : ChainPC) (i : Nat) (statuses : List String)
    (h : PlaceShape pc i statuses) : StepsShape statuses := by
  cases pc with
  | check => exact placeShape_exit_of_pending i statuses h
  | markRunning => exact placeShape_exit_of_pending i statuses h
  | delay => exact placeShape_exit_of_running i statuses h
  | start => exact placeShape_exit_of_running i statuses h
  | wait => exact placeShape_exit_of_running i statuses h
  | complete => exact placeShape_exit_of_running i statuses h
  | exit => exact h
  | done => exact h

theorem stepsShape_count_running (statuses : List String) (h : StepsShape statuses) :
    statuses.count "running" ≤ 1 := by
  obtain ⟨a, c, mid, hmid, rfl⟩ := h
  have h1 : (List.replicate a "completed").count "running" = 0 := by
    rw [List.count_replicate]
    simp
  have h2 : (List.replicate c "pending").count "running" = 0 := by
    rw [List.count_replicate]
    simp
  rw [List.count_append, List.count_append, h1, h2]
  rcases hmid with rfl | rfl | rfl <;> simp

theorem pending_suffix (A B : List String) (hA : ∀ x ∈ A, x ≠ "pending")
    (hB : ∀ x ∈ B, x = "pending") (j : Nat) (a b : String)
    (h1 : (A ++ B)[j]? = some a) (h2 : (A ++ B)[j + 1]? = some b) (hb : b ≠ "pending") :
    a ≠ "pending" := by
  by_cases hlt : j + 1 < A.length
  · have hj : j < A.length := by omega
    rw [List.getElem?_append_left hj] at h1
    exact hA a (List.getElem?_mem h1)
  · rw [List.getElem?_append_right (by omega)] at h2
    exact absurd (hB b (List.getElem?_mem h2)) hb

theorem stepsShape_pending_order (statuses : List String) (h : StepsShape statuses)
    (j : Nat) (a b : String) (h1 : statuses[j]? = some a) (h2 : statuses[j + 1]? = some b)
    (hb : b ≠ "pending") : a ≠ "pending" := by
  obtain ⟨n, c, mid, hmid, rfl⟩ := h
  refine pending_suffix (List.replicate n "completed" ++ mid) (List.replicate c "pending")
    ?_ ?_ j a b h1 h2 hb
  · intro x hx
    rcases List.mem_append.mp hx with hx | hx
    · rw [(List.mem_replicate.mp hx).2]
      decide
    · rcases hmid with rfl | rfl | rfl
      · simp at hx
      · rw [List.mem_singleton.mp hx]
        decide
      · rw [List.mem_singleton.mp hx]
        decide
  · intro x hx
    exact (List.mem_replicate.mp hx).2

theorem executeChainStep_pointers (env : Env) (now : Time) (ev : WaitEvent) (w : ChainWorker)
    (sm : ScenarioManager) :
    (executeChainStep env now ev w sm).1.chain = w.chain ∧
    (executeChainStep env now ev w sm).1.execution = w.execution := by
  cases hc : sm.chain w.chain with
  | none =>
    have : executeChainStep env now ev w sm = (w, sm) := by
      unfold executeChainStep
      simp only [hc]
    rw [this]
    exact ⟨rfl, rfl⟩
  | some chain =>
    cases he : sm.chainExecution w.execution with
    | none =>
      have : executeChainStep env now ev w sm = (w, sm) := by
        unfold executeChainStep
        simp only [hc, he]
      rw [this]
      exact ⟨rfl, rfl⟩
    | some e =>
      cases hpc : w.pc with
      | check =>
        rw [step_check env now ev w sm chain e hc he hpc]
        cases chain.Steps[w.index]? with
        | none => exact ⟨rfl, rfl⟩
        | some step => dsimp only; split_ifs <;> exact ⟨rfl, rfl⟩
      | markRunning =>
        rw [step_markRunning env now ev w sm chain e hc he hpc]
        cases chain.Steps[w.index]? with
        | none => exact ⟨rfl, rfl⟩
        | some step => dsimp only; split_ifs <;> exact ⟨rfl, rfl⟩
      | delay =>
        rw [step_delay env now ev w sm chain e hc he hpc]
        cases ev <;> exact ⟨rfl, rfl⟩
      | wait =>
        rw [step_wait env now ev w sm chain e hc he hpc]
        cases ev <;> exact ⟨rfl, rfl⟩
      | start =>
        cases hstep : chain.Steps[w.index]? with
        | none =>
          have : executeChainStep env now ev w sm = ({ w with pc := ChainPC.exit }, sm) := by
            unfold executeChainStep
            simp only [hc, he, hpc, hstep]
          rw [this]
          exact ⟨rfl, rfl⟩
        | some step =>
          cases hcat : mapGet predefinedScenarios step.ScenarioType with
          | none =>
            rw [step_start_fail env now ev w sm chain e step hc he hpc hstep hcat]
            exact ⟨rfl, rfl⟩
          | some config =>
            rw [step_start_ok env now ev w sm chain e step hc he hpc hstep
              (by rw [hcat]; simp)]
            exact ⟨rfl, rfl⟩
      | complete =>
        rw [step_complete env now ev w sm chain e hc he hpc]
        exact ⟨rfl, rfl⟩
      | exit =>
        rw [step_exit env now ev w sm chain e hc he hpc]
        exact ⟨rfl, rfl⟩
      | done =>
        rw [step_done env now ev w sm hpc]
        exact ⟨rfl, rfl⟩

theorem workerInv_spawn (now : Time) (chainID : String) (sm : ScenarioManager) (c : Addr)
    (chain : ScenarioChain) (hget : sm.storage.GetChain chainID = some c)
    (hc : sm.chain c = some chain) :
    WorkerInv (ChainWorker.spawn c sm.heap.chainExecutions.length,
      (StartChain now chainID sm).2) := by
  rw [startChain_eq now chainID sm c chain hget hc]
  refine ⟨chain, { ID := generateID now, ChainID := chainID, Status := "running",
                   StartedAt := now, CompletedAt := none, Error := "",
                   Steps := executionSteps 0 chain.Steps }, hc, ?_,
    executionSteps_length 0 chain.Steps, ?_⟩
  · simp [ScenarioManager.chainExecution, ChainWorker.spawn]
  · show ∃ m, _ = _
    exact ⟨chain.Steps.length, by
      simp [ChainExecution.statuses, executionSteps_status, ChainWorker.spawn]⟩

theorem chainRun_inv (env : Env) (start s : ChainWorker × ScenarioManager)
    (h0 : WorkerInv start) (hrun : ChainRun env start s) :
    WorkerInv s ∧ s.1.chain = start.1.chain ∧ s.1.execution = start.1.execution := by
  induction hrun with
  | init => exact ⟨h0, rfl, rfl⟩
  | move now ev s _ ih =>
    have hp := executeChainStep_pointers env now ev s.1 s.2
    exact ⟨workerInv_move env now ev s.1 s.2 ih.1, hp.1.trans ih.2.1, hp.2.trans ih.2.2⟩
  | stopChain now id s _ ih =>
    exact ⟨workerInv_preserved s.1 s.2 _ ih.1 (preserves_stopChain now id _ _ s.2),
      ih.2.1, ih.2.2⟩
  | startChain now id s _ ih =>
    exact ⟨workerInv_preserved s.1 s.2 _ ih.1 (preserves_startChain now id _ _ s.2),
      ih.2.1, ih.2.2⟩
  | createChain now chain s _ ih =>
    exact ⟨workerInv_preserved s.1 s.2 _ ih.1 (preserves_createChain now chain _ _ s.2),
      ih.2.1, ih.2.2⟩
  | deleteChain id s _ ih =>
    exact ⟨workerInv_preserved s.1 s.2 _ ih.1 (preserves_deleteChain id _ _ s.2),
      ih.2.1, ih.2.2⟩
  | startScenario now t cfg s _ ih =>
    exact ⟨workerInv_preserved s.1 s.2 _ ih.1 (preserves_startScenario env now t cfg _ _ s.2),
      ih.2.1, ih.2.2⟩
  | otherMove now ev other s hne _ ih =>
    exact ⟨workerInv_preserved s.1 s.2 _ ih.1
      (preserves_otherMove env now ev other _ _ s.2 hne), ih.2.1, ih.2.2⟩

/-- C18: at every point of every run of the worker that StartChain starts, in
which its moves interleave with the calls of the chain engine, with
StartScenario and with the moves of other workers, the step statuses of its
execution are a run of completed steps, then at most one step that is running
or failed, then only pending steps; hence at most one step is running, and a
step that has left pending is preceded only by steps that have left pending. -/
theorem chain_steps_shape (env : Env) (now : Time) (chainID : String) (sm : ScenarioManager)
    (c : Addr) (chain : ScenarioChain) (s : ChainWorker × ScenarioManager)
    (hget : sm.storage.GetChain chainID = some c) (hc : sm.chain c = some chain)
    (hrun : ChainRun env
      (ChainWorker.spawn c sm.heap.chainExecutions.length, (StartChain now chainID sm).2) s) :
    ∃ e, s.2.chainExecution sm.heap.chainExecutions.length = some e ∧
      StepsShape e.statuses ∧
      e.statuses.count "running" ≤ 1 ∧
      ∀ (j : Nat) (a b : String), e.statuses[j]? = some a → e.statuses[j + 1]? = some b →
        b ≠ "pending" → a ≠ "pending" := by
  obtain ⟨⟨chain', e, _, he, _, hshape⟩, _, hexec⟩ :=
    chainRun_inv env _ s (workerInv_spawn now chainID sm c chain hget hc) hrun
  have hs := placeShape_stepsShape _ _ _ hshape
  refine ⟨e, ?_, hs, stepsShape_count_running _ hs, stepsShape_pending_order _ hs⟩
  rw [hexec] at he
  exact he

/-! ## Uninterrupted runs of the chain worker -/

theorem runChain_succ (env : Env) (now : Time) (fuel : Nat) (s : ChainWorker × ScenarioManager) :
    runChain env now (fuel + 1) s = runChain env now fuel (timerMove env now s) := rfl

theorem runChain_add (env : Env) (now : Time) (a b : Nat) (s : ChainWorker × ScenarioManager) :
    runChain env now (a + b) s = runChain env now b (runChain env now a s) := by
  induction a generalizing s with
  | zero => simp [runChain]
  | succ n ih =>
    have h : n + 1 + b = (n + b) + 1 := by omega
    rw [h, runChain_succ, runChain_succ, ih]

theorem runChain_done (env : Env) (now : Time) (fuel : Nat) (s : ChainWorker × ScenarioManager)
    (h : s.1.pc = ChainPC.done) : runChain env now fuel s = s := by
  induction fuel with
  | zero => rfl
  | succ n ih =>
    rw [runChain_succ]
    have : timerMove env now s = s := by
      unfold timerMove
      rw [step_done env now _ s.1 s.2 h]
    rw [this, ih]

theorem runChain_of_le (env : Env) (now : Time) (f fuel : Nat)
    (s : ChainWorker × ScenarioManager) (hle : f ≤ fuel)
    (h : (runChain env now f s).1.pc = ChainPC.done) :
    runChain env now fuel s = runChain env now f s := by
  obtain ⟨d, rfl⟩ : ∃ d, fuel = f + d := ⟨fuel - f, by omega⟩
  rw [runChain_add, runChain_done env now d _ h]

theorem move_check_go (env : Env) (now : Time) (c q : Addr) (chain : ScenarioChain) (k : Nat)
    (statuses : List String) (s : ChainWorker × ScenarioManager) (step : ChainStep)
    (h : RunState c q chain ChainPC.check k "running" statuses s)
    (hstep : chain.Steps[k]? = some step) :
    RunState c q chain ChainPC.markRunning k "running" statuses (timerMove env now s) := by
  obtain ⟨w, sm⟩ := s
  obtain ⟨hw, hc, e, he, hst, hlen, hsts⟩ := h
  simp only at hw hc he
  subst hw
  unfold timerMove
  rw [step_check env now _ _ sm chain e hc he rfl]
  simp only [hstep, hst, ne_eq, not_true_eq_false, if_false]
  exact ⟨rfl, hc, e, he, hst, hlen, hsts⟩

theorem move_check_leave (env : Env) (now : Time) (c q : Addr) (chain : ScenarioChain) (k : Nat)
    (status : String) (statuses : List String) (s : ChainWorker × ScenarioManager)
    (h : RunState c q chain ChainPC.check k status statuses s)
    (hleave : chain.Steps[k]? = none ∨ status ≠ "running") :
    RunState c q chain ChainPC.exit k status statuses (timerMove env now s) := by
  obtain ⟨w, sm⟩ := s
  obtain ⟨hw, hc, e, he, hst, hlen, hsts⟩ := h
  simp only at hw hc he
  subst hw
  unfold timerMove
  rw [step_check env now _ _ sm chain e hc he rfl]
  cases hstep : chain.Steps[k]? with
  | none => exact ⟨rfl, hc, e, he, hst, hlen, hsts⟩
  | some step =>
    have hne : e.Status ≠ "running" := by
      rcases hleave with h1 | h1
      · rw [hstep] at h1; cases h1
      · rw [hst]; exact h1
    dsimp only
    rw [if_pos hne]
    exact ⟨rfl, hc, e, he, hst, hlen, hsts⟩

theorem runState_setChainExecution (c q : Addr) (chain : ScenarioChain) (pc : ChainPC)
    (k : Nat) (sm sm' : ScenarioManager) (e e' : ChainExecution)
    (hc : sm.chain c = some chain) (he : sm.chainExecution q = some e)
    (hlen : e.Steps.length = chain.Steps.length)
    (hheap : sm'.heap = sm.heap.setChainExecution q e')
    (hlen' : e'.Steps.length = e.Steps.length) :
    RunState c q chain pc k e'.Status e'.statuses
      ({ chain := c, execution := q, index := k, pc := pc }, sm') := by
  refine ⟨rfl, ?_, e', ?_, rfl, by rw [hlen', hlen], rfl⟩
  · show sm'.heap.chains[c]? = some chain
    rw [hheap]
    exact hc
  · show sm'.heap.chainExecutions[q]? = some e'
    rw [hheap, chainExecution_setChainExecution sm q q e e' he]
    simp

theorem move_markRunning (env : Env) (now : Time) (c q : Addr) (chain : ScenarioChain)
    (k : Nat) (status : String) (statuses : List String) (s : ChainWorker × ScenarioManager)
    (step : ChainStep)
    (h : RunState c q chain ChainPC.markRunning k status statuses s)
    (hstep : chain.Steps[k]? = some step) :
    RunState c q chain (if step.DelayBefore > 0 then ChainPC.delay else ChainPC.start) k status
      (statuses.set k "running") (timerMove env now s) := by
  obtain ⟨w, sm⟩ := s
  obtain ⟨hw, hc, e, he, hst, hlen, hsts⟩ := h
  simp only at hw hc he
  subst hw
  unfold timerMove
  rw [step_markRunning env now _ _ sm chain e hc he rfl]
  have hstat := modifyStep_statuses e k
    (fun st => { st with Status := "running", StartedAt := some now }) "running" (fun _ => rfl)
  have hfld := modifyStep_fields e k
    (fun st => { st with Status := "running", StartedAt := some now })
  have hr := runState_setChainExecution c q chain
    (if step.DelayBefore > 0 then ChainPC.delay else ChainPC.start) k sm
    { sm with
        heap := sm.heap.setChainExecution q
          (e.modifyStep k (fun st => { st with Status := "running", StartedAt := some now })),
        storage := sm.storage.UpdateChainExecution
          (e.modifyStep k
            (fun st => { st with Status := "running", StartedAt := some now })).ID q }
    e _ hc he hlen rfl (modifyStep_length _ _ _)
  rw [hstat, hfld.2.1, hst, hsts] at hr
  simp only [hstep]
  by_cases hd : step.DelayBefore > 0
  · rw [if_pos hd] at hr
    rw [if_pos hd, if_pos hd]
    exact hr
  · rw [if_neg hd] at hr
    rw [if_neg hd, if_neg hd]
    exact hr

theorem move_delay (env : Env) (now : Time) (c q : Addr) (chain : ScenarioChain)
    (k : Nat) (status : String) (statuses : List String) (s : ChainWorker × ScenarioManager)
    (h : RunState c q chain ChainPC.delay k status statuses s) :
    RunState c q chain ChainPC.start k status statuses (timerMove env now s) ∧
    (timerMove env now s).2 = s.2 := by
  obtain ⟨w, sm⟩ := s
  obtain ⟨hw, hc, e, he, hst, hlen, hsts⟩ := h
  simp only at hw hc he
  subst hw
  unfold timerMove
  rw [step_delay env now _ _ sm chain e hc he rfl]
  exact ⟨⟨rfl, hc, e, he, hst, hlen, hsts⟩, rfl⟩

theorem move_wait (env : Env) (now : Time) (c q : Addr) (chain : ScenarioChain)
    (k : Nat) (status : String) (statuses : List String) (s : ChainWorker × ScenarioManager)
    (h : RunState c q chain ChainPC.wait k status statuses s) :
    RunState c q chain ChainPC.complete k status statuses (timerMove env now s) := by
  obtain ⟨w, sm⟩ := s
  obtain ⟨hw, hc, e, he, hst, hlen, hsts⟩ := h
  simp only at hw hc he
  subst hw
  unfold timerMove
  rw [step_wait env now _ _ sm chain e hc he rfl]
  exact ⟨rfl, hc, e, he, hst, hlen, hsts⟩

theorem move_start_ok (env : Env) (now : Time) (c q : Addr) (chain : ScenarioChain)
    (k : Nat) (status : String) (statuses : List String) (s : ChainWorker × ScenarioManager)
    (step : ChainStep)
    (h : RunState c q chain ChainPC.start k status statuses s)
    (hstep : chain.Steps[k]? = some step)
    (hok : mapGet predefinedScenarios step.ScenarioType ≠ none) :
    RunState c q chain (if stepWaits step then ChainPC.wait else ChainPC.complete) k status
      statuses (timerMove env now s) ∧
    (timerMove env now s).2 = (StartScenario env now step.ScenarioType step.Config s.2).2 := by
  obtain ⟨w, sm⟩ := s
  obtain ⟨hw, hc, e, he, hst, hlen, hsts⟩ := h
  simp only at hw hc he
  subst hw
  unfold timerMove
  rw [step_start_ok env now _ _ sm chain e step hc he rfl hstep hok]
  refine ⟨⟨rfl, ?_, e, ?_, hst, hlen, hsts⟩, rfl⟩
  · show (StartScenario env now step.ScenarioType step.Config sm).2.heap.chains[c]? = _
    rw [(startScenario_chain_frame env now _ _ sm).1]
    exact hc
  · show (StartScenario env now step.ScenarioType step.Config sm).2.heap.chainExecutions[q]? = _
    rw [(startScenario_chain_frame env now _ _ sm).2.1]
    exact he

theorem move_complete (env : Env) (now : Time) (c q : Addr) (chain : ScenarioChain)
    (k : Nat) (status : String) (statuses : List String) (s : ChainWorker × ScenarioManager)
    (h : RunState c q chain ChainPC.complete k status statuses s) :
    RunState c q chain ChainPC.check (k + 1) status (statuses.set k "completed")
      (timerMove env now s) := by
  obtain ⟨w, sm⟩ := s
  obtain ⟨hw, hc, e, he, hst, hlen, hsts⟩ := h
  simp only at hw hc he
  subst hw
  unfold timerMove
  rw [step_complete env now _ _ sm chain e hc he rfl]
  have hstat := modifyStep_statuses e k
    (fun st => { st with Status := "completed", CompletedAt := some now }) "completed"
    (fun _ => rfl)
  have hfld := modifyStep_fields e k
    (fun st => { st with Status := "completed", CompletedAt := some now })
  have hr := runState_setChainExecution c q chain ChainPC.check (k + 1) sm
    { sm with
        heap := sm.heap.setChainExecution q
          (e.modifyStep k (fun st => { st with Status := "completed", CompletedAt := some now })),
        storage := sm.storage.UpdateChainExecution
          (e.modifyStep k
            (fun st => { st with Status := "completed", CompletedAt := some now })).ID q }
    e _ hc he hlen rfl (modifyStep_length _ _ _)
  rw [hstat, hfld.2.1, hst, hsts] at hr
  exact hr

theorem move_exit (env : Env) (now : Time) (c q : Addr) (chain : ScenarioChain)
    (k : Nat) (status : String) (statuses : List String) (s : ChainWorker × ScenarioManager)
    (h : RunState c q chain ChainPC.exit k status statuses s) :
    RunState c q chain ChainPC.done k (if status = "running" then "completed" else status)
      statuses (timerMove env now s) ∧
    (∀ e e', s.2.chainExecution q = some e → (timerMove env now s).2.chainExecution q = some e' →
      e'.Steps = e.Steps ∧ e'.Error = e.Error) := by
  obtain ⟨w, sm⟩ := s
  obtain ⟨hw, hc, e, he, hst, hlen, hsts⟩ := h
  simp only at hw hc he
  subst hw
  unfold timerMove
  rw [step_exit env now _ _ sm chain e hc he rfl]
  have hr := runState_setChainExecution c q chain ChainPC.done k sm
    (executeChainExit now { chain := c, execution := q, index := k, pc := ChainPC.exit } e sm)
    e (if e.Status = "running" then { e with Status := "completed", CompletedAt := some now }
        else e)
    hc he hlen rfl (by split_ifs <;> rfl)
  have h1 : (if e.Status = "running" then
      { e with Status := "completed", CompletedAt := some now } else e).Status
      = if status = "running" then "completed" else status := by
    rw [hst]
    split_ifs <;> first | rfl | exact hst
  have h2 : (if e.Status = "running" then
      { e with Status := "completed", CompletedAt := some now } else e).statuses = statuses := by
    rw [← hsts]
    split_ifs <;> rfl
  rw [h1, h2] at hr
  refine ⟨hr, ?_⟩
  intro e0 e' he0 he'
  simp only at he0
  rw [he] at he0
  cases he0
  obtain ⟨_, _, e'', he'', _, _, _⟩ := hr
  have hset : (executeChainExit now
      { chain := c, execution := q, index := k, pc := ChainPC.exit } e sm).chainExecution q
      = some (if e.Status = "running" then
          { e with Status := "completed", CompletedAt := some now } else e) := by
    show (sm.heap.setChainExecution q _).chainExecutions[q]? = _
    rw [chainExecution_setChainExecution sm q q e _ he]
    simp
  simp only at he'
  rw [hset] at he'
  cases he'
  split_ifs <;> exact ⟨rfl, rfl⟩

theorem append_eq_empty (a b : String) (h : a ++ b = "") : a = "" ∧ b = "" := by
  have hd := congrArg String.data h
  rw [String.data_append] at hd
  have hnil : a.data = [] ∧ b.data = [] := List.append_eq_nil.mp hd
  exact ⟨String.ext hnil.1, String.ext hnil.2⟩

theorem runState_length (c q : Addr) (chain : ScenarioChain) (pc : ChainPC) (k : Nat)
    (status : String) (statuses : List String) (s : ChainWorker × ScenarioManager)
    (h : RunState c q chain pc k status statuses s) :
    statuses.length = chain.Steps.length := by
  obtain ⟨_, _, e, _, _, hlen, hsts⟩ := h
  rw [← hsts, ← hlen]
  simp [ChainExecution.statuses]

theorem runState_pc (c q : Addr) (chain : ScenarioChain) (pc : ChainPC) (k : Nat)
    (status : String) (statuses : List String) (s : ChainWorker × ScenarioManager)
    (h : RunState c q chain pc k status statuses s) : s.1.pc = pc := by
  rw [h.1]

theorem move_start_fail (env : Env) (now : Time) (c q : Addr) (chain : ScenarioChain)
    (k : Nat) (status : String) (statuses : List String) (s : ChainWorker × ScenarioManager)
    (step : ChainStep)
    (h : RunState c q chain ChainPC.start k status statuses s)
    (hstep : chain.Steps[k]? = some step)
    (hbad : mapGet predefinedScenarios step.ScenarioType = none) :
    RunState c q chain ChainPC.exit k "failed" (statuses.set k "failed")
      (timerMove env now s) ∧
    ∃ e st, (timerMove env now s).2.chainExecution q = some e ∧ e.Error ≠ "" ∧
      e.Steps[k]? = some st ∧ st.Error ≠ "" := by
  obtain ⟨w, sm⟩ := s
  obtain ⟨hw, hc, e, he, hst, hlen, hsts⟩ := h
  simp only at hw hc he
  subst hw
  unfold timerMove
  rw [step_start_fail env now _ _ sm chain e step hc he rfl hstep hbad]
  have hstat := modifyStep_statuses e k
    (fun st => { st with Status := "failed",
                         Error := (SMError.UnknownScenario step.ScenarioType).Error })
    "failed" (fun _ => rfl)
  have key : ∀ e1 : ChainExecution, e1.Steps.length = e.Steps.length →
      RunState c q chain ChainPC.exit k e1.Status e1.statuses
        ({ chain := c, execution := q, index := k, pc := ChainPC.exit },
          { sm with heap := sm.heap.setChainExecution q e1 }) :=
    fun e1 hl => runState_setChainExecution c q chain ChainPC.exit k sm
      { sm with heap := sm.heap.setChainExecution q e1 } e e1 hc he hlen rfl hl
  have hr : RunState c q chain ChainPC.exit k "failed"
      (e.modifyStep k (fun st =>
        { st with Status := "failed",
                  Error := (SMError.UnknownScenario step.ScenarioType).Error })).statuses
      ({ chain := c, execution := q, index := k, pc := ChainPC.exit },
        { sm with heap := (sm.heap.setChainExecution q
            { (e.modifyStep k (fun st =>
                { st with Status := "failed",
                          Error := (SMError.UnknownScenario step.ScenarioType).Error })) with
              Status := "failed",
              Error := "Ошибка на шаге " ++ toString (k + 1) ++ ": "
                ++ (SMError.UnknownScenario step.ScenarioType).Error }) }) :=
    key _ (modifyStep_length _ _ _)
  rw [hstat, hsts] at hr
  have hk : k < e.Steps.length := by
    rw [hlen]
    exact lt_of_getElem?_eq_some _ _ _ hstep
  have hst0 : e.Steps[k]? = some (e.Steps.get ⟨k, hk⟩) := List.getElem?_eq_getElem hk
  have herr : (SMError.UnknownScenario step.ScenarioType).Error ≠ "" := by
    intro h0
    exact absurd (append_eq_empty _ _ h0).1 (by decide)
  refine ⟨hr,
    { (e.modifyStep k (fun st =>
        { st with Status := "failed",
                  Error := (SMError.UnknownScenario step.ScenarioType).Error })) with
      Status := "failed",
      Error := "Ошибка на шаге " ++ toString (k + 1) ++ ": "
        ++ (SMError.UnknownScenario step.ScenarioType).Error },
    { (e.Steps.get ⟨k, hk⟩) with
      Status := "failed", Error := (SMError.UnknownScenario step.ScenarioType).Error }, ?_, ?_,
    ?_, herr⟩
  · show (sm.heap.setChainExecution q _).chainExecutions[q]? = _
    rw [chainExecution_setChainExecution sm q q e _ he, if_pos rfl]
  · intro h0
    exact herr (append_eq_empty _ _ h0).2
  · show (e.modifyStep k _).Steps[k]? = _
    unfold ChainExecution.modifyStep
    rw [hst0]
    simp [List.getElem?_set, hk]

theorem run_to_start (env : Env) (now : Time) (c q : Addr) (chain : ScenarioChain)
    (k m : Nat) (s : ChainWorker × ScenarioManager) (step : ChainStep)
    (h : RunState c q chain ChainPC.check k "running"
      (List.replicate k "completed" ++ List.replicate m "pending") s)
    (hstep : chain.Steps[k]? = some step) :
    ∃ f m', f ≤ 3 ∧ RunState c q chain ChainPC.start k "running"
      (List.replicate k "completed" ++ "running" :: List.replicate m' "pending")
      (runChain env now f s) := by
  have h1 := move_check_go env now c q chain k _ s step h hstep
  have h2 := move_markRunning env now c q chain k _ _ _ step h1 hstep
  have hlt : k < (List.replicate k "completed" ++ List.replicate m "pending").length := by
    rw [runState_length c q chain _ _ _ _ s h]
    exact lt_of_getElem?_eq_some _ _ _ hstep
  obtain ⟨m', hm'⟩ := set_replicate_pending k m "running" _ rfl hlt
  rw [hm'] at h2
  by_cases hd : step.DelayBefore > 0
  · rw [if_pos hd] at h2
    exact ⟨3, m', by norm_num, (move_delay env now c q chain k _ _ _ h2).1⟩
  · rw [if_neg hd] at h2
    exact ⟨2, m', by norm_num, h2⟩

theorem run_from_start_ok (env : Env) (now : Time) (c q : Addr) (chain : ScenarioChain)
    (k m : Nat) (status : String) (s : ChainWorker × ScenarioManager) (step : ChainStep)
    (h : RunState c q chain ChainPC.start k status
      (List.replicate k "completed" ++ "running" :: List.replicate m "pending") s)
    (hstep : chain.Steps[k]? = some step)
    (hok : mapGet predefinedScenarios step.ScenarioType ≠ none) :
    ∃ f, f ≤ 3 ∧ RunState c q chain ChainPC.check (k + 1) status
      (List.replicate (k + 1) "completed" ++ List.replicate m "pending")
      (runChain env now f s) := by
  have h1 := (move_start_ok env now c q chain k _ _ s step h hstep hok).1
  have hset : (List.replicate k "completed" ++ "running" :: List.replicate m "pending").set k
      "completed" = List.replicate (k + 1) "completed" ++ List.replicate m "pending" := by
    rw [set_replicate_running k m "completed" _ rfl, replicate_snoc_cons]
  by_cases hw : stepWaits step = true
  · rw [if_pos hw] at h1
    have h3 := move_complete env now c q chain k _ _ _
      (move_wait env now c q chain k _ _ _ h1)
    rw [hset] at h3
    exact ⟨3, by norm_num, h3⟩
  · rw [if_neg hw] at h1
    have h3 := move_complete env now c q chain k _ _ _ h1
    rw [hset] at h3
    exact ⟨2, by norm_num, h3⟩

theorem run_from_start_fail (env : Env) (now : Time) (c q : Addr) (chain : ScenarioChain)
    (k m : Nat) (status : String) (s : ChainWorker × ScenarioManager) (step : ChainStep)
    (h : RunState c q chain ChainPC.start k status
      (List.replicate k "completed" ++ "running" :: List.replicate m "pending") s)
    (hstep : chain.Steps[k]? = some step)
    (hbad : mapGet predefinedScenarios step.ScenarioType = none) :
    RunState c q chain ChainPC.done k "failed"
      (List.replicate k "completed" ++ "failed" :: List.replicate m "pending")
      (runChain env now 2 s) ∧
    ∃ e st, (runChain env now 2 s).2.chainExecution q = some e ∧ e.Error ≠ "" ∧
      e.Steps[k]? = some st ∧ st.Error ≠ "" := by
  obtain ⟨h1, e1, st, he1, herr, hst, hsterr⟩ :=
    move_start_fail env now c q chain k _ _ s step h hstep hbad
  rw [set_replicate_running k m "failed" _ rfl] at h1
  obtain ⟨h2, hkeep⟩ := move_exit env now c q chain k _ _ _ h1
  rw [if_neg (by decide)] at h2
  refine ⟨h2, ?_⟩
  obtain ⟨_, _, e2, he2, _, _, _⟩ := h2
  obtain ⟨hsteps, herror⟩ := hkeep e1 e2 he1 he2
  exact ⟨e2, st, he2, by rw [herror]; exact herr, by rw [hsteps]; exact hst, hsterr⟩

theorem runState_spawn (now : Time) (chainID : String) (sm : ScenarioManager) (c : Addr)
    (chain : ScenarioChain) (hget : sm.storage.GetChain chainID = some c)
    (hc : sm.chain c = some chain) :
    RunState c sm.heap.chainExecutions.length chain ChainPC.check 0 "running"
      (List.replicate 0 "completed" ++ List.replicate chain.Steps.length "pending")
      (ChainWorker.spawn c sm.heap.chainExecutions.length, (StartChain now chainID sm).2) := by
  rw [startChain_eq now chainID sm c chain hget hc]
  refine ⟨rfl, hc, { ID := generateID now, ChainID := chainID, Status := "running",
                     StartedAt := now, CompletedAt := none, Error := "",
                     Steps := executionSteps 0 chain.Steps }, ?_, rfl,
    executionSteps_length 0 chain.Steps, ?_⟩
  · simp [ScenarioManager.chainExecution]
  · simp [ChainExecution.statuses, executionSteps_status]

theorem run_reaches_step (env : Env) (now : Time) (c q : Addr) (chain : ScenarioChain)
    (s : ChainWorker × ScenarioManager) (i : Nat)
    (hgood : ∀ (j : Nat) (step : ChainStep), j < i → chain.Steps[j]? = some step →
      mapGet predefinedScenarios step.ScenarioType ≠ none)
    (hi : i ≤ chain.Steps.length)
    (h0 : RunState c q chain ChainPC.check 0 "running"
      (List.replicate 0 "completed" ++ List.replicate chain.Steps.length "pending") s) :
    ∃ f m, f ≤ 6 * i ∧ RunState c q chain ChainPC.check i "running"
      (List.replicate i "completed" ++ List.replicate m "pending") (runChain env now f s) := by
  induction i with
  | zero => exact ⟨0, chain.Steps.length, le_refl _, h0⟩
  | succ k ih =>
    obtain ⟨f, m, hf, hk⟩ := ih (fun j step hj => hgood j step (by omega)) (by omega)
    have hlt : k < chain.Steps.length := by omega
    have hstep : chain.Steps[k]? = some (chain.Steps.get ⟨k, hlt⟩) :=
      List.getElem?_eq_getElem hlt
    obtain ⟨f1, m1, hf1, h1⟩ := run_to_start env now c q chain k m _ _ hk hstep
    obtain ⟨f2, hf2, h2⟩ := run_from_start_ok env now c q chain k m1 _ _ _ h1 hstep
      (hgood k _ (by omega) hstep)
    refine ⟨f + f1 + f2, m1, by omega, ?_⟩
    rw [runChain_add, runChain_add]
    exact h2

theorem run_from_check (env : Env) (now : Time) (c q : Addr) (chain : ScenarioChain)
    (r : Nat) : ∀ (k m : Nat) (s : ChainWorker × ScenarioManager),
    chain.Steps.length ≤ k + r →
    RunState c q chain ChainPC.check k "running"
      (List.replicate k "completed" ++ List.replicate m "pending") s →
    ∃ f, f ≤ 6 * r + 5 ∧ (runChain env now f s).1.pc = ChainPC.done ∧
      ∃ e, (runChain env now f s).2.chainExecution q = some e ∧
        (("failed" ∈ e.statuses ∧ e.Status = "failed") ∨
         ("failed" ∉ e.statuses ∧ e.Status = "completed")) := by
  induction r with
  | zero =>
    intro k m s hle h
    have hnone : chain.Steps[k]? = none := List.getElem?_eq_none (by omega)
    have h1 := move_check_leave env now c q chain k _ _ s h (Or.inl hnone)
    obtain ⟨h2, _⟩ := move_exit env now c q chain k _ _ _ h1
    rw [if_pos rfl] at h2
    refine ⟨2, by norm_num, runState_pc _ _ _ _ _ _ _ _ h2, ?_⟩
    obtain ⟨_, _, e, he, hst, _, hsts⟩ := h2
    refine ⟨e, he, Or.inr ⟨?_, hst⟩⟩
    rw [hsts]
    intro hmem
    rcases List.mem_append.mp hmem with hm | hm
    · exact absurd (List.mem_replicate.mp hm).2 (by decide)
    · exact absurd (List.mem_replicate.mp hm).2 (by decide)
  | succ r ih =>
    intro k m s hle h
    cases hstep : chain.Steps[k]? with
    | none =>
      have h1 := move_check_leave env now c q chain k _ _ s h (Or.inl hstep)
      obtain ⟨h2, _⟩ := move_exit env now c q chain k _ _ _ h1
      rw [if_pos rfl] at h2
      refine ⟨2, by omega, runState_pc _ _ _ _ _ _ _ _ h2, ?_⟩
      obtain ⟨_, _, e, he, hst, _, hsts⟩ := h2
      refine ⟨e, he, Or.inr ⟨?_, hst⟩⟩
      rw [hsts]
      intro hmem
      rcases List.mem_append.mp hmem with hm | hm
      · exact absurd (List.mem_replicate.mp hm).2 (by decide)
      · exact absurd (List.mem_replicate.mp hm).2 (by decide)
    | some step =>
      obtain ⟨f1, m1, hf1, h1⟩ := run_to_start env now c q chain k m s step h hstep
      cases hcat : mapGet predefinedScenarios step.ScenarioType with
      | none =>
        obtain ⟨h2, _⟩ := run_from_start_fail env now c q chain k m1 _ _ step h1 hstep hcat
        refine ⟨f1 + 2, by omega, ?_, ?_⟩
        · rw [runChain_add]
          exact runState_pc _ _ _ _ _ _ _ _ h2
        · rw [runChain_add]
          obtain ⟨_, _, e, he, hst, _, hsts⟩ := h2
          refine ⟨e, he, Or.inl ⟨?_, hst⟩⟩
          rw [hsts]
          simp
      | some config =>
        obtain ⟨f2, hf2, h2⟩ := run_from_start_ok env now c q chain k m1 _ _ step h1 hstep
          (by rw [hcat]; simp)
        obtain ⟨f3, hf3, h3⟩ := ih (k + 1) m1 _ (by omega) h2
        refine ⟨f1 + f2 + f3, by omega, ?_⟩
        rw [runChain_add, runChain_add]
        exact h3

/-- Uninterrupted runs: take a chain of the store and the worker that StartChain
starts for it, making its moves one after the other with every timer elapsing,
in a process that keeps running and with no call of another goroutine in
between. If step
`i` is the first step whose scenario type is outside the catalogue, every run of
at least `6 * i + 5` moves has ended, with steps before `i` completed, step `i`
failed with a non-empty error, the steps after `i` pending, and the execution
failed with a non-empty error. For every chain, every run of at least
`6 * n + 5` moves (`n` steps) has ended, and the execution is failed if it has a
failed step and completed otherwise. -/
theorem chain_run_fails_at_first_unknown_step (env : Env) (now0 now : Time)
    (chainID : String) (sm : ScenarioManager) (c : Addr) (chain : ScenarioChain)
    (hget : sm.storage.GetChain chainID = some c) (hc : sm.chain c = some chain) :
    (∀ (i : Nat) (stepi : ChainStep),
      (∀ (j : Nat) (step : ChainStep), j < i → chain.Steps[j]? = some step →
        mapGet predefinedScenarios step.ScenarioType ≠ none) →
      chain.Steps[i]? = some stepi →
      mapGet predefinedScenarios stepi.ScenarioType = none →
      ∀ fuel, 6 * i + 5 ≤ fuel →
        (runChain env now fuel (ChainWorker.spawn c sm.heap.chainExecutions.length,
          (StartChain now0 chainID sm).2)).1.pc = ChainPC.done ∧
        ∃ e st, (runChain env now fuel (ChainWorker.spawn c sm.heap.chainExecutions.length,
            (StartChain now0 chainID sm).2)).2.chainExecution sm.heap.chainExecutions.length
              = some e ∧
          e.Status = "failed" ∧ e.Error ≠ "" ∧
          e.statuses = List.replicate i "completed" ++
            "failed" :: List.replicate (chain.Steps.length - (i + 1)) "pending" ∧
          e.Steps[i]? = some st ∧ st.Status = "failed" ∧ st.Error ≠ "") ∧
    (∀ fuel, 6 * chain.Steps.length + 5 ≤ fuel →
      (runChain env now fuel (ChainWorker.spawn c sm.heap.chainExecutions.length,
        (StartChain now0 chainID sm).2)).1.pc = ChainPC.done ∧
      ∃ e, (runChain env now fuel (ChainWorker.spawn c sm.heap.chainExecutions.length,
          (StartChain now0 chainID sm).2)).2.chainExecution sm.heap.chainExecutions.length
            = some e ∧
        (("failed" ∈ e.statuses ∧ e.Status = "failed") ∨
         ("failed" ∉ e.statuses ∧ e.Status = "completed"))) := by
  have h0 := runState_spawn now0 chainID sm c chain hget hc
  constructor
  · intro i stepi hgood hi hbad fuel hfuel
    have hlt : i < chain.Steps.length := lt_of_getElem?_eq_some _ _ _ hi
    obtain ⟨f, m, hf, hk⟩ := run_reaches_step env now c _ chain _ i hgood (by omega) h0
    obtain ⟨f1, m1, hf1, h1⟩ := run_to_start env now c _ chain i m _ stepi hk hi
    obtain ⟨h2, e, st, he, herr, hst, hsterr⟩ :=
      run_from_start_fail env now c _ chain i m1 _ _ stepi h1 hi hbad
    have hrun : runChain env now (f + f1 + 2)
        (ChainWorker.spawn c sm.heap.chainExecutions.length, (StartChain now0 chainID sm).2)
        = runChain env now 2 (runChain env now f1 (runChain env now f
          (ChainWorker.spawn c sm.heap.chainExecutions.length,
            (StartChain now0 chainID sm).2))) := by
      rw [runChain_add, runChain_add]
    have hdone := runState_pc _ _ _ _ _ _ _ _ h2
    rw [← hrun] at h2 he hdone
    rw [runChain_of_le env now (f + f1 + 2) fuel _ (by omega) hdone]
    refine ⟨hdone, e, st, he, ?_⟩
    have hlen := runState_length _ _ _ _ _ _ _ _ h2
    obtain ⟨_, _, e2, he2, hstatus, _, hsts⟩ := h2
    rw [he] at he2
    cases he2
    have hm1 : m1 = chain.Steps.length - (i + 1) := by
      simp only [List.length_append, List.length_replicate, List.length_cons] at hlen
      omega
    have hstat : st.Status = "failed" := by
      have hmap : e.statuses[i]? = some st.Status := by
        simp [ChainExecution.statuses, hst]
      rw [hsts] at hmap
      rw [List.getElem?_append_right (by simp)] at hmap
      simp at hmap
      exact hmap.symm
    rw [← hm1]
    exact ⟨hstatus, herr, hsts, hst, hstat, hsterr⟩
  · intro fuel hfuel
    obtain ⟨f, hf, hdone, e, he, hcases⟩ :=
      run_from_check env now c _ chain chain.Steps.length 0 chain.Steps.length _ (by omega) h0
    rw [runChain_of_le env now f fuel _ (by omega) hdone]
    exact ⟨hdone, e, he, hcases⟩

/-- An uninterrupted run on a chain of two steps, the first of a catalogue type
and the second not: eleven moves end the run with step 0 completed, step 1
failed and the execution failed. -/
theorem chain_run_fails_at_first_unknown_step_witness :
    (CreateChain 1000 twoStepChain (mainManager withSecondsEnv 0)).2.storage.GetChain
        (generateID 1000) = some 0 ∧
    mapGet predefinedScenarios "load_test" ≠ none ∧
    mapGet predefinedScenarios "nope" = none ∧
    (runChain withSecondsEnv 3000 11 (ChainWorker.spawn 0 0,
      (StartChain 2000 (generateID 1000)
        (CreateChain 1000 twoStepChain (mainManager withSecondsEnv 0)).2).2)).1.pc
      = ChainPC.done ∧
    ∃ e st, (runChain withSecondsEnv 3000 11 (ChainWorker.spawn 0 0,
        (StartChain 2000 (generateID 1000)
          (CreateChain 1000 twoStepChain (mainManager withSecondsEnv 0)).2).2)).2.chainExecution 0
          = some e ∧
      e.Status = "failed" ∧ e.Error ≠ "" ∧
      e.statuses = List.replicate 1 "completed" ++ "failed" :: List.replicate 0 "pending" ∧
      e.Steps[1]? = some st ∧ st.Status = "failed" ∧ st.Error ≠ "" :=
  ⟨by decide, by decide, by decide,
    (chain_run_fails_at_first_unknown_step withSecondsEnv 2000 3000 (generateID 1000)
      (CreateChain 1000 twoStepChain (mainManager withSecondsEnv 0)).2 0
      { twoStepChain with ID := generateID 1000, CreatedAt := 1000, Status := "pending" }
      (by decide) rfl).1 1
      { ScenarioType := "nope", Name := "second", Config := none, DelayBefore := 0, Order := 1 }
      (fun j step hj hs => by
        obtain rfl : j = 0 := by omega
        cases hs
        decide)
      rfl (by decide) 11 (le_refl _)⟩

/-! ## Runs interleaved with a stop -/

theorem chainRun_runChain (env : Env) (now : Time) (start : ChainWorker × ScenarioManager)
    (fuel : Nat) : ∀ s, ChainRun env start s → ChainRun env start (runChain env now fuel s) := by
  induction fuel with
  | zero => exact fun s h => h
  | succ n ih =>
    intro s h
    rw [runChain_succ]
    exact ih _ (ChainRun.move now WaitEvent.timer s h)

/-- Witness of C18 on the run in which the worker marks step 0 running, StopChain
is called during the delay, and the worker then makes three more moves. -/
theorem chain_steps_shape_witness :
    (CreateChain 1000 (delayedChain "load_test") (mainManager withSecondsEnv 0)).2.storage.GetChain
        (generateID 1000) = some 0 ∧
    ∃ e, (stoppedDuringDelay "load_test" 3).2.chainExecution 0 = some e ∧
      StepsShape e.statuses ∧
      e.statuses.count "running" ≤ 1 ∧
      ∀ (j : Nat) (a b : String), e.statuses[j]? = some a → e.statuses[j + 1]? = some b →
        b ≠ "pending" → a ≠ "pending" :=
  ⟨by decide,
    chain_steps_shape withSecondsEnv 2000 (generateID 1000)
      (CreateChain 1000 (delayedChain "load_test") (mainManager withSecondsEnv 0)).2 0
      { delayedChain "load_test" with
          ID := generateID 1000, CreatedAt := 1000, Status := "pending" }
      (stoppedDuringDelay "load_test" 3) (by decide) rfl
      (chainRun_runChain withSecondsEnv 6000 _ 3 _
        (ChainRun.stopChain 3000 (generateID 2000) _
          (chainRun_runChain withSecondsEnv 2000 _ 2 _ ChainRun.init)))⟩

/-- Witness of C12 on a schedule without dates and with a catalogue type: the
callback stores one execution under the new id. -/
theorem executeScheduledScenario_cases_witness :
    scheduledManager.schedule 0
      = some { disabledSchedule with ID := generateID 1000, CreatedAt := 1000 } ∧
    (executeScheduledScenario withSecondsEnv 5000 0 scheduledManager).storage.executions
      = mapSet scheduledManager.storage.executions (generateID 5000)
          scheduledManager.heap.executions.length :=
  ⟨by decide,
    ((executeScheduledScenario_cases withSecondsEnv 5000 0 scheduledManager
      { disabledSchedule with ID := generateID 1000, CreatedAt := 1000 } (by decide)).2.2
      (by decide) (by decide)).1⟩

theorem runState_stopChain (now : Time) (id : String) (c q : Addr) (chain : ScenarioChain)
    (pc : ChainPC) (k : Nat) (status : String) (statuses : List String)
    (s : ChainWorker × ScenarioManager)
    (h : RunState c q chain pc k status statuses s)
    (hid : mapGet s.2.activeChains id = some q) :
    (StopChain now id s.2).1 = none ∧
    RunState c q chain pc k "stopped" statuses (s.1, (StopChain now id s.2).2) ∧
    (StopChain now id s.2).2.activeScenarios = s.2.activeScenarios := by
  obtain ⟨w, sm⟩ := s
  obtain ⟨hw, hc, e, he, hst, hlen, hsts⟩ := h
  simp only at hw hc he hid
  subst hw
  have heq : StopChain now id sm = (none, { sm with
      heap := sm.heap.setChainExecution q { e with Status := "stopped", CompletedAt := some now },
      storage := sm.storage.UpdateChainExecution e.ID q,
      activeChains := mapDelete sm.activeChains id }) := by
    unfold StopChain
    rw [hid]
    simp only [he]
  dsimp only
  rw [heq]
  refine ⟨rfl, ?_, rfl⟩
  have hr := runState_setChainExecution c q chain pc k sm
    { sm with
      heap := sm.heap.setChainExecution q { e with Status := "stopped", CompletedAt := some now },
      storage := sm.storage.UpdateChainExecution e.ID q,
      activeChains := mapDelete sm.activeChains id }
    e { e with Status := "stopped", CompletedAt := some now } hc he hlen rfl rfl
  have hs : ({ e with Status := "stopped", CompletedAt := some now } : ChainExecution).statuses
      = statuses := hsts
  rw [hs] at hr
  exact hr

/-- The moves of a worker after a stop during a delay, in a process that keeps
running: if StopChain is applied to an execution while its worker waits on the
delay before step `k`, whose scenario type is in the catalogue, StopChain
succeeds and marks the execution stopped, but when the wait ends the worker goes
to the call of StartScenario for step `k`, that call registers the scenario,
the worker then marks step `k` completed (after at most three more moves), and
only at the status check of step `k + 1` does it leave, with the execution
stopped and steps `0..k` completed. -/
theorem stop_during_delay_runs_step (env : Env) (now1 now : Time) (id : String) (c q : Addr)
    (chain : ScenarioChain) (k m : Nat) (s : ChainWorker × ScenarioManager) (step : ChainStep)
    (h : RunState c q chain ChainPC.delay k "running"
      (List.replicate k "completed" ++ "running" :: List.replicate m "pending") s)
    (hid : mapGet s.2.activeChains id = some q)
    (hstep : chain.Steps[k]? = some step)
    (hok : mapGet predefinedScenarios step.ScenarioType ≠ none) :
    (StopChain now1 id s.2).1 = none ∧
    RunState c q chain ChainPC.start k "stopped"
      (List.replicate k "completed" ++ "running" :: List.replicate m "pending")
      (runChain env now 1 (s.1, (StopChain now1 id s.2).2)) ∧
    (runChain env now 2 (s.1, (StopChain now1 id s.2).2)).2
      = (StartScenario env now step.ScenarioType step.Config (StopChain now1 id s.2).2).2 ∧
    mapGet (runChain env now 2 (s.1, (StopChain now1 id s.2).2)).2.activeScenarios
      step.ScenarioType ≠ none ∧
    ∃ f, f ≤ 3 ∧
      RunState c q chain ChainPC.check (k + 1) "stopped"
        (List.replicate (k + 1) "completed" ++ List.replicate m "pending")
        (runChain env now (1 + f) (s.1, (StopChain now1 id s.2).2)) ∧
      RunState c q chain ChainPC.done (k + 1) "stopped"
        (List.replicate (k + 1) "completed" ++ List.replicate m "pending")
        (runChain env now (1 + f + 2) (s.1, (StopChain now1 id s.2).2)) := by
  obtain ⟨hnone, hstop, _⟩ := runState_stopChain now1 id c q chain _ k _ _ s h hid
  obtain ⟨h1, hsame⟩ := move_delay env now c q chain k _ _ _ hstop
  obtain ⟨_, hstart⟩ := move_start_ok env now c q chain k _ _ _ step h1 hstep hok
  have hsm : (runChain env now 2 (s.1, (StopChain now1 id s.2).2)).2
      = (StartScenario env now step.ScenarioType step.Config (StopChain now1 id s.2).2).2 := by
    show (timerMove env now (timerMove env now (s.1, (StopChain now1 id s.2).2))).2 = _
    rw [hstart, hsame]
  obtain ⟨f, hf, h2⟩ := run_from_start_ok env now c q chain k m _ _ step h1 hstep hok
  have h3 := move_check_leave env now c q chain (k + 1) _ _ _ h2 (Or.inr (by decide))
  obtain ⟨h4, _⟩ := move_exit env now c q chain (k + 1) _ _ _ h3
  rw [if_neg (by decide)] at h4
  refine ⟨hnone, h1, hsm, ?_, f, hf, ?_, ?_⟩
  · rw [hsm]
    cases hcat : mapGet predefinedScenarios step.ScenarioType with
    | none => exact absurd hcat hok
    | some config =>
      rw [startScenario_eq env now _ _ _ config hcat]
      show mapGet (mapSet _ _ _) _ ≠ none
      rw [mapGet_mapSet, if_pos rfl]
      simp
  · rw [runChain_add]
    exact h2
  · rw [runChain_add, runChain_add]
    exact h4

/-- The moves after a stop during a delay, on the run in which StopChain is
called at instant 3000 while the worker waits on the delay of step 0 of a chain
of one catalogue step. -/
theorem stop_during_delay_runs_step_witness :
    mapGet (waitingOnDelay "load_test").2.activeChains (generateID 2000) = some 0 ∧
    (StopChain 3000 (generateID 2000) (waitingOnDelay "load_test").2).1 = none ∧
    mapGet (runChain withSecondsEnv 6000 2 ((waitingOnDelay "load_test").1,
      (StopChain 3000 (generateID 2000) (waitingOnDelay "load_test").2).2)).2.activeScenarios
      "load_test" ≠ none :=
  have h := stop_during_delay_runs_step withSecondsEnv 3000 6000 (generateID 2000) 0 0
    { delayedChain "load_test" with
        ID := generateID 1000, CreatedAt := 1000, Status := "pending" }
    0 0 (waitingOnDelay "load_test")
    { ScenarioType := "load_test", Name := "step", Config := none, DelayBefore := 5, Order := 0 }
    ⟨rfl, rfl, _, rfl, rfl, rfl, rfl⟩ (by decide) rfl (by decide)
  ⟨by decide, h.1, h.2.2.2.1⟩

/-- C12, the code at an instant that is both before the start date and after the
end date: the schedule is armed with a window starting at second 100, a refused
update leaves it with an end date at second 50, and the callback fires at
second 75; the test of the start date comes first, so the callback returns with
the schedule still enabled and its cron entry still registered. -/
theorem callback_before_start_after_end :
    backwardsWindowManager.1 = some SMError.InvalidDateRange ∧
    (backwardsWindowManager.2.schedule 0).map (fun s => (s.Enabled, s.StartDate, s.EndDate))
      = some (true, some (100 * Second), some (50 * Second)) ∧
    mapGet backwardsWindowManager.2.cronEntries (generateID (10 * Second)) = some 1 ∧
    isBefore (75 * Second) (some (100 * Second)) = true ∧
    isAfter (75 * Second) (some (50 * Second)) = true ∧
    ((executeScheduledScenario oneDateEnv (75 * Second) 0 backwardsWindowManager.2).schedule 0).map
      (fun s => s.Enabled) = some true ∧
    mapGet (executeScheduledScenario oneDateEnv (75 * Second) 0
      backwardsWindowManager.2).cronEntries (generateID (10 * Second)) = some 1 := by
  decide

/-! ## GetLogs -/

theorem lastN_zero {α : Type} (l : List α) : lastN 0 l = [] := by
  simp [lastN]

theorem lastN_snoc {α : Type} (k : Nat) (l : List α) (x : α) :
    lastN (k + 1) (l ++ [x]) = lastN k l ++ [x] := by
  unfold lastN
  have h : (l ++ [x]).length - (k + 1) = l.length - k := by
    simp
  rw [h, List.drop_append_of_le_length (Nat.sub_le _ _)]

theorem lastN_min {α : Type} (k : Nat) (l : List α) : lastN (min k l.length) l = lastN k l := by
  unfold lastN
  by_cases h : k ≤ l.length
  · rw [Nat.min_eq_left h]
  · have h' : l.length ≤ k := Nat.le_of_not_le h
    rw [Nat.min_eq_right h', Nat.sub_self, Nat.sub_eq_zero_of_le h']

theorem lastN_eq_reverse_take {α : Type} (k : Nat) (l : List α) :
    lastN k l = (l.reverse.take k).reverse := by
  unfold lastN
  rw [List.reverse_take, List.reverse_reverse]
  by_cases h : k ≤ l.length
  · simp [h]
  · have h' : l.length ≤ k := Nat.le_of_not_le h
    simp [Nat.sub_eq_zero_of_le h', List.take_of_length_le, h']

theorem matchesFilters_iff (service level : String) (logEntry : LogEntry) :
    matchesFilters service level logEntry = true ↔
      ¬ (service ≠ "" ∧ logEntry.Service ≠ service) ∧
      ¬ (level ≠ "" ∧ logEntry.Level ≠ level) := by
  unfold matchesFilters
  simp only [Bool.and_eq_true, Bool.or_eq_true, decide_eq_true_eq]
  constructor
  · rintro ⟨h1, h2⟩
    exact ⟨fun h => h1.elim h.1 h.2, fun h => h2.elim h.1 h.2⟩
  · rintro ⟨h1, h2⟩
    constructor
    · by_cases hs : service = ""
      · exact Or.inl hs
      · exact Or.inr (by_contra fun hne => h1 ⟨hs, hne⟩)
    · by_cases hl : level = ""
      · exact Or.inl hl
      · exact Or.inr (by_contra fun hne => h2 ⟨hl, hne⟩)

theorem getLogsLoop_eq (logs : List LogEntry) (limit : Int) (service level : String)
    (n : Nat) : ∀ (filtered : List LogEntry) (count : Int), n ≤ logs.length →
    getLogsLoop logs limit service level n filtered count =
      lastN (limit - count).toNat ((logs.take n).filter (matchesFilters service level))
        ++ filtered := by
  induction n with
  | zero =>
    intro filtered count _
    simp [getLogsLoop, lastN]
  | succ n ih =>
    intro filtered count hn
    have hlt : n < logs.length := hn
    obtain ⟨e, hget⟩ : ∃ e, logs[n]? = some e := ⟨_, List.getElem?_eq_getElem hlt⟩
    have htake : logs.take (n + 1) = logs.take n ++ [e] := by
      rw [List.take_succ, hget]
      rfl
    rw [getLogsLoop, htake, List.filter_append]
    by_cases hc : count < limit
    · rw [if_pos hc, hget]
      dsimp only
      by_cases hs : service ≠ "" ∧ e.Service ≠ service
      · have hm : matchesFilters service level e = false := by
          rw [Bool.eq_false_iff]
          intro h
          exact ((matchesFilters_iff _ _ _).mp h).1 hs
        have hf : List.filter (matchesFilters service level) [e] = [] := by
          simp [List.filter, hm]
        rw [if_pos hs, ih filtered count (Nat.le_of_lt hlt), hf, List.append_nil]
      · rw [if_neg hs]
        by_cases hl : level ≠ "" ∧ e.Level ≠ level
        · have hm : matchesFilters service level e = false := by
            rw [Bool.eq_false_iff]
            intro h
            exact ((matchesFilters_iff _ _ _).mp h).2 hl
          have hf : List.filter (matchesFilters service level) [e] = [] := by
            simp [List.filter, hm]
          rw [if_pos hl, ih filtered count (Nat.le_of_lt hlt), hf, List.append_nil]
        · have hm : matchesFilters service level e = true :=
            (matchesFilters_iff _ _ _).mpr ⟨hs, hl⟩
          rw [if_neg hl, ih _ (count + 1) (Nat.le_of_lt hlt)]
          have hk : (limit - count).toNat = (limit - (count + 1)).toNat + 1 := by omega
          have hf : List.filter (matchesFilters service level) [e] = [e] := by
            simp [List.filter, hm]
          rw [hk, hf, lastN_snoc]
          simp
    · rw [if_neg hc]
      have hk : (limit - count).toNat = 0 := by omega
      rw [hk, lastN_zero]
      rfl

theorem getLogs_eq_lastN (limit : Int) (service level : String) (g : Generator) :
    GetLogs limit service level g
      = lastN limit.toNat (g.logs.filter (matchesFilters service level)) := by
  unfold GetLogs
  rw [getLogsLoop_eq g.logs limit service level g.logs.length [] 0 (le_refl _)]
  simp

/-- C26: for a limit that is not negative, GetLogs returns the last
`min(limit, m)` elements of the sub-list of the buffer entries that match the
filters, in the order of the buffer; the result is a sub-list of the buffer,
each of its entries matches both filters, and it has at most `limit` entries. -/
theorem getLogs_last_matching (limit : Int) (service level : String) (g : Generator)
    (hlimit : 0 ≤ limit) :
    GetLogs limit service level g = specGetLogs limit service level g.logs ∧
    List.Sublist (GetLogs limit service level g) g.logs ∧
    (∀ e ∈ GetLogs limit service level g,
      (service = "" ∨ e.Service = service) ∧ (level = "" ∨ e.Level = level)) ∧
    ((GetLogs limit service level g).length : Int) ≤ limit := by
  rw [getLogs_eq_lastN]
  refine ⟨?_, ?_, ?_, ?_⟩
  · unfold specGetLogs
    rw [lastN_min]
  · exact (List.drop_sublist _ _).trans (List.filter_sublist _)
  · intro e he
    have hmem : e ∈ g.logs.filter (matchesFilters service level) :=
      (List.drop_sublist _ _).subset he
    have hm := (List.mem_filter.mp hmem).2
    unfold matchesFilters at hm
    simpa using hm
  · unfold lastN
    rw [List.length_drop]
    omega

/-- Witness of C26 on a buffer of three entries, two of which match. -/
theorem getLogs_last_matching_witness :
    (0 : Int) ≤ 1 ∧
    GetLogs 1 "auth-service" "" threeLogs = [sampleLog "auth-service" "INFO" "newer"] :=
  ⟨by decide, (getLogs_last_matching 1 "auth-service" "" threeLogs (by decide)).1.trans
    (by decide)⟩

/-- C23, the code on a buffer whose matching entries are `older` then `newer`:
GetLogs returns them in that order, not most recent first. -/
theorem getLogs_not_newest_first :
    GetLogs 2 "auth-service" "" threeLogs
      = [sampleLog "auth-service" "INFO" "older", sampleLog "auth-service" "INFO" "newer"] ∧
    specGetLogsNewestFirst 2 "auth-service" "" threeLogs.logs
      = [sampleLog "auth-service" "INFO" "newer", sampleLog "auth-service" "INFO" "older"] ∧
    GetLogs 2 "auth-service" "" threeLogs
      ≠ specGetLogsNewestFirst 2 "auth-service" "" threeLogs.logs := by
  decide

/-- C23, as the code has it: for every buffer, limit and filters, GetLogs
returns the entries that match the filters (an empty filter matches all), cut
to the `limit` most recently appended of them, in the order in which they were
appended: the reverse of the most-recent-first list. -/
theorem getLogs_recent_oldest_first (limit : Int) (service level : String) (g : Generator) :
    GetLogs limit service level g
      = (specGetLogsNewestFirst limit service level g.logs).reverse := by
  rw [getLogs_eq_lastN, lastN_eq_reverse_take]
  unfold specGetLogsNewestFirst
  rw [List.filter_reverse]

/-! ## The generator and the catalogue -/

/-- C27: the name of every catalogue entry is none of the four tags that the
generator recognises, so `generateRealisticLog` takes the default branch for it
and returns what the service branch makes of the unchanged base entry; and the
scenario that StartScenario builds from the entry carries that name. -/
theorem catalogue_names_take_default_branch (t : String) (config : ScenarioConfig)
    (h : mapGet predefinedScenarios t = some config) :
    config.Name ∉ ["black_friday", "normal_load", "high_load", "payment_issues"] ∧
    scenarioBranch config.Name = ScenarioBranch.default ∧
    (∀ d : LogDraws, generateRealisticLog d config.Name = d.serviceLog d.base d.base.Level) ∧
    (∀ d : LogDraws, generateRealisticLog d config.Name = generateRealisticLog d "normal_load") ∧
    (∀ (env : Env) (now : Time) (cfg : Option (GoMap GoValue)) (sm : ScenarioManager),
      (startedScenario env now t cfg sm config).Config.Name = config.Name) := by
  simp only [predefinedScenarios, mapGet] at h
  split_ifs at h <;> cases h <;>
    exact ⟨by decide, by decide, fun _ => rfl, fun _ => rfl, fun _ _ _ _ => rfl⟩

/-- Witness of C27 on the entry `load_test`, whose name is `Load Test`. -/
theorem catalogue_names_take_default_branch_witness :
    (mapGet predefinedScenarios "load_test").map (fun c => c.Name) = some "Load Test" ∧
    scenarioBranch "Load Test" = ScenarioBranch.default :=
  ⟨by decide,
    (catalogue_names_take_default_branch "load_test"
      { Name := "Load Test", Description := "Генерация высокой нагрузки",
        LogCount := 1000, Labels := 0, Parameters := 0 } (by decide)).2.1⟩

/-- C28, the code at two configs where the two readings differ. With a duration
in hours only, the chain worker waits one hour while StartScenario gives the scenario the duration
zero, which makes it a one-shot scenario; with zero seconds and five minutes
the worker waits five minutes while StartScenario, where the seconds are
assigned last, gives the duration zero again. -/
theorem step_wait_differs_from_scenario_duration :
    getDurationFromConfig hoursConfig = (Hour, true) ∧
    stepWaits { ScenarioType := "load_test", Name := "step", Config := some hoursConfig,
                DelayBefore := 0, Order := 0 } = true ∧
    customDuration hoursConfig = 0 ∧
    ((StartScenario withSecondsEnv 1 "load_test" (some hoursConfig)
      (mainManager withSecondsEnv 0)).2.scenario 0).map
        (fun s => (s.Duration, executeScenarioMode s)) = some (0, Mode.Single) ∧
    getDurationFromConfig zeroSecondsConfig = (5 * Minute, true) ∧
    customDuration zeroSecondsConfig = 0 := by
  decide

/-! ## Handlers -/

theorem createChain_stored (now : Time) (chain : ScenarioChain) (sm : ScenarioManager)
    (hid : chain.ID = "") :
    (CreateChain now chain sm).1 = none ∧
    (CreateChain now chain sm).2.storage.GetChain (generateID now)
      = some sm.heap.chains.length ∧
    (CreateChain now chain sm).2.chain sm.heap.chains.length
      = some { chain with ID := generateID now, CreatedAt := now, Status := "pending" } := by
  unfold CreateChain
  rw [if_pos hid]
  refine ⟨rfl, ?_, ?_⟩
  · simp [MemoryStorage.GetChain, MemoryStorage.SaveChain, mapGet_mapSet]
  · simp [ScenarioManager.chain]

/-- C22, as the code has it: for every request that handler `CreateChain`
accepts, the steps list is not empty and the chain stored under the new id has
exactly the steps of the request, so step `i` keeps the order value that the
request carried. -/
theorem handler_createChain_keeps_request_orders (handlerNow now : Time)
    (req : CreateChainRequest) (sm : ScenarioManager)
    (h : (handlersCreateChain handlerNow now req sm).1 = 200) :
    req.Steps ≠ [] ∧
    ∃ chain,
      ((handlersCreateChain handlerNow now req sm).2.storage.GetChain (generateID now)).bind
        (handlersCreateChain handlerNow now req sm).2.chain = some chain ∧
      chain.Steps = req.Steps ∧
      ∀ (i : Nat) (step : ChainStep), req.Steps[i]? = some step →
        (chain.Steps[i]?).map (fun s => s.Order) = some step.Order := by
  by_cases h0 : req.Steps.length = 0
  · have heq : handlersCreateChain handlerNow now req sm = (400, sm) := by
      unfold handlersCreateChain
      rw [if_pos h0]
    rw [heq] at h
    simp at h
  · cases hloop : createChainStepsLoop req.Steps 0 with
    | some i =>
      have heq : handlersCreateChain handlerNow now req sm = (400, sm) := by
        unfold handlersCreateChain
        rw [if_neg h0]
        simp only [hloop]
      rw [heq] at h
      simp at h
    | none =>
      have heq : handlersCreateChain handlerNow now req sm
          = (200, (CreateChain now
              { ID := "", Name := req.Name, Description := req.Description, Steps := req.Steps,
                Status := "pending", StartedAt := none, CompletedAt := none,
                CreatedAt := handlerNow, CreatedBy := "" } sm).2) := by
        unfold handlersCreateChain
        rw [if_neg h0]
        simp only [hloop]
        rfl
      obtain ⟨_, hget, hchain⟩ := createChain_stored now
        { ID := "", Name := req.Name, Description := req.Description, Steps := req.Steps,
          Status := "pending", StartedAt := none, CompletedAt := none,
          CreatedAt := handlerNow, CreatedBy := "" } sm rfl
      rw [heq]
      refine ⟨fun hnil => h0 (by rw [hnil]; rfl),
        { ID := generateID now, Name := req.Name, Description := req.Description,
          Steps := req.Steps, Status := "pending", StartedAt := none, CompletedAt := none,
          CreatedAt := now, CreatedBy := "" }, ?_, rfl, ?_⟩
      · show (Option.bind (MemoryStorage.GetChain _ (generateID now)) _) = _
        rw [hget]
        exact hchain
      · intro i step hi
        show (req.Steps[i]?).map (fun s => s.Order) = _
        rw [hi]
        rfl

/-- Witness of C22 at the failing input: the accepted request carries the order
value 7 on its only step, and the stored step 0 has order 7. -/
theorem handler_createChain_keeps_request_orders_witness :
    (handlersCreateChain 900 1000 orderSevenRequest (mainManager withSecondsEnv 0)).1 = 200 ∧
    ∃ chain,
      ((handlersCreateChain 900 1000 orderSevenRequest
          (mainManager withSecondsEnv 0)).2.storage.GetChain (generateID 1000)).bind
        (handlersCreateChain 900 1000 orderSevenRequest (mainManager withSecondsEnv 0)).2.chain
        = some chain ∧
      (chain.Steps[0]?).map (fun s => s.Order) = some 7 :=
  ⟨by decide,
    match handler_createChain_keeps_request_orders 900 1000 orderSevenRequest
      (mainManager withSecondsEnv 0) (by decide) with
    | ⟨_, chain, hl, _, hord⟩ => ⟨chain, hl, hord 0 _ rfl⟩⟩

/-- C24, as the code has it: the chain stop route binds the parameter `id`,
and the handler reads `execution_id`, which is empty; unless the empty string is
an active execution id, a POST to the route with `e` in the path is answered 400
with the not-found error for the empty id and leaves the manager, execution `e`
included, as it was. -/
theorem post_chain_stop_ignores_path_parameter (now : Time) (e : String)
    (sm : ScenarioManager) (hnone : mapGet sm.activeChains "" = none) :
    matchRoute chainStopRoute ["api", "v1", "chains", e, "stop"] = some [("id", e)] ∧
    postChainStop now ["api", "v1", "chains", e, "stop"] sm
      = (400, some (SMError.ChainExecutionNotFound ""), sm) := by
  have hroute : matchRoute chainStopRoute ["api", "v1", "chains", e, "stop"]
      = some [("id", e)] := by
    simp [matchRoute, chainStopRoute]
  refine ⟨hroute, ?_⟩
  unfold postChainStop
  rw [hroute]
  have hparam : ginParam [("id", e)] "execution_id" = "" := by
    simp [ginParam, mapGet]
  simp only [handlersStopChain, hparam]
  unfold StopChain
  rw [hnone]

/-- Witness of C24 at the failing input: execution `generateID 2000` is active,
the POST with that id in the path is answered 400 and the execution is still
running and active. -/
theorem post_chain_stop_ignores_path_parameter_witness :
    mapGet (chainStartedManager "load_test").activeChains (generateID 2000) = some 0 ∧
    mapGet (chainStartedManager "load_test").activeChains "" = none ∧
    (postChainStop 3000 ["api", "v1", "chains", generateID 2000, "stop"]
      (chainStartedManager "load_test")).1 = 400 ∧
    (((postChainStop 3000 ["api", "v1", "chains", generateID 2000, "stop"]
      (chainStartedManager "load_test")).2.2.chainExecution 0).map (fun x => x.Status))
      = some "running" := by
  have h := (post_chain_stop_ignores_path_parameter 3000 (generateID 2000)
    (chainStartedManager "load_test") (by decide)).2
  refine ⟨by decide, by decide, ?_, ?_⟩
  · rw [h]
  · rw [h]
    decide

/-! ## The counters of the generator -/

/-- C25, as the code has it: a call of GenerateLogs with `n ≥ 0` generates `n`
entries and adds `n` to the counter `appGeneratedLogsTotal`, but only after
`updateEcommerceMetrics` has written the snapshot; so the snapshot ends with
the two counters as they were before the call, and its sample
`app_generated_logs_total` is the number of entries generated by the earlier
calls, the current call not included. -/
theorem generateLogs_publishes_previous_total (ecommerce : List LogEntry → List Metric)
    (draws : Nat → LogDraws) (now : Time) (n : Int) (scenario : String) (g : Generator)
    (hn : 0 ≤ n) :
    ∃ out g', GenerateLogs ecommerce draws now n scenario g = some (out, g') ∧
      (out.length : Int) = n ∧
      g'.appGeneratedLogsTotal = wrapInt64 (g.appGeneratedLogsTotal + n) ∧
      g'.metrics = ecommerce out ++ appMetrics g now ∧
      ((∀ m ∈ ecommerce out, m.Name ≠ "app_generated_logs_total") →
        generatedLogsSample g' = some (g.appGeneratedLogsTotal : ℚ)) := by
  have hlen : (((List.range n.toNat).map
      (fun i => generateRealisticLog (draws i) scenario)).length : Int) = n := by
    rw [List.length_map, List.length_range]
    exact Int.toNat_of_nonneg hn
  refine ⟨(List.range n.toNat).map (fun i => generateRealisticLog (draws i) scenario),
    { logs :=
        if (g.logs ++ (List.range n.toNat).map
            (fun i => generateRealisticLog (draws i) scenario)).length > 50000 then
          (g.logs ++ (List.range n.toNat).map
            (fun i => generateRealisticLog (draws i) scenario)).drop
            ((g.logs ++ (List.range n.toNat).map
              (fun i => generateRealisticLog (draws i) scenario)).length - 50000)
        else g.logs ++ (List.range n.toNat).map
          (fun i => generateRealisticLog (draws i) scenario),
      metrics := ecommerce ((List.range n.toNat).map
          (fun i => generateRealisticLog (draws i) scenario)) ++ appMetrics g now,
      appGeneratedLogsTotal := wrapInt64 (g.appGeneratedLogsTotal +
        (((List.range n.toNat).map
          (fun i => generateRealisticLog (draws i) scenario)).length : Int)),
      appGeneratedMetricsTotal := wrapInt64 (g.appGeneratedMetricsTotal +
        ((ecommerce ((List.range n.toNat).map
          (fun i => generateRealisticLog (draws i) scenario)) ++ appMetrics g now).length
            : Int)) },
    ?_, hlen, ?_, rfl, ?_⟩
  · unfold GenerateLogs
    rw [if_neg (not_lt.mpr hn)]
    rfl
  · show wrapInt64 (g.appGeneratedLogsTotal + _) = _
    rw [hlen]
  · intro hnames
    show ((List.find? _ (ecommerce _ ++ appMetrics g now)).map _) = _
    rw [List.find?_append]
    have hnone : List.find? (fun m => decide (m.Name = "app_generated_logs_total"))
        (ecommerce ((List.range n.toNat).map
          (fun i => generateRealisticLog (draws i) scenario))) = none := by
      rw [List.find?_eq_none]
      intro m hm
      simpa using hnames m hm
    rw [hnone]
    rfl

/-- Witness of C25 at the failing input: in a new process a first call
generates three entries and its snapshot reports none; a second call generates
two more and its snapshot reports three, with five generated. -/
theorem generateLogs_publishes_previous_total_witness :
    (0 : Int) ≤ 3 ∧
    (∃ out g', GenerateLogs requestsTotalOnly constantDraws 0 3 "Load Test" Generator.new
        = some (out, g') ∧ (out.length : Int) = 3 ∧ generatedLogsSample g' = some 0) ∧
    (GenerateLogs requestsTotalOnly constantDraws 0 3 "Load Test" Generator.new).map
      (fun r => (r.1.length, generatedLogsSample r.2, r.2.appGeneratedLogsTotal))
      = some (3, some 0, 3) ∧
    ((GenerateLogs requestsTotalOnly constantDraws 0 3 "Load Test" Generator.new).bind
      (fun r => GenerateLogs requestsTotalOnly constantDraws 0 2 "Load Test" r.2)).map
      (fun r => (r.1.length, generatedLogsSample r.2, r.2.appGeneratedLogsTotal))
      = some (2, some 3, 5) :=
  ⟨by decide,
    match generateLogs_publishes_previous_total requestsTotalOnly constantDraws 0 3 "Load Test"
      Generator.new (by decide) with
    | ⟨out, g', h1, h2, _, _, h5⟩ =>
      ⟨out, g', h1, h2, (h5 (fun m hm => by
        simp only [requestsTotalOnly, List.mem_singleton] at hm
        rw [hm]
        show "ecommerce_http_requests_total" ≠ "app_generated_logs_total"
        decide)).trans (by decide)⟩,
    by decide, by decide⟩

/-! ## CreateSchedule, step by step -/

theorem createdSchedule_fields (now : Time) (schedule : Schedule) :
    (createdSchedule now schedule).ID
      = (if schedule.ID = "" then generateID now else schedule.ID) ∧
    (createdSchedule now schedule).Name = schedule.Name ∧
    (createdSchedule now schedule).ScenarioType = schedule.ScenarioType ∧
    (createdSchedule now schedule).CronExpr = schedule.CronExpr ∧
    (createdSchedule now schedule).Enabled = schedule.Enabled ∧
    (createdSchedule now schedule).StartDate = schedule.StartDate ∧
    (createdSchedule now schedule).EndDate = schedule.EndDate := by
  unfold createdSchedule
  split_ifs <;> exact ⟨rfl, rfl, rfl, rfl, rfl, rfl, rfl⟩

theorem createSchedule_eq_withID (env : Env) (now : Time) (schedule : Schedule)
    (sm : ScenarioManager) :
    CreateSchedule env now schedule sm = createScheduleWithID env now
      (if schedule.ID = "" then { schedule with ID := generateID now } else schedule) sm :=
  rfl

theorem createScheduleWithID_valid (env : Env) (now : Time) (s : Schedule)
    (sm : ScenarioManager) (hparse : env.ParseStandard s.CronExpr = none)
    (hdates : endBeforeStart s = false) :
    createScheduleWithID env now s sm =
      if s.Enabled = true then
        scheduleCronJob env now sm.heap.schedules.length
          { sm with
              heap := { sm.heap with
                schedules := sm.heap.schedules ++ [{ s with CreatedAt := now }] },
              schedules := mapSet sm.schedules s.ID sm.heap.schedules.length,
              storage := sm.storage.SaveSchedule s.ID sm.heap.schedules.length }
      else (none,
          { sm with
              heap := { sm.heap with
                schedules := sm.heap.schedules ++ [{ s with CreatedAt := now }] },
              schedules := mapSet sm.schedules s.ID sm.heap.schedules.length,
              storage := sm.storage.SaveSchedule s.ID sm.heap.schedules.length }) := by
  have hheap : ({ sm.heap with schedules := sm.heap.schedules ++ [s] } : Heap).setSchedule
      sm.heap.schedules.length { s with CreatedAt := now }
      = { sm.heap with schedules := sm.heap.schedules ++ [{ s with CreatedAt := now }] } := by
    unfold Heap.setSchedule
    simp only [set_append_singleton_length]
  unfold createScheduleWithID
  simp only [hparse, hdates, Bool.false_eq_true, if_false, hheap]

theorem createSchedule_valid (env : Env) (now : Time) (schedule : Schedule)
    (sm : ScenarioManager) (hparse : env.ParseStandard schedule.CronExpr = none)
    (hdates : endBeforeStart schedule = false) :
    CreateSchedule env now schedule sm =
      if schedule.Enabled = true then
        scheduleCronJob env now sm.heap.schedules.length (registeredManager now schedule sm)
      else (none, registeredManager now schedule sm) := by
  rw [createSchedule_eq_withID]
  by_cases hid : schedule.ID = ""
  · have hc : createdSchedule now schedule
        = { schedule with ID := generateID now, CreatedAt := now } := by
      unfold createdSchedule
      rw [if_pos hid]
    rw [if_pos hid, createScheduleWithID_valid env now { schedule with ID := generateID now } sm
      hparse hdates]
    unfold registeredManager
    rw [hc]
  · have hc : createdSchedule now schedule = { schedule with CreatedAt := now } := by
      unfold createdSchedule
      rw [if_neg hid]
    rw [if_neg hid, createScheduleWithID_valid env now schedule sm hparse hdates]
    unfold registeredManager
    rw [hc]

theorem registeredManager_schedule (now : Time) (schedule : Schedule) (sm : ScenarioManager) :
    (registeredManager now schedule sm).schedule sm.heap.schedules.length
      = some (createdSchedule now schedule) := by
  simp [registeredManager, ScenarioManager.schedule]

theorem scheduleCronJob_keeps_request (env : Env) (now : Time) (p : Addr)
    (sm : ScenarioManager) (s : Schedule) (hs : sm.schedule p = some s) :
    ∃ s', (scheduleCronJob env now p sm).2.schedule p = some s' ∧
      s'.ID = s.ID ∧ s'.Name = s.Name ∧ s'.ScenarioType = s.ScenarioType ∧
      s'.CronExpr = s.CronExpr ∧ s'.StartDate = s.StartDate ∧ s'.EndDate = s.EndDate ∧
      s'.Enabled = (s.Enabled && !isAfter now s.EndDate) := by
  unfold scheduleCronJob
  rw [hs]
  by_cases hend : isAfter now s.EndDate = true
  · simp only [hend, if_true]
    refine ⟨{ s with Enabled := false }, ?_, rfl, rfl, rfl, rfl, rfl, rfl, by simp⟩
    show (sm.heap.setSchedule p _).schedules[p]? = _
    rw [schedule_setSchedule sm p p s _ hs, if_pos rfl]
  · have hend' : isAfter now s.EndDate = false := by
      cases h : isAfter now s.EndDate
      · rfl
      · exact absurd h hend
    simp only [hend', Bool.false_eq_true, if_false]
    have hheap := (removeCronEntry_frame s.ID sm).2.1
    have hs1 : (removeCronEntry s.ID sm).schedule p = some s := by
      unfold ScenarioManager.schedule
      rw [hheap]
      exact hs
    cases hadd : (removeCronEntry s.ID sm).cronScheduler.AddFunc env now s.CronExpr p with
    | error err =>
      exact ⟨s, hs1, rfl, rfl, rfl, rfl, rfl, rfl, by simp⟩
    | ok r =>
      obtain ⟨entryID, cron⟩ := r
      refine ⟨{ s with NextRun := some (cron.EntryNext entryID) }, ?_, rfl, rfl, rfl, rfl,
        rfl, rfl, by simp⟩
      show ((removeCronEntry s.ID sm).heap.setSchedule p _).schedules[p]? = _
      rw [schedule_setSchedule _ p p s _ hs1, if_pos rfl]

theorem createSchedule_rejects_aux (env : Env) (now : Time) (schedule : Schedule)
    (sm : ScenarioManager) :
    (∀ err, env.ParseStandard schedule.CronExpr = some err →
      (CreateSchedule env now schedule sm).1 = some (SMError.InvalidCron err)) ∧
    (env.ParseStandard schedule.CronExpr = none → endBeforeStart schedule = true →
      (CreateSchedule env now schedule sm).1 = some SMError.InvalidDateRange) := by
  have hexpr : (if schedule.ID = "" then { schedule with ID := generateID now }
      else schedule).CronExpr = schedule.CronExpr := by
    split_ifs <;> rfl
  have hd : endBeforeStart (if schedule.ID = "" then { schedule with ID := generateID now }
      else schedule) = endBeforeStart schedule := by
    split_ifs <;> rfl
  constructor
  · intro err herr
    unfold CreateSchedule
    simp only [hexpr, herr]
  · intro hparse hb
    unfold CreateSchedule
    simp only [hexpr, hparse, hd, hb, if_true]

/-- C21, the code on an enabled schedule whose end date has passed:
CreateSchedule succeeds, and GetSchedule then returns the schedule with
`enabled = false`, not the value submitted. -/
theorem createSchedule_expired_reads_disabled :
    expiredSchedule.Enabled = true ∧
    (CreateSchedule cronLibraryEnv (10 * Second) expiredSchedule
      (mainManager cronLibraryEnv 0)).1 = none ∧
    ((GetSchedule (generateID (10 * Second))
        (CreateSchedule cronLibraryEnv (10 * Second) expiredSchedule
          (mainManager cronLibraryEnv 0)).2).bind
      (CreateSchedule cronLibraryEnv (10 * Second) expiredSchedule
          (mainManager cronLibraryEnv 0)).2.schedule).map
        (fun s => (s.Name, s.Enabled)) = some ("t", false) := by
  decide

/-- C21, as the code has it: when CreateSchedule succeeds, GetSchedule of the
schedule's id returns a schedule with the submitted name, scenario type, cron
expression and dates, and with `enabled` as submitted unless the schedule was
submitted enabled with an end date already passed, in which case it reads
`enabled = false`; CreateChain always succeeds, and GetChain of the chain's id
then returns the submitted name, description and steps. -/
theorem create_then_get_roundtrip (env : Env) (now : Time) (sm : ScenarioManager) :
    (∀ schedule : Schedule, (CreateSchedule env now schedule sm).1 = none →
      ∃ p s,
        GetSchedule (if schedule.ID = "" then generateID now else schedule.ID)
          (CreateSchedule env now schedule sm).2 = some p ∧
        (CreateSchedule env now schedule sm).2.schedule p = some s ∧
        s.Name = schedule.Name ∧ s.ScenarioType = schedule.ScenarioType ∧
        s.CronExpr = schedule.CronExpr ∧ s.StartDate = schedule.StartDate ∧
        s.EndDate = schedule.EndDate ∧
        s.Enabled = (schedule.Enabled && !isAfter now schedule.EndDate)) ∧
    (∀ chain : ScenarioChain, (CreateChain now chain sm).1 = none ∧
      ∃ c stored,
        GetChain (if chain.ID = "" then generateID now else chain.ID)
          (CreateChain now chain sm).2 = some c ∧
        (CreateChain now chain sm).2.chain c = some stored ∧
        stored.Name = chain.Name ∧ stored.Description = chain.Description ∧
        stored.Steps = chain.Steps) := by
  constructor
  · intro schedule hok
    have hparse : env.ParseStandard schedule.CronExpr = none := by
      cases h : env.ParseStandard schedule.CronExpr with
      | none => rfl
      | some err =>
        have := (createSchedule_rejects_aux env now schedule sm).1 err h
        rw [this] at hok
        cases hok
    have hdates : endBeforeStart schedule = false := by
      cases h : endBeforeStart schedule with
      | false => rfl
      | true =>
        have := (createSchedule_rejects_aux env now schedule sm).2 hparse h
        rw [this] at hok
        cases hok
    have hf := createdSchedule_fields now schedule
    have hreg := registeredManager_schedule now schedule sm
    rw [createSchedule_valid env now schedule sm hparse hdates]
    by_cases hen : schedule.Enabled = true
    · rw [if_pos hen]
      obtain ⟨s', hs', _, h2, h3, h4, h5, h6, h7⟩ :=
        scheduleCronJob_keeps_request env now _ _ _ hreg
      refine ⟨sm.heap.schedules.length, s', ?_, hs', by rw [h2, hf.2.1],
        by rw [h3, hf.2.2.1], by rw [h4, hf.2.2.2.1], by rw [h5, hf.2.2.2.2.2.1],
        by rw [h6, hf.2.2.2.2.2.2], by rw [h7, hf.2.2.2.2.1, hf.2.2.2.2.2.2]⟩
      unfold GetSchedule
      rw [(scheduleCronJob_frame env now _ _).2.2.2.2.2.1]
      show mapGet (mapSet _ _ _) _ = _
      rw [hf.1, mapGet_mapSet, if_pos rfl]
    · rw [if_neg hen]
      have hen' : schedule.Enabled = false := by
        cases h : schedule.Enabled
        · rfl
        · exact absurd h hen
      refine ⟨sm.heap.schedules.length, createdSchedule now schedule, ?_, hreg, hf.2.1,
        hf.2.2.1, hf.2.2.2.1, hf.2.2.2.2.2.1, hf.2.2.2.2.2.2, by rw [hf.2.2.2.2.1, hen']; rfl⟩
      unfold GetSchedule
      show mapGet (mapSet _ _ _) _ = _
      rw [hf.1, mapGet_mapSet, if_pos rfl]
  · intro chain
    refine ⟨rfl, sm.heap.chains.length,
      { (if chain.ID = "" then { chain with ID := generateID now } else chain) with
          CreatedAt := now, Status := "pending" }, ?_, ?_, ?_, ?_, ?_⟩
    · unfold GetChain CreateChain
      have hid : (if chain.ID = "" then { chain with ID := generateID now } else chain).ID
          = (if chain.ID = "" then generateID now else chain.ID) := by
        split_ifs <;> rfl
      simp [MemoryStorage.GetChain, MemoryStorage.SaveChain, mapGet_mapSet, hid]
    · simp [CreateChain, ScenarioManager.chain]
    · show (if chain.ID = "" then _ else chain).Name = _
      split_ifs <;> rfl
    · show (if chain.ID = "" then _ else chain).Description = _
      split_ifs <;> rfl
    · show (if chain.ID = "" then _ else chain).Steps = _
      split_ifs <;> rfl

/-- Witness of C21 on an enabled hourly schedule without dates and on the
manager of `main`. -/
theorem create_then_get_roundtrip_witness :
    (CreateSchedule cronLibraryEnv (10 * Second) hourlySchedule
      (mainManager cronLibraryEnv 0)).1 = none ∧
    ∃ p s,
      GetSchedule (if hourlySchedule.ID = "" then generateID (10 * Second) else hourlySchedule.ID)
        (CreateSchedule cronLibraryEnv (10 * Second) hourlySchedule
          (mainManager cronLibraryEnv 0)).2 = some p ∧
      (CreateSchedule cronLibraryEnv (10 * Second) hourlySchedule
        (mainManager cronLibraryEnv 0)).2.schedule p = some s ∧
      s.Name = "t" ∧ s.CronExpr = "@hourly" ∧ s.Enabled = true :=
  ⟨by decide,
    match (create_then_get_roundtrip cronLibraryEnv (10 * Second)
      (mainManager cronLibraryEnv 0)).1 hourlySchedule (by decide) with
    | ⟨p, s, h1, h2, h3, _, h5, _, _, h8⟩ => ⟨p, s, h1, h2, h3, h5, h8.trans (by decide)⟩⟩

theorem scheduleCronJob_reject (env : Env) (now : Time) (p : Addr) (sm : ScenarioManager)
    (s : Schedule) (err : String) (hs : sm.schedule p = some s)
    (hend : isAfter now s.EndDate = false)
    (hreject : env.schedulerParse s.CronExpr = some err) :
    scheduleCronJob env now p sm = (some (SMError.CronAdd err), removeCronEntry s.ID sm) := by
  unfold scheduleCronJob
  rw [hs]
  simp only [hend, Bool.false_eq_true, if_false]
  unfold Cron.AddFunc
  rw [hreject]

/-- C29: for an enabled schedule whose expression passes `cron.ParseStandard`,
whose dates are in order and whose end date has not passed, if the parser of
the cron runtime rejects the expression when the job is added, CreateSchedule
returns the arming error, and yet the schedule is in the schedules index and in
the store under its id, its struct has `enabled = true`, and no cron entry is
registered under its id. -/
theorem createSchedule_arming_failure_keeps_schedule (env : Env) (now : Time)
    (schedule : Schedule) (sm : ScenarioManager) (err : String)
    (hparse : env.ParseStandard schedule.CronExpr = none)
    (hdates : endBeforeStart schedule = false)
    (hen : schedule.Enabled = true)
    (hend : isAfter now schedule.EndDate = false)
    (hreject : env.schedulerParse schedule.CronExpr = some err) :
    (CreateSchedule env now schedule sm).1 = some (SMError.CronAdd err) ∧
    GetSchedule (if schedule.ID = "" then generateID now else schedule.ID)
      (CreateSchedule env now schedule sm).2 = some sm.heap.schedules.length ∧
    mapGet (CreateSchedule env now schedule sm).2.storage.schedules
      (if schedule.ID = "" then generateID now else schedule.ID)
      = some sm.heap.schedules.length ∧
    (∃ s, (CreateSchedule env now schedule sm).2.schedule sm.heap.schedules.length = some s ∧
      s.Enabled = true ∧ s.Name = schedule.Name ∧ s.CronExpr = schedule.CronExpr) ∧
    mapGet (CreateSchedule env now schedule sm).2.cronEntries
      (if schedule.ID = "" then generateID now else schedule.ID) = none := by
  have hf := createdSchedule_fields now schedule
  have hreg := registeredManager_schedule now schedule sm
  rw [createSchedule_valid env now schedule sm hparse hdates, if_pos hen,
    scheduleCronJob_reject env now _ _ (createdSchedule now schedule) err hreg
      (by rw [hf.2.2.2.2.2.2]; exact hend) (by rw [hf.2.2.2.1]; exact hreject)]
  have hfr := removeCronEntry_frame (createdSchedule now schedule).ID
    (registeredManager now schedule sm)
  refine ⟨rfl, ?_, ?_, ⟨createdSchedule now schedule, ?_, by rw [hf.2.2.2.2.1]; exact hen,
    hf.2.1, hf.2.2.2.1⟩, ?_⟩
  · unfold GetSchedule
    show mapGet (removeCronEntry _ _).schedules _ = _
    rw [hfr.2.2.2.1]
    show mapGet (mapSet _ _ _) _ = _
    rw [hf.1, mapGet_mapSet, if_pos rfl]
  · show mapGet (removeCronEntry _ _).storage.schedules _ = _
    rw [hfr.2.2.1]
    show mapGet (mapSet _ _ _) _ = _
    rw [hf.1, mapGet_mapSet, if_pos rfl]
  · show (removeCronEntry _ _).heap.schedules[_]? = _
    rw [hfr.2.1]
    exact hreg
  · rw [← hf.1]
    exact removeCronEntry_cronEntries _ _

/-- Witness of C29 on the five-field expression that the scheduler built with
seconds rejects. -/
theorem createSchedule_arming_failure_keeps_schedule_witness :
    withSecondsEnv.schedulerParse everyMinuteSchedule.CronExpr
      = some "expected exactly 6 fields, found 5: [* * * * *]" ∧
    (CreateSchedule withSecondsEnv 1000 everyMinuteSchedule (mainManager withSecondsEnv 0)).1
      = some (SMError.CronAdd "expected exactly 6 fields, found 5: [* * * * *]") ∧
    GetSchedule (if everyMinuteSchedule.ID = "" then generateID 1000 else everyMinuteSchedule.ID)
      (CreateSchedule withSecondsEnv 1000 everyMinuteSchedule (mainManager withSecondsEnv 0)).2
      = some (mainManager withSecondsEnv 0).heap.schedules.length :=
  have h := createSchedule_arming_failure_keeps_schedule withSecondsEnv 1000
    everyMinuteSchedule (mainManager withSecondsEnv 0) "expected exactly 6 fields, found 5: [* * * * *]"
    (by decide) (by decide) (by decide) (by decide) (by decide)
  ⟨by decide, h.1, h.2.1⟩

/-! ## UpdateSchedule without rollback -/

/-- C30: UpdateSchedule writes the fields through the pointer in source order
and does not undo them. For an existing schedule, an update with a name and a
cron expression that does not parse returns the invalid-cron error and leaves
the struct as it was except for the name, which is the new one; the index, the
cron entries and the cron runtime are untouched. An update whose two dates parse
with the end before the start (and whose cron expression, if any, parses)
returns the date-range error and leaves both new dates on the struct. -/
theorem updateSchedule_no_rollback (env : Env) (now : Time) (id : String)
    (updates : GoMap GoValue) (sm : ScenarioManager) (p : Addr) (schedule : Schedule)
    (hid : mapGet sm.schedules id = some p) (hs : sm.schedule p = some schedule) :
    (∀ name expr err, asString (mapGet updates "name") = some name →
      asString (mapGet updates "cron_expr") = some expr →
      env.ParseStandard expr = some err →
      (UpdateSchedule env now id updates sm).1 = some (SMError.InvalidCron err) ∧
      (UpdateSchedule env now id updates sm).2.schedule p
        = some { schedule with Name := name } ∧
      (UpdateSchedule env now id updates sm).2.schedules = sm.schedules ∧
      (UpdateSchedule env now id updates sm).2.cronEntries = sm.cronEntries ∧
      (UpdateSchedule env now id updates sm).2.cronScheduler = sm.cronScheduler) ∧
    (∀ a b t1 t2,
      (∀ expr, asString (mapGet updates "cron_expr") = some expr →
        env.ParseStandard expr = none) →
      asString (mapGet updates "start_date") = some a → env.parseRFC3339 a = some t1 →
      asString (mapGet updates "end_date") = some b → env.parseRFC3339 b = some t2 →
      t2 < t1 →
      (UpdateSchedule env now id updates sm).1 = some SMError.InvalidDateRange ∧
      (∃ s, (UpdateSchedule env now id updates sm).2.schedule p = some s ∧
        s.StartDate = some t1 ∧ s.EndDate = some t2) ∧
      (UpdateSchedule env now id updates sm).2.schedules = sm.schedules ∧
      (UpdateSchedule env now id updates sm).2.cronEntries = sm.cronEntries ∧
      (UpdateSchedule env now id updates sm).2.cronScheduler = sm.cronScheduler) := by
  constructor
  · intro name expr err hname hexpr herr
    have hcron : updateCronExpr env updates (updateName updates schedule)
        = Except.error err := by
      unfold updateCronExpr
      rw [hexpr]
      simp only [herr]
    have hn : updateName updates schedule = { schedule with Name := name } := by
      unfold updateName
      rw [hname]
    have heq : UpdateSchedule env now id updates sm
        = (some (SMError.InvalidCron err),
            { sm with heap := sm.heap.setSchedule p (updateName updates schedule) }) := by
      unfold UpdateSchedule
      rw [hid]
      simp only [hs, hcron]
    rw [heq, hn]
    refine ⟨rfl, ?_, rfl, rfl, rfl⟩
    show (sm.heap.setSchedule p _).schedules[p]? = _
    rw [schedule_setSchedule sm p p schedule _ hs, if_pos rfl]
  · intro a b t1 t2 hcronOk ha ht1 hb ht2 hlt
    obtain ⟨s2, hcron⟩ : ∃ s2, updateCronExpr env updates (updateName updates schedule)
        = Except.ok s2 := by
      unfold updateCronExpr
      cases hexpr : asString (mapGet updates "cron_expr") with
      | none => exact ⟨_, rfl⟩
      | some expr =>
        simp only [hcronOk expr hexpr]
        exact ⟨_, rfl⟩
    have hstart : (updateEndDate env updates
        (updateStartDate env updates (updateEnabled updates s2))).StartDate = some t1 := by
      unfold updateEndDate updateStartDate
      simp only [ha, ht1, hb, ht2]
    have hendd : (updateEndDate env updates
        (updateStartDate env updates (updateEnabled updates s2))).EndDate = some t2 := by
      unfold updateEndDate
      simp only [hb, ht2]
    have hbad : endBeforeStart (updateEndDate env updates
        (updateStartDate env updates (updateEnabled updates s2))) = true := by
      unfold endBeforeStart
      rw [hstart, hendd]
      simpa using hlt
    have heq : UpdateSchedule env now id updates sm
        = (some SMError.InvalidDateRange,
            { sm with heap := sm.heap.setSchedule p (updateEndDate env updates
              (updateStartDate env updates (updateEnabled updates s2))) }) := by
      unfold UpdateSchedule
      rw [hid]
      simp only [hs, hcron, hbad, if_true]
    rw [heq]
    refine ⟨rfl, ⟨_, ?_, hstart, hendd⟩, rfl, rfl, rfl⟩
    show (sm.heap.setSchedule p _).schedules[p]? = _
    rw [schedule_setSchedule sm p p schedule _ hs, if_pos rfl]

/-- Witness of C30 on the schedule of `scheduledManager`: the refused update
with a bad expression has renamed it, and the refused update with dates out of
order has stored both dates. -/
theorem updateSchedule_no_rollback_witness :
    mapGet scheduledManager.schedules (generateID 1000) = some 0 ∧
    ((UpdateSchedule twoDatesEnv 2000 (generateID 1000) renameBadCronUpdate
        scheduledManager).1 = some (SMError.InvalidCron "expected exactly 5 fields, found 3: [not a cron]") ∧
      (UpdateSchedule twoDatesEnv 2000 (generateID 1000) renameBadCronUpdate
        scheduledManager).2.schedule 0
        = some { disabledSchedule with
            ID := generateID 1000, CreatedAt := 1000, Name := "renamed" }) ∧
    ((UpdateSchedule twoDatesEnv 2000 (generateID 1000) backwardsDatesUpdate
        scheduledManager).1 = some SMError.InvalidDateRange ∧
      ∃ s, (UpdateSchedule twoDatesEnv 2000 (generateID 1000) backwardsDatesUpdate
          scheduledManager).2.schedule 0 = some s ∧
        s.StartDate = some (100 * Second) ∧ s.EndDate = some (50 * Second)) :=
  have h := updateSchedule_no_rollback twoDatesEnv 2000 (generateID 1000)
  ⟨by decide,
    ⟨((h renameBadCronUpdate scheduledManager 0
        { disabledSchedule with ID := generateID 1000, CreatedAt := 1000 }
        (by decide) (by decide)).1 "renamed" "not a cron"
        "expected exactly 5 fields, found 3: [not a cron]" rfl rfl (by decide)).1,
     ((h renameBadCronUpdate scheduledManager 0
        { disabledSchedule with ID := generateID 1000, CreatedAt := 1000 }
        (by decide) (by decide)).1 "renamed" "not a cron"
        "expected exactly 5 fields, found 3: [not a cron]" rfl rfl (by decide)).2.1⟩,
    ⟨((h backwardsDatesUpdate scheduledManager 0
        { disabledSchedule with ID := generateID 1000, CreatedAt := 1000 }
        (by decide) (by decide)).2 "1970-01-01T00:01:40Z" "1970-01-01T00:00:50Z"
        (100 * Second) (50 * Second) (fun _ hexpr => by cases hexpr) rfl (by decide) rfl
        (by decide) (by decide)).1,
     ((h backwardsDatesUpdate scheduledManager 0
        { disabledSchedule with ID := generateID 1000, CreatedAt := 1000 }
        (by decide) (by decide)).2 "1970-01-01T00:01:40Z" "1970-01-01T00:00:50Z"
        (100 * Second) (50 * Second) (fun _ hexpr => by cases hexpr) rfl (by decide) rfl
        (by decide) (by decide)).2.1⟩⟩

/-! ## Where the two readings of a duration agree -/

theorem durations_agree_of_positive (config : GoMap GoValue) :
    (∀ x, asFloat64 (mapGet config "duration_seconds") = some x → 0 < x →
      (getDurationFromConfig config).1 = customDuration config) ∧
    (asFloat64 (mapGet config "duration_seconds") = none →
      ∀ x, asFloat64 (mapGet config "duration_minutes") = some x → 0 < x →
        (getDurationFromConfig config).1 = customDuration config) := by
  constructor
  · intro x hx hpos
    unfold getDurationFromConfig customDuration positiveFloat64
    simp only [hx, hpos, if_true]
  · intro hnone x hx hpos
    unfold getDurationFromConfig customDuration positiveFloat64
    simp only [hnone, hx, hpos, if_true]

/-! ## Failed steps, stops and panics -/

theorem timedPulse_panics_of_close (scenario : Scenario) (endTime now : Time)
    (hactive : scenario.Active = true) (hbefore : now < endTime)
    (hclose : endTime - now < 10 * Second) :
    timedPulse scenario endTime now = Pulse.Panic := by
  have hd : (0 : Int) < endTime - now := sub_pos.mpr hbefore
  have hpos : (0 : ℚ) < ((endTime - now : Int) : ℚ) / 1000000000 := by
    have h1 : (0 : ℚ) < ((endTime - now : Int) : ℚ) := by exact_mod_cast hd
    positivity
  have hlt : ((endTime - now : Int) : ℚ) / 1000000000 < 10 := by
    have h1 : ((endTime - now : Int) : ℚ) < ((10 * Second : Int) : ℚ) := by
      exact_mod_cast hclose
    have h2 : ((10 * Second : Int) : ℚ) = 10 * 1000000000 := by
      norm_num [Second]
    rw [h2] at h1
    rw [div_lt_iff₀ (by norm_num)]
    exact h1
  unfold timedPulse
  have hcond : (!scenario.Active || decide (now > endTime)) = false := by
    simp [hactive, not_lt.mpr (le_of_lt hbefore)]
  dsimp only
  rw [hcond, if_neg (by simp), if_neg (not_le.mpr hpos),
    timedBatchSize_panics _ _ hpos hlt]

/-- C17, the code at two failing inputs. First, a chain whose only step has an
unknown type: the worker marks the step and the execution failed and is about
to run its deferred function, the execution still being in the active index;
StopChain, served at that point, succeeds and writes the status stopped, and
the deferred function leaves it, so the execution ends stopped with a failed
step. Second, a chain whose step gives a duration of fifteen seconds: the
worker waits fifteen seconds, and the Timed scenario it has started panics at
its first pulse, ten seconds after the start, which ends the process before
the wait is over. -/
theorem failed_step_execution_ends_stopped :
    failedBeforeExit.1.pc = ChainPC.exit ∧
    (failedBeforeExit.2.chainExecution 0).map (fun e => (e.Status, e.statuses))
      = some ("failed", ["failed"]) ∧
    mapGet failedBeforeExit.2.activeChains (generateID 2000) = some 0 ∧
    (StopChain 3000 (generateID 2000) failedBeforeExit.2).1 = none ∧
    stoppedAfterFailure.1.pc = ChainPC.done ∧
    (stoppedAfterFailure.2.chainExecution 0).map (fun e => (e.Status, e.statuses))
      = some ("stopped", ["failed"]) ∧
    waitingOnDuration.1.pc = ChainPC.wait ∧
    (waitingOnDuration.2.chainExecution 0).map (fun e => (e.Status, e.statuses))
      = some ("running", ["running"]) ∧
    ∃ sc, waitingOnDuration.2.scenario 0 = some sc ∧
      sc.Started = 2000 ∧ sc.Duration = 15 * Second ∧
      executeScenarioMode sc = Mode.Timed ∧
      timedPulse sc (timedEndTime sc 2000) (2000 + 10 * Second) = Pulse.Panic := by
  refine ⟨by decide, by decide, by decide, by decide, by decide, by decide, by decide,
    by decide, ?_⟩
  refine ⟨{ Type_ := "load_test", Active := true,
            Config := { Name := "Load Test", Description := "Генерация высокой нагрузки",
                        LogCount := 1000, Labels := 5, Parameters := 5 },
            Started := 2000, Duration := 15 * Second, Interval := 0,
            StartDate := none, EndDate := none }, by decide, rfl, rfl, by decide, ?_⟩
  exact timedPulse_panics_of_close _ _ _ (by decide) (by decide) (by decide)

/-! ## Where the two readings of a step's duration agree -/

/-- C28, as the code has it: when `duration_seconds` holds a positive number, or
holds no number while `duration_minutes` holds a positive number, the time the
chain worker waits after starting the step equals the duration of the scenario
that StartScenario registers from the same config. -/
theorem step_wait_equals_scenario_duration (env : Env) (now : Time) (t : String)
    (cfg : GoMap GoValue) (sm : ScenarioManager) (config : ScenarioConfig)
    (ht : mapGet predefinedScenarios t = some config) :
    (∀ x, asFloat64 (mapGet cfg "duration_seconds") = some x → 0 < x →
      (getDurationFromConfig cfg).2 = true ∧
      ((StartScenario env now t (some cfg) sm).2.scenario sm.heap.scenarios.length).map
        (fun sc => sc.Duration) = some (getDurationFromConfig cfg).1) ∧
    (asFloat64 (mapGet cfg "duration_seconds") = none →
      ∀ x, asFloat64 (mapGet cfg "duration_minutes") = some x → 0 < x →
        (getDurationFromConfig cfg).2 = true ∧
        ((StartScenario env now t (some cfg) sm).2.scenario sm.heap.scenarios.length).map
          (fun sc => sc.Duration) = some (getDurationFromConfig cfg).1) := by
  have hsc : ((StartScenario env now t (some cfg) sm).2.scenario sm.heap.scenarios.length).map
      (fun sc => sc.Duration) = some (customDuration cfg) := by
    rw [startScenario_eq env now t (some cfg) sm config ht]
    simp [ScenarioManager.scenario, startedScenario]
  constructor
  · intro x hx hpos
    have hg : getDurationFromConfig cfg = (mulInt64 (float64ToInt64 x) Second, true) := by
      unfold getDurationFromConfig positiveFloat64
      simp only [hx, hpos, if_true]
    rw [hsc, hg, ← (durations_agree_of_positive cfg).1 x hx hpos, hg]
    exact ⟨rfl, rfl⟩
  · intro hnone x hx hpos
    have hg : getDurationFromConfig cfg = (mulInt64 (float64ToInt64 x) Minute, true) := by
      unfold getDurationFromConfig positiveFloat64
      simp only [hnone, hx, hpos, if_true]
    rw [hsc, hg, ← (durations_agree_of_positive cfg).2 hnone x hx hpos, hg]
    exact ⟨rfl, rfl⟩

/-- Witness of C28 on a config with ninety seconds: the worker waits ninety
seconds and the scenario has a duration of ninety seconds. -/
theorem step_wait_equals_scenario_duration_witness :
    asFloat64 (mapGet sampleTimingConfig "duration_seconds") = some 90 ∧
    getDurationFromConfig sampleTimingConfig = (90 * Second, true) ∧
    ((StartScenario withSecondsEnv 2 "load_test" (some sampleTimingConfig)
      (mainManager withSecondsEnv 0)).2.scenario
        (mainManager withSecondsEnv 0).heap.scenarios.length).map (fun sc => sc.Duration)
      = some (getDurationFromConfig sampleTimingConfig).1 :=
  ⟨by decide, by decide,
    ((step_wait_equals_scenario_duration withSecondsEnv 2 "load_test" sampleTimingConfig
      (mainManager withSecondsEnv 0)
      { Name := "Load Test", Description := "Генерация высокой нагрузки",
        LogCount := 1000, Labels := 0, Parameters := 0 } (by decide)).1 90 (by decide)
      (by decide)).2⟩

end LogSim
